import Mathlib

/-!
# Orbit tree update (movement.cpp)

A shallow embedding of the per-tick orbital update of `src/src/movement.cpp`
(`SysOrbit::DoSystem`, `ParseOrbitTree`, `LeaveSOI`, `EnterSOI`, `CrashObject`,
`CalculateImpulse`, `UpdateCommandQueue`) over an explicit registry state.

Modelling decisions.

* Scalars (`double`, `kilometer`, ...) are an arbitrary linearly ordered ring `R`;
  `glm::vec3` is `Vec3 R` with componentwise `+`, `-` and `0`.
* The registry is a record of finite maps `Entity → Option Component`; a marker
  component (`DirtyOrbit`, `Crash`) is a `Bool` per entity.  `entt::null` is
  `Option.none` wherever a handle may be null.
* `registry.get<T>(e)` on an entity without `T` is undefined in C++: every
  operation returns `Option`, and `none` is that failure.
* The C++ functions receive references (`orb`, `pos`, `p_pos`) that their only
  caller binds to the body's `Orbit`, the body's `Kinematics` and the parent's
  `Kinematics`; the model reads and writes those components in the registry, one
  assignment after the other, so that aliasing behaves as in the source.
* The orbital math library (`orbit.h`, `coordinates.h`) and `glm::length`,
  `glm::distance` are not part of the sources: they are fields of `Externals`.
* `ParseOrbitTree` iterates a child vector while the handlers may edit it.  The
  model follows the vector as a contiguous array (`ParseOrbitTree.loop`): begin and
  end are taken once, an erase shifts the later elements down in place and leaves
  the slots behind the new end as they were, so that the loop may skip an entity
  and read another one twice.  Where a slot would be read after a `push_back` onto
  the vector being iterated, which may reallocate it, the model returns `none`.
  Recursion is bounded by an explicit fuel argument.
* `units.h`: a `double` is the number it stands for, an element of an ordered field
  with a floor function; every arithmetic operation is followed by a rounding `fl`
  to a double, which is a parameter of the functions (IEEE 754 round to nearest in
  the program, `roundNearest` on the rationals); the constant `PI` is the double the
  literal denotes.  The conversion
  `(int)x` truncates toward zero and is undefined (`none`) outside the range of a
  32-bit `int`.
* `ParseOrbitTree.trace` and `ParseOrbitTree.exitLog` are `ParseOrbitTree` with a
  log, of the node visits and of the SOI exits; they are used to state the order of
  the visits and where a child list was emptied, and compute the same registry.
-/

namespace orbit

/-- Entity handles of the registry. -/
abbrev Entity := Nat

/-- The type glm::vec3 with its three components. -/
structure Vec3 (R : Type) where
  x : R
  y : R
  z : R
deriving DecidableEq, Repr

instance Vec3.instAdd {R : Type} [Add R] : Add (Vec3 R) :=
  ⟨fun a b => ⟨a.x + b.x, a.y + b.y, a.z + b.z⟩⟩

instance Vec3.instSub {R : Type} [Sub R] : Sub (Vec3 R) :=
  ⟨fun a b => ⟨a.x - b.x, a.y - b.y, a.z - b.z⟩⟩

instance Vec3.instZero {R : Type} [Zero R] : Zero (Vec3 R) :=
  ⟨⟨0, 0, 0⟩⟩

/-- The struct Body of body.h. -/
structure Body (R : Type) where
  radius : R
  SOI : R
  mass : R
  GM : R
  rotation : R
  axial : R
  rotation_offset : R
deriving DecidableEq, Repr

/-- Orbital elements. The sources use the fields semi_major_axis, v (true anomaly), GM and
reference_body; the remaining elements of the struct (declared in orbit.h, which is not among
the sources) are kept in rest. -/
structure Orbit (R E : Type) where
  semi_major_axis : R
  v : R
  GM : R
  reference_body : Option Entity
  rest : E
deriving DecidableEq, Repr

/-- Cached Cartesian state: position and velocity relative to center. -/
structure Kinematics (R : Type) where
  position : Vec3 R
  velocity : Vec3 R
  center : Vec3 R
deriving DecidableEq, Repr

/-- Predicted position one time increment ahead. -/
structure FuturePosition (R : Type) where
  position : Vec3 R
  center : Vec3 R
deriving DecidableEq, Repr

/-- One scheduled manoeuvre of a CommandQueue. -/
structure Command (R : Type) where
  time : R
  delta_v : Vec3 R
deriving DecidableEq, Repr

/-- The one-shot Impulse component. -/
structure Impulse (R : Type) where
  impulse : Vec3 R
deriving DecidableEq, Repr

/-- The one-shot SetTrueAnomaly component. -/
structure SetTrueAnomaly (R : Type) where
  true_anomaly : R
deriving DecidableEq, Repr

/-- What movement.cpp takes from code that is not among the sources: glm, the orbital math
library, the lookahead constant of StarDate and the default-constructed components. -/
structure Externals (R E : Type) where
  length : Vec3 R → R
  distance : Vec3 R → Vec3 R → R
  Vec3ToOrbit : Vec3 R → Vec3 R → R → R → Orbit R E
  toVec3 : Orbit R E → Vec3 R
  OrbitVelocityToVec3 : Orbit R E → R → Vec3 R
  OrbitTimeToVec3 : Orbit R E → R → Vec3 R
  UpdateOrbit : Orbit R E → R → Orbit R E
  ApplyImpulse : Orbit R E → Vec3 R → R → Orbit R E
  TIME_INCREMENT : R
  newKinematics : Kinematics R
  newFuturePosition : FuturePosition R

/-- The registry: one store per component type, the simulation date in seconds
(registry.date.ToSecond()) and the handle registry.sun. -/
structure Registry (R E : Type) where
  valid : Entity → Bool
  orbit : Entity → Option (Orbit R E)
  kinematics : Entity → Option (Kinematics R)
  body : Entity → Option (Body R)
  orbitalSystem : Entity → Option (List Entity)
  futurePosition : Entity → Option (FuturePosition R)
  commandQueue : Entity → Option (List (Command R))
  impulse : Entity → Option (Impulse R)
  setTrueAnomaly : Entity → Option (SetTrueAnomaly R)
  dirtyOrbit : Entity → Bool
  crash : Entity → Bool
  date : R
  sun : Option Entity

section Model

variable {R E : Type}

/-- Overwrite the Orbit of an entity. -/
def Registry.setOrbit (r : Registry R E) (e : Entity) (o : Orbit R E) : Registry R E :=
  { r with orbit := Function.update r.orbit e (some o) }

/-- Overwrite the Kinematics of an entity. -/
def Registry.setKinematics (r : Registry R E) (e : Entity) (k : Kinematics R) : Registry R E :=
  { r with kinematics := Function.update r.kinematics e (some k) }

/-- Overwrite the child list of an entity. -/
def Registry.setChildren (r : Registry R E) (e : Entity) (l : List Entity) : Registry R E :=
  { r with orbitalSystem := Function.update r.orbitalSystem e (some l) }

/-- Overwrite the FuturePosition of an entity. -/
def Registry.setFuturePosition (r : Registry R E) (e : Entity) (f : FuturePosition R) :
    Registry R E :=
  { r with futurePosition := Function.update r.futurePosition e (some f) }

/-- Overwrite the command list of the CommandQueue of an entity. -/
def Registry.setCommands (r : Registry R E) (e : Entity) (q : List (Command R)) : Registry R E :=
  { r with commandQueue := Function.update r.commandQueue e (some q) }

/-- The call registry.emplace_or_replace<DirtyOrbit>(e). -/
def Registry.markDirty (r : Registry R E) (e : Entity) : Registry R E :=
  { r with dirtyOrbit := Function.update r.dirtyOrbit e true }

/-- The call universe.get_or_emplace<Crash>(e). -/
def Registry.markCrash (r : Registry R E) (e : Entity) : Registry R E :=
  { r with crash := Function.update r.crash e true }

/-- The call universe.remove<Impulse>(e). -/
def Registry.removeImpulse (r : Registry R E) (e : Entity) : Registry R E :=
  { r with impulse := Function.update r.impulse e none }

/-- The call registry.remove<SetTrueAnomaly>(e). -/
def Registry.removeSetTrueAnomaly (r : Registry R E) (e : Entity) : Registry R E :=
  { r with setTrueAnomaly := Function.update r.setTrueAnomaly e none }

/-- The call registry.get_or_emplace<Kinematics>(e): a default-constructed component is
added when the entity has none. -/
def Registry.emplaceKinematics (m : Externals R E) (r : Registry R E) (e : Entity) :
    Registry R E :=
  match r.kinematics e with
  | some _ => r
  | none => r.setKinematics e m.newKinematics

/-- The call registry.get_or_emplace<FuturePosition>(e). -/
def Registry.emplaceFuturePosition (m : Externals R E) (r : Registry R E) (e : Entity) :
    Registry R E :=
  match r.futurePosition e with
  | some _ => r
  | none => r.setFuturePosition e m.newFuturePosition

/-- The call registry.get_or_emplace<OrbitalSystem>(e): an empty child list is added when the
entity has none. -/
def Registry.emplaceOrbitalSystem (r : Registry R E) (e : Entity) : Registry R E :=
  match r.orbitalSystem e with
  | some _ => r
  | none => r.setChildren e []

/-- Both std::erase(children, body) and the erase-remove idiom: every occurrence of body is
removed, the other elements keep their order. -/
def eraseAll (l : List Entity) (body : Entity) : List Entity :=
  l.filter (fun e => e != body)

variable [LinearOrderedRing R]

/-- The function SysOrbit::LeaveSOI (movement.cpp 35-62). The references orb, pos and p_pos
are the body's Orbit, the body's Kinematics and the parent's Kinematics. -/
def LeaveSOI (m : Externals R E) (r : Registry R E) (body parent : Entity) :
    Option (Registry R E) :=
  match r.orbit parent with
  | none => none
  | some p_orb =>
    match p_orb.reference_body with
    | none => some r
    | some g =>
      -- registry.get<OrbitalSystem>(p_orb.reference_body).push_back(body)
      match r.orbitalSystem g with
      | none => none
      | some gsys =>
        let r1 := r.setChildren g (gsys ++ [body])
        -- get<Body>(g), get<Kinematics>(g), std::erase(get<OrbitalSystem>(parent).children, body)
        match r1.body g, r1.kinematics g, r1.orbitalSystem parent with
        | some parent_parent_orb, some _, some pt =>
          let r2 := r1.setChildren parent (eraseAll pt body)
          -- orb = Vec3ToOrbit(pos.position + p_pos.position, pos.velocity + p_pos.velocity, ..)
          match r2.kinematics body, r2.kinematics parent, r2.orbit body with
          | some pos, some p_pos, some _ =>
            let r3 := r2.setOrbit body (m.Vec3ToOrbit (pos.position + p_pos.position)
              (pos.velocity + p_pos.velocity) parent_parent_orb.GM r2.date)
            -- orb.reference_body = p_orb.reference_body
            match r3.orbit body, r3.orbit parent with
            | some orb, some p_orb1 =>
              let r4 := r3.setOrbit body { orb with reference_body := p_orb1.reference_body }
              -- pos.position = pos.position + p_pos.position
              match r4.kinematics body, r4.kinematics parent with
              | some pos1, some p_pos1 =>
                let r5 := r4.setKinematics body
                  { pos1 with position := pos1.position + p_pos1.position }
                -- pos.velocity = pos.velocity + p_pos.velocity
                match r5.kinematics body, r5.kinematics parent with
                | some pos2, some p_pos2 =>
                  let r6 := r5.setKinematics body
                    { pos2 with velocity := pos2.velocity + p_pos2.velocity }
                  some (r6.markDirty body)
                | _, _ => none
              | _, _ => none
            | _, _ => none
          | _, _, _ => none
        | _, _, _ => none

/-- The function CrashObject (movement.cpp 64-82); orb is the body's Orbit. -/
def CrashObject (m : Externals R E) (r : Registry R E) (body parent : Entity) :
    Option (Registry R E) :=
  if (r.body body).isSome then some r
  else
    match r.body parent, r.kinematics body with
    | some p_bod, some pos =>
      let r1 :=
        if r.crash body = true then r.setKinematics body { pos with position := 0 } else r
      match r1.kinematics body with
      | none => none
      | some pos1 =>
        if m.length pos1.position ≤ p_bod.radius then
          let r2 := r1.markCrash body
          match r2.kinematics body with
          | none => none
          | some pos2 =>
            let r3 := r2.setKinematics body { pos2 with position := 0 }
            match r3.orbit body with
            | none => none
            | some orb => some (r3.setOrbit body { orb with semi_major_axis := 0 })
        else some r1
    | _, _ => none

/-- The function CalculateImpulse (movement.cpp 84-100); orb is the body's Orbit. -/
def CalculateImpulse (m : Externals R E) (r : Registry R E) (body : Entity) (_parent : Entity) :
    Option (Registry R E) :=
  match r.impulse body with
  | none => some r
  | some impulse =>
    match r.orbit body with
    | none => none
    | some orb =>
      let reference := orb.reference_body
      let r1 := r.emplaceKinematics m body
      match r1.kinematics body with
      | none => none
      | some pos =>
        let r2 := r1.setOrbit body
          { m.Vec3ToOrbit pos.position (pos.velocity + impulse.impulse) orb.GM r1.date with
            reference_body := reference }
        match r2.orbit body with
        | none => none
        | some orb1 =>
          let r3 := r2.setKinematics body
            { pos with position := m.toVec3 orb1,
                       velocity := m.OrbitVelocityToVec3 orb1 orb1.v }
          some ((r3.markDirty body).removeImpulse body)

/-- The function UpdateCommandQueue (movement.cpp 102-120); orb is the body's Orbit. -/
def UpdateCommandQueue (m : Externals R E) (r : Registry R E) (body : Entity)
    (_parent : Option Entity) : Option (Registry R E) :=
  match r.commandQueue body with
  | none => some r
  | some [] => some r
  | some (command :: rest) =>
    if command.time > r.date then some r
    else
      match r.orbit body with
      | none => none
      | some orb =>
        let r1 := r.setOrbit body (m.ApplyImpulse orb command.delta_v command.time)
        let r2 := r1.markDirty body
        -- queue.commands.pop_front()
        some (r2.setCommands body rest)

/-- What EnterSOI does once a sibling matches (movement.cpp 192-204): the body's Orbit and
Kinematics are rewritten relative to the sibling, the body is pushed on the sibling's child
list and erased from the parent's, DirtyOrbit is set. -/
def EnterSOI.reparent (m : Externals R E) (r : Registry R E) (parent body entity : Entity)
    (pos : Kinematics R) (body_comp : Body R) (target_position : Kinematics R) :
    Option (Registry R E) :=
  let orb : Orbit R E :=
    { m.Vec3ToOrbit (pos.position - target_position.position)
        (pos.velocity - target_position.velocity) body_comp.GM r.date with
      reference_body := some entity }
  let r1 := r.setOrbit body orb
  let r2 := r1.setKinematics body
    { pos with position := m.toVec3 orb, velocity := m.OrbitVelocityToVec3 orb orb.v }
  -- registry.get_or_emplace<OrbitalSystem>(entity).push_back(body)
  let r3 := r2.emplaceOrbitalSystem entity
  match r3.orbitalSystem entity with
  | none => none
  | some sys =>
    let r4 := r3.setChildren entity (sys ++ [body])
    -- vec.erase(std::remove(vec.begin(), vec.end(), body), vec.end())
    match r4.orbitalSystem parent with
    | none => none
    | some vec =>
      let r5 := r4.setChildren parent (eraseAll vec body)
      some (r5.markDirty body)

/-- The loop of EnterSOI (movement.cpp 180-210) over the remaining children; pos is the
body's Kinematics. Nothing is written before the first match, at which the function
returns. -/
def EnterSOI.scan (m : Externals R E) (r : Registry R E) (parent body : Entity)
    (pos : Kinematics R) : List Entity → Option (Registry R E × Bool)
  | [] => some (r, false)
  | entity :: rest =>
    if entity = body then EnterSOI.scan m r parent body pos rest
    else
      match r.body entity, r.kinematics entity with
      | some body_comp, some target_position =>
        if m.distance target_position.position pos.position ≤ body_comp.SOI then
          match EnterSOI.reparent m r parent body entity pos body_comp target_position with
          | none => none
          | some r1 => some (r1, true)
        else if some parent = r.sun then EnterSOI.scan m r parent body pos rest
        else EnterSOI.scan m r parent body pos rest
      | _, _ => EnterSOI.scan m r parent body pos rest

/-- The function EnterSOI (movement.cpp 169-212). -/
def EnterSOI (m : Externals R E) (r : Registry R E) (parent body : Entity) :
    Option (Registry R E × Bool) :=
  if (r.body body).isSome then some (r, false)
  else
    match r.kinematics body, r.orbit body, r.orbitalSystem parent with
    | some pos, some _, some o_system => EnterSOI.scan m r parent body pos o_system
    | _, _, _ => none

/-- Lines 127-139 of SysOrbit::ParseOrbitTree: the command queue, the time step of the
orbit, the SetTrueAnomaly override and the Cartesian state recomputed from the elements. -/
def ParseOrbitTree.propagate (m : Externals R E) (parent : Option Entity) (body : Entity)
    (r : Registry R E) : Option (Registry R E) :=
  match r.orbit body with
  | none => none
  | some _ =>
    match UpdateCommandQueue m r body parent with
    | none => none
    | some r1 =>
      -- UpdateOrbit(orb, registry.date.ToSecond())
      match r1.orbit body with
      | none => none
      | some orb =>
        let r2 := r1.setOrbit body (m.UpdateOrbit orb r1.date)
        let r3 := r2.emplaceKinematics m body
        let r4 :=
          match r3.setTrueAnomaly body, r3.orbit body with
          | some s, some orb1 =>
            (r3.setOrbit body { orb1 with v := s.true_anomaly }).removeSetTrueAnomaly body
          | _, _ => r3
        -- pos.position = toVec3(orb); pos.velocity = OrbitVelocityToVec3(orb, orb.v)
        match r4.orbit body, r4.kinematics body with
        | some orb2, some pos =>
          some (r4.setKinematics body
            { pos with position := m.toVec3 orb2,
                       velocity := m.OrbitVelocityToVec3 orb2 orb2.v })
        | _, _ => none

/-- Lines 141-154 of SysOrbit::ParseOrbitTree, for a parent that is not null: SOI exit,
collision, impulse, the new center and SOI entry. -/
def ParseOrbitTree.frame (m : Externals R E) (parent body : Entity) (r : Registry R E) :
    Option (Registry R E) :=
  let r1 := r.emplaceKinematics m parent
  match r1.body parent, r1.kinematics body with
  | some p_bod, some pos =>
    match (if m.length pos.position > p_bod.SOI then LeaveSOI m r1 body parent
      else some r1) with
    | none => none
    | some r2 =>
      match CrashObject m r2 body parent with
      | none => none
      | some r3 =>
        match CalculateImpulse m r3 body parent with
        | none => none
        | some r4 =>
          -- pos.center = p_pos.center + p_pos.position
          match r4.kinematics body, r4.kinematics parent with
          | some pos1, some p_pos =>
            let r5 := r4.setKinematics body { pos1 with center := p_pos.center + p_pos.position }
            match EnterSOI m r5 parent body with
            | none => none
            | some res => some res.1
          | _, _ => none
  | _, _ => none

/-- Lines 156-158 of SysOrbit::ParseOrbitTree: the FuturePosition of the body. -/
def ParseOrbitTree.future (m : Externals R E) (body : Entity) (r : Registry R E) :
    Option (Registry R E) :=
  let r1 := r.emplaceFuturePosition m body
  match r1.orbit body, r1.kinematics body, r1.futurePosition body with
  | some orb, some pos, some future_pos =>
    some (r1.setFuturePosition body
      { future_pos with
        position := m.OrbitTimeToVec3 orb (r1.date + m.TIME_INCREMENT),
        center := pos.center })
  | _, _, _ => none

/-- One node visit: lines 127-158 of SysOrbit::ParseOrbitTree, everything the function does
to the visited body before it recurses into the children. -/
def ParseOrbitTree.visit (m : Externals R E) (parent : Option Entity) (body : Entity)
    (r : Registry R E) : Option (Registry R E) :=
  match ParseOrbitTree.propagate m parent body r with
  | none => none
  | some r1 =>
    match parent with
    | none => ParseOrbitTree.future m body r1
    | some p =>
      match ParseOrbitTree.frame m p body r1 with
      | none => none
      | some r2 => ParseOrbitTree.future m body r2

/-- The loop of lines 163-166 of SysOrbit::ParseOrbitTree over the child vector of the body,
which the calls it makes may change. The range-based for takes begin and end of the vector
once; the loop then reads the slots between them one after the other, as the vector is at that
moment. The arguments are the number of slots still to read, the index of the next slot, the
content buf of the slots from begin to end, and the state; children reads the child list of
the body in a state and step is the call made for the entity read.

An erase shifts the following elements down in place and leaves the slots behind the new end
as they were: when the child list has become l1, the list before the call without the entity
just visited, the slots are l1 followed by the old content of the remaining slots. When the
child list has changed in any other way (a push_back onto the vector being iterated may
reallocate it, after which the loop reads freed memory) and a slot is still to be read, the
result is none. -/
def ParseOrbitTree.loop {σ : Type} (children : σ → Option (List Entity))
    (step : Entity → σ → Option σ) : Nat → Nat → List Entity → σ → Option σ
  | 0, _, _, s => some s
  | k + 1, i, buf, s =>
    match buf[i]? with
    | none => some s
    | some entity =>
      match step entity s with
      | none => none
      | some s1 =>
        if k = 0 then some s1
        else
          match children s, children s1 with
          | some l, some l1 =>
            if l1 = l then ParseOrbitTree.loop children step k (i + 1) buf s1
            else if l1 = eraseAll l entity then
              ParseOrbitTree.loop children step k (i + 1) (l1 ++ buf.drop l1.length) s1
            else none
          | _, _ => none

/-- The function SysOrbit::ParseOrbitTree (movement.cpp 122-167). The first argument bounds
the depth of the recursion; none is returned when it is exhausted. The loop over the children
starts on the child list as it is after the visit of the body and follows the vector while the
calls change it (ParseOrbitTree.loop). -/
def ParseOrbitTree (m : Externals R E) :
    Nat → Option Entity → Entity → Registry R E → Option (Registry R E)
  | 0, _, _, _ => none
  | fuel + 1, parent, body, r =>
    if r.valid body = false then some r
    else
      match ParseOrbitTree.visit m parent body r with
      | none => none
      | some r1 =>
        match r1.orbitalSystem body with
        | none => some r1
        | some children =>
          ParseOrbitTree.loop (fun s => s.orbitalSystem body)
            (fun entity acc => ParseOrbitTree m fuel (some body) entity acc)
            children.length 0 children r1

/-- The function SysOrbit::DoSystem (movement.cpp 31-33): one walk from the center. -/
def DoSystem (m : Externals R E) (fuel : Nat) (center : Entity) (_time : R) (r : Registry R E) :
    Option (Registry R E) :=
  ParseOrbitTree m fuel none center r

end Model

/-! ## Reference predicates and concrete scenarios -/

section Reference

variable {R E : Type} [LinearOrderedRing R]

/-- The siblings EnterSOI accepts, in the words of the specification: an entity other than the
body that carries both Body and Kinematics and whose distance to the body is at most its SOI.
The distance is taken with the arguments in the order of the source. -/
def SiblingQualifies (m : Externals R E) (r : Registry R E) (body : Entity) (pos : Kinematics R)
    (S : Entity) : Bool :=
  decide (S ≠ body) &&
    (match r.body S, r.kinematics S with
     | some body_comp, some target_position =>
       decide (m.distance target_position.position pos.position ≤ body_comp.SOI)
     | _, _ => false)

/-- Modelled from the spec: the orbital math library (orbit.h and coordinates.h, which are
not among the sources) converts between the Cartesian state and the orbital elements.
ElementsToPosition (toVec3) and ElementsToVelocity (OrbitVelocityToVec3, at the true anomaly of
the elements) return the position and the velocity from which StateToElements (Vec3ToOrbit)
built the elements, whatever reference body is then stored in them. -/
def Externals.Converts (m : Externals R E) : Prop :=
  ∀ (p v : Vec3 R) (gm t : R) (ref : Option Entity),
    m.toVec3 { m.Vec3ToOrbit p v gm t with reference_body := ref } = p ∧
    m.OrbitVelocityToVec3 { m.Vec3ToOrbit p v gm t with reference_body := ref }
      (m.Vec3ToOrbit p v gm t).v = v

/-- The command queue processor in the words of the specification: when the body has a
non-empty CommandQueue whose front command has time ≤ the current time, the Orbit becomes
ApplyDeltaV(Orbit, front.delta_v, front.time), DirtyOrbit is marked and the queue becomes its
previous tail; otherwise (no queue, an empty queue, a front command still in the future)
nothing changes. -/
def UpdateCommandQueue.reference (m : Externals R E) (r : Registry R E) (body : Entity) :
    Registry R E :=
  match r.commandQueue body, r.orbit body with
  | some (front :: tail), some orb =>
    if front.time ≤ r.date then
      { r with
        orbit := Function.update r.orbit body
          (some (m.ApplyImpulse orb front.delta_v front.time))
        dirtyOrbit := Function.update r.dirtyOrbit body true
        commandQueue := Function.update r.commandQueue body (some tail) }
    else r
  | _, _ => r

/-- Successive ticks of the command queue processor: for each date of the list, in order, the
simulation date is set to it and UpdateCommandQueue is called once on the body. -/
def UpdateCommandQueue.ticks (m : Externals R E) (body : Entity) (parent : Option Entity) :
    List R → Registry R E → Option (Registry R E)
  | [], r => some r
  | t :: ts, r =>
    match UpdateCommandQueue m { r with date := t } body parent with
    | none => none
    | some r1 => UpdateCommandQueue.ticks m body parent ts r1

/-- Modelled from the spec: the orbital math library (orbit.h, not among the sources) works on
the orbital elements. Advancing an Orbit in time (ElementsToTime, UpdateOrbit) and applying a
delta-v to it (ApplyDeltaV, ApplyImpulse) return an Orbit around the same reference body. -/
def Externals.KeepsFrame (m : Externals R E) : Prop :=
  (∀ (o : Orbit R E) (t : R), (m.UpdateOrbit o t).reference_body = o.reference_body) ∧
  (∀ (o : Orbit R E) (dv : Vec3 R) (t : R),
    (m.ApplyImpulse o dv t).reference_body = o.reference_body)

/-- The registry r1 differs from r at most in the components of the entity body: the valid
flags, the Body components, every child list, the date and the sun are those of r, and so is
every component of every other entity. -/
structure Registry.SameExceptAt (body : Entity) (r r1 : Registry R E) : Prop where
  valid : r1.valid = r.valid
  bodies : r1.body = r.body
  orbitalSystem : r1.orbitalSystem = r.orbitalSystem
  date : r1.date = r.date
  sun : r1.sun = r.sun
  orbit : ∀ e, e ≠ body → r1.orbit e = r.orbit e
  kinematics : ∀ e, e ≠ body → r1.kinematics e = r.kinematics e
  futurePosition : ∀ e, e ≠ body → r1.futurePosition e = r.futurePosition e
  commandQueue : ∀ e, e ≠ body → r1.commandQueue e = r.commandQueue e
  impulse : ∀ e, e ≠ body → r1.impulse e = r.impulse e
  setTrueAnomaly : ∀ e, e ≠ body → r1.setTrueAnomaly e = r.setTrueAnomaly e
  dirtyOrbit : ∀ e, e ≠ body → r1.dirtyOrbit e = r.dirtyOrbit e
  crash : ∀ e, e ≠ body → r1.crash e = r.crash e

/-- The registry r with its FuturePosition store replaced by f. -/
def Registry.withFuture (r : Registry R E) (f : Entity → Option (FuturePosition R)) :
    Registry R E :=
  { r with futurePosition := f }

/-- The registry r without its FuturePosition components: two registries differ only in the
stored FuturePosition components exactly when they have the same image. -/
def Registry.eraseFuture (r : Registry R E) : Registry R E :=
  r.withFuture (fun _ => none)

/-- Every OrbitalSystem component of the registry has at least one child. -/
def Registry.SystemsNonEmpty (r : Registry R E) : Prop :=
  ∀ e l, r.orbitalSystem e = some l → l ≠ []

/-- No OrbitalSystem component of r is missing in r1. -/
def Registry.SystemsKept (r r1 : Registry R E) : Prop :=
  ∀ e, (r.orbitalSystem e).isSome = true → (r1.orbitalSystem e).isSome = true

/-- The entity e is in the child list of p. -/
def Registry.Child (r : Registry R E) (p e : Entity) : Prop :=
  ∃ l, r.orbitalSystem p = some l ∧ e ∈ l

/-- The entity b is a, or a child of a, or a child of a child, and so on: b is in the subtree
the walk from a goes through. -/
def Registry.Reaches (r : Registry R E) (a b : Entity) : Prop :=
  Relation.ReflTransGen r.Child a b

/-- The registries r and r1 hold the same components for the entity e. -/
structure Registry.SameAt (e : Entity) (r r1 : Registry R E) : Prop where
  orbit : r1.orbit e = r.orbit e
  kinematics : r1.kinematics e = r.kinematics e
  futurePosition : r1.futurePosition e = r.futurePosition e
  commandQueue : r1.commandQueue e = r.commandQueue e
  impulse : r1.impulse e = r.impulse e
  setTrueAnomaly : r1.setTrueAnomaly e = r.setTrueAnomaly e
  dirtyOrbit : r1.dirtyOrbit e = r.dirtyOrbit e
  crash : r1.crash e = r.crash e

/-- The registries r and r1 have the same valid entities, the same Body components, the same
child lists, the same date and the same sun. -/
structure Registry.SameFrame (r r1 : Registry R E) : Prop where
  valid : r1.valid = r.valid
  bodies : r1.body = r.body
  orbitalSystem : r1.orbitalSystem = r.orbitalSystem
  date : r1.date = r.date
  sun : r1.sun = r.sun

/-- The function SysOrbit::ParseOrbitTree with a log of the node visits: the body is appended
to the log when lines 127-158 have run for it, before the loop over its children. The registry
it computes is the one ParseOrbitTree computes. -/
def ParseOrbitTree.trace (m : Externals R E) :
    Nat → Option Entity → Entity → Registry R E × List Entity →
      Option (Registry R E × List Entity)
  | 0, _, _, _ => none
  | fuel + 1, parent, body, acc =>
    if acc.1.valid body = false then some acc
    else
      match ParseOrbitTree.visit m parent body acc.1 with
      | none => none
      | some r1 =>
        match r1.orbitalSystem body with
        | none => some (r1, acc.2 ++ [body])
        | some children =>
          ParseOrbitTree.loop (fun a => a.1.orbitalSystem body)
            (fun entity a => ParseOrbitTree.trace m fuel (some body) entity a)
            children.length 0 children (r1, acc.2 ++ [body])

/-- The registry is a finite tree below the center in which no SOI transition can fire during
the tick. Every entity the walk reaches is valid and has an Orbit; the child lists have no
repetition, no reachable entity is in the child lists of two reachable entities, and rank
decreases from parent to child (the tree is finite and has no cycle); every entity in a child
list carries Body, and so does its parent; and the position recomputed from the Orbit of a
child at the start of its visit (lines 127-139) is at most the SOI of its parent's Body. -/
structure Registry.QuietTree (m : Externals R E) (r : Registry R E) (center : Entity)
    (rank : Entity → Nat) : Prop where
  valid : ∀ e, r.Reaches center e → r.valid e = true
  orbit : ∀ e, r.Reaches center e → (r.orbit e).isSome = true
  rank : ∀ p e, r.Reaches center p → r.Child p e → rank e < rank p
  parent : ∀ p q e, r.Reaches center p → r.Reaches center q → r.Child p e → r.Child q e → p = q
  nodup : ∀ p l, r.Reaches center p → r.orbitalSystem p = some l → l.Nodup
  tagged : ∀ p e, r.Reaches center p → r.Child p e → (r.body e).isSome = true
  parentBody : ∀ p e, r.Reaches center p → r.Child p e → (r.body p).isSome = true
  inside : ∀ p e pb rp k, r.Reaches center p → r.Child p e → r.body p = some pb →
    ParseOrbitTree.propagate m (some p) e r = some rp → rp.kinematics e = some k →
    m.length k.position ≤ pb.SOI

/-- What a walk over the subtrees of the entities cs has done when it went from the registry r
to r1 and appended L to the log; r0 is the registry whose child lists define the subtrees and
origin is the absolute position (center + position) of the common parent of cs, if any. The
frame is kept, the components of the entities outside the subtrees are kept, every reference
body is kept; every entity of cs has the center origin, every child in the subtrees has as
center the absolute position of its parent; and L lists the entities of the subtrees once
each, every parent before its children. -/
structure Registry.WalkedBelow (r0 : Registry R E) (origin : Option (Vec3 R)) (cs : List Entity)
    (r r1 : Registry R E) (L : List Entity) : Prop where
  frame : r.SameFrame r1
  outside : ∀ x, (∀ c ∈ cs, ¬ r0.Reaches c x) → Registry.SameAt x r r1
  reference : ∀ x, (r1.orbit x).map (fun o => o.reference_body) =
    (r.orbit x).map (fun o => o.reference_body)
  top : ∀ c ∈ cs, ∀ a, origin = some a → ∃ k, r1.kinematics c = some k ∧ k.center = a
  centers : ∀ c ∈ cs, ∀ p e, r0.Reaches c p → r0.Child p e →
    ∃ ke kp, r1.kinematics e = some ke ∧ r1.kinematics p = some kp ∧
      ke.center = kp.center + kp.position
  nodup : L.Nodup
  mem : ∀ x, x ∈ L ↔ ∃ c ∈ cs, r0.Reaches c x
  order : ∀ c ∈ cs, ∀ p e, r0.Reaches c p → r0.Child p e → [p, e].Sublist L

/-- Whether SOI exit moves the body out of the child list of the parent in the visit of the
body under the parent on the registry r: line 145 finds the recomputed position beyond the
SOI of the parent, and the parent has a reference body (LeaveSOI returns at once when it has
none). -/
def ParseOrbitTree.exits (m : Externals R E) (parent body : Entity) (r : Registry R E) : Bool :=
  match ParseOrbitTree.propagate m (some parent) body r with
  | none => false
  | some rp =>
    match (rp.emplaceKinematics m parent).body parent,
      (rp.emplaceKinematics m parent).kinematics body,
      (rp.emplaceKinematics m parent).orbit parent with
    | some p_bod, some pos, some p_orb =>
      decide (m.length pos.position > p_bod.SOI) && p_orb.reference_body.isSome
    | _, _, _ => false

/-- The log of the SOI exits after the visit of the body under the parent on the registry r:
the parent is appended when SOI exit moves the body out of its child list in that visit. -/
def ParseOrbitTree.noteExit (m : Externals R E) (parent : Option Entity) (body : Entity)
    (r : Registry R E) (log : List Entity) : List Entity :=
  match parent with
  | some p => if ParseOrbitTree.exits m p body r then log ++ [p] else log
  | none => log

/-- The function SysOrbit::ParseOrbitTree with a log of the SOI exits: the parent is appended
to the log at each visit in which SOI exit moves the visited body out of its child list. The
registry it computes is the one ParseOrbitTree computes. -/
def ParseOrbitTree.exitLog (m : Externals R E) :
    Nat → Option Entity → Entity → Registry R E × List Entity →
      Option (Registry R E × List Entity)
  | 0, _, _, _ => none
  | fuel + 1, parent, body, acc =>
    if acc.1.valid body = false then some acc
    else
      match ParseOrbitTree.visit m parent body acc.1 with
      | none => none
      | some r1 =>
        match r1.orbitalSystem body with
        | none => some (r1, ParseOrbitTree.noteExit m parent body acc.1 acc.2)
        | some children =>
          ParseOrbitTree.loop (fun a => a.1.orbitalSystem body)
            (fun entity a => ParseOrbitTree.exitLog m fuel (some body) entity a)
            children.length 0 children
            (r1, ParseOrbitTree.noteExit m parent body acc.1 acc.2)

/-- Every entity of the registry whose OrbitalSystem has an empty child list is in X. -/
def Registry.EmptyOnlyAt (r : Registry R E) (X : List Entity) : Prop :=
  ∀ e l, r.orbitalSystem e = some l → l = [] → e ∈ X

end Reference

/-- Orbital elements of the concrete scenarios: the Cartesian state they were built from. -/
abbrev Cart := Vec3 Int × Vec3 Int

/-- The Euclidean length of a vector that lies on a coordinate axis (at most one component is
not zero): the absolute value of that component. Every vector of the scenarios below lies on
the x axis. -/
def axisLength (v : Vec3 Int) : Int :=
  |v.x| + |v.y| + |v.z|

/-- A math library for the concrete scenarios, over integer coordinates: the elements keep the
Cartesian state, converting back returns it, and a time step leaves the state where it is (the
positions given in a scenario are the positions reached at the tick). glm::distance(p0, p1) is
length(p1 - p0). -/
def frozenMath : Externals Int Cart where
  length := axisLength
  distance := fun p0 p1 => axisLength (p1 - p0)
  Vec3ToOrbit := fun p v gm _ => ⟨axisLength p, 0, gm, none, (p, v)⟩
  toVec3 := fun o => o.rest.1
  OrbitVelocityToVec3 := fun o _ => o.rest.2
  OrbitTimeToVec3 := fun o _ => o.rest.1
  UpdateOrbit := fun o _ => o
  ApplyImpulse := fun o dv _ => { o with rest := (o.rest.1, o.rest.2 + dv) }
  TIME_INCREMENT := 1
  newKinematics := ⟨0, 0, 0⟩
  newFuturePosition := ⟨0, 0⟩

/-- The elements of a scenario body at position p with velocity v around ref. -/
def sceneOrbit (ref : Option Entity) (gm : Int) (p v : Vec3 Int) : Orbit Int Cart :=
  ⟨axisLength p, 0, gm, ref, (p, v)⟩

/-- A star 0 (the center), a planet 1 at x = 1000 around it with SOI 100, a moon 2 at x = 50
around the planet with SOI 20, and a probe 3 without Body around the planet at position
(px, 0, 0) relative to the planet. Every entity has its parent as reference body and the
parent's absolute position as center. -/
def scene (px : Int) : Registry Int Cart where
  valid := fun e => decide (e < 4)
  orbit := fun e =>
    match e with
    | 0 => some (sceneOrbit none 0 0 0)
    | 1 => some (sceneOrbit (some 0) 1000 ⟨1000, 0, 0⟩ ⟨0, 3, 0⟩)
    | 2 => some (sceneOrbit (some 1) 10 ⟨50, 0, 0⟩ ⟨0, 1, 0⟩)
    | 3 => some (sceneOrbit (some 1) 10 ⟨px, 0, 0⟩ ⟨0, 2, 0⟩)
    | _ => none
  kinematics := fun e =>
    match e with
    | 0 => some ⟨0, 0, 0⟩
    | 1 => some ⟨⟨1000, 0, 0⟩, ⟨0, 3, 0⟩, 0⟩
    | 2 => some ⟨⟨50, 0, 0⟩, ⟨0, 1, 0⟩, ⟨1000, 0, 0⟩⟩
    | 3 => some ⟨⟨px, 0, 0⟩, ⟨0, 2, 0⟩, ⟨1000, 0, 0⟩⟩
    | _ => none
  body := fun e =>
    match e with
    | 0 => some ⟨10, 100000, 1000, 1000, 1, 0, 0⟩
    | 1 => some ⟨5, 100, 10, 10, 1, 0, 0⟩
    | 2 => some ⟨1, 20, 1, 1, 1, 0, 0⟩
    | _ => none
  orbitalSystem := fun e =>
    match e with
    | 0 => some [1]
    | 1 => some [2, 3]
    | _ => none
  futurePosition := fun _ => none
  commandQueue := fun _ => none
  impulse := fun _ => none
  setTrueAnomaly := fun _ => none
  dirtyOrbit := fun _ => false
  crash := fun _ => false
  date := 0
  sun := some 0

/-- The registry after EnterSOI on the probe at x = 57 from the planet, 7 away from the moon
(the scenario itself when the call fails). -/
def sceneEntered : Registry Int Cart :=
  ((EnterSOI frozenMath (scene 57) 1 3).getD (scene 57, false)).1

/-- The scenario with the probe at x = 57, at date 10, with two commands queued on the probe,
both overdue: delta-v (0, 1, 0) scheduled at 3 and delta-v (0, 0, 1) scheduled at 7. -/
def queueScene : Registry Int Cart :=
  { scene 57 with
    date := 10
    commandQueue := fun e =>
      if e = 3 then some [⟨3, ⟨0, 1, 0⟩⟩, ⟨7, ⟨0, 0, 1⟩⟩] else none }

/-- The scenario with the probe at x = 57 and an Impulse (0, 0, 4) pending on the probe. -/
def impulseScene : Registry Int Cart :=
  { scene 57 with
    impulse := fun e => if e = 3 then some ⟨⟨0, 0, 4⟩⟩ else none }

/-! ## units.h -/

section Units

variable {α : Type} [LinearOrderedField α] [FloorRing α]

/-- The constant PI of units.h: the double nearest to the literal 3.14159265358979323846,
which is 884279719003555 / 2^48. A double is modelled by the number it stands for, an element
of an ordered field with a floor function. -/
def PI : α :=
  884279719003555 / 281474976710656

/-- The constant TWOPI of units.h; doubling a double is exact. -/
def TWOPI : α :=
  PI * 2

/-- The conversion (int)x of a double to a 32-bit int: the value is truncated toward zero,
and the conversion is undefined (none) when the truncated value is not representable, that
is outside [-2147483648, 2147483647]. -/
def toInt (x : α) : Option Int :=
  let t : Int := if 0 ≤ x then ⌊x⌋ else ⌈x⌉
  if -2147483648 ≤ t ∧ t ≤ 2147483647 then some t else none

/-- The function floatmod of units.h (64-69), in the branch that does not use std::fmod:
x - y * (int)(x / y), for y ≠ 0. The argument fl is the rounding of the exact result of an
operation on doubles to a double; it is applied to the quotient, to the product and to the
difference. -/
def floatmod (fl : α → α) (x y : α) : Option α :=
  match toInt (fl (x / y)) with
  | none => none
  | some k => some (fl (x - fl (y * (k : α))))

/-- The function normalize_radian of units.h (71-81); fl is the rounding of the exact result
of an operation on doubles to a double. -/
def normalize_radian (fl : α → α) (radian : α) : Option α :=
  match floatmod fl radian TWOPI with
  | none => none
  | some x => if x < 0 then some (fl (x + TWOPI)) else some x

/-- Rounding to the nearest double, ties to even, of a rational number in the normal range of
binary64 (no overflow, no subnormal result): the result is a whole number of units
2^(e - 52), where 2^e ≤ |q| < 2^(e + 1). It is the rounding fl of the program on such
numbers. -/
def roundNearest (q : ℚ) : ℚ :=
  if q = 0 then 0
  else
    let u : ℚ := 2 ^ (Int.log 2 |q| - 52)
    let n : Int := ⌊q / u⌋
    let f : ℚ := q / u - n
    if f < 1 / 2 then n * u
    else if 1 / 2 < f then (n + 1) * u
    else if n % 2 = 0 then n * u else (n + 1) * u

end Units

/-- The registry after one walk over the scenario with the probe at x = 57 (the scenario
itself if the walk failed). -/
def sceneWalked : Registry Int Cart :=
  (DoSystem frozenMath 4 0 0 (scene 57)).getD (scene 57)

/-- The scenario with the probe at x = 200 from the planet, outside the planet's SOI of 100,
in which the probe is the only child of the planet: the moon is in no child list. -/
def loneScene : Registry Int Cart :=
  { scene 200 with
    orbitalSystem := fun e =>
      match e with
      | 0 => some [1]
      | 1 => some [3]
      | _ => none }

/-- The scenario with the probe crashed on the planet: the probe is at the planet's center
(position at the origin, semi-major axis 0) and carries the Crash marker. The moon, 50 from
the planet's center with an SOI of 20, does not reach the center. -/
def pinnedScene : Registry Int Cart :=
  { scene 0 with crash := fun e => decide (e = 3) }

/-- The scenario with the probe crashed on the planet, next to a moon whose SOI, 60, reaches
the planet's center 50 away. -/
def wideMoonScene : Registry Int Cart :=
  { pinnedScene with
    body := fun e => if e = 2 then some ⟨1, 60, 1, 1, 1, 0, 0⟩ else pinnedScene.body e }

/-- The scenario in which every entity below the star carries Body: the planet 1 at x = 1000
from the star, SOI 100, with two moons, 2 at x = 50 with SOI 20 and 3 at x = 70 with SOI 5.
Every stored center is the origin, as before the first tick. -/
def quietScene : Registry Int Cart :=
  { scene 70 with
    body := fun e => if e = 3 then some ⟨1, 5, 1, 1, 1, 0, 0⟩ else (scene 70).body e
    kinematics := fun e => ((scene 70).kinematics e).map (fun k => { k with center := 0 }) }

/-- The scenario with the probe at x = 57 in which the child list of the planet is [3, 2, 4]:
the probe comes first, and a second moon 4, with Body and SOI 5, is at x = -80 from the
planet. -/
def probeFirstScene : Registry Int Cart :=
  { scene 57 with
    valid := fun e => decide (e < 5)
    orbit := fun e =>
      if e = 4 then some (sceneOrbit (some 1) 10 ⟨-80, 0, 0⟩ ⟨0, 1, 0⟩) else (scene 57).orbit e
    kinematics := fun e =>
      if e = 4 then some ⟨⟨-80, 0, 0⟩, ⟨0, 1, 0⟩, ⟨1000, 0, 0⟩⟩ else (scene 57).kinematics e
    body := fun e => if e = 4 then some ⟨1, 5, 1, 1, 1, 0, 0⟩ else (scene 57).body e
    orbitalSystem := fun e =>
      match e with
      | 0 => some [1]
      | 1 => some [3, 2, 4]
      | _ => none }

/-- The scenario with the probe at x = 200 from the planet, outside its SOI, in which the star
has a second planet 5 after the planet 1 in its child list [1, 5]. -/
def twoPlanetScene : Registry Int Cart :=
  { scene 200 with
    valid := fun e => decide (e < 6)
    orbit := fun e =>
      if e = 5 then some (sceneOrbit (some 0) 1000 ⟨-8000, 0, 0⟩ ⟨0, 1, 0⟩)
      else (scene 200).orbit e
    kinematics := fun e =>
      if e = 5 then some ⟨⟨-8000, 0, 0⟩, ⟨0, 1, 0⟩, 0⟩ else (scene 200).kinematics e
    body := fun e => if e = 5 then some ⟨5, 100, 10, 10, 1, 0, 0⟩ else (scene 200).body e
    orbitalSystem := fun e =>
      match e with
      | 0 => some [1, 5]
      | 1 => some [2, 3]
      | _ => none }

/-! ## Theorems -/

section Proofs

variable {R E : Type} [LinearOrderedRing R]

/-- An optional pair whose second component is true is some of its first component and
true. -/
theorem Option.eq_some_of_map_snd {α : Type} (o : Option (α × Bool)) (d : α × Bool)
    (h : o.map Prod.snd = some true) : o = some ((o.getD d).1, true) := by
  cases o with
  | none => simp at h
  | some x =>
    obtain ⟨a, b⟩ := x
    simp only [Option.map_some', Option.some.injEq] at h
    simp [h]

/-- The list eraseAll returns is the list filtered by inequality with the erased entity. -/
theorem eraseAll_eq_filter (l : List Entity) (b : Entity) :
    eraseAll l b = l.filter (fun e => decide (e ≠ b)) := by
  unfold eraseAll
  congr 1
  funext e
  by_cases h : e = b <;> simp [h]

/-- LeaveSOI returns at once when the parent's reference body is null. -/
theorem LeaveSOI_root (m : Externals R E) (r : Registry R E) (body parent : Entity)
    (p_orb : Orbit R E) (hpo : r.orbit parent = some p_orb)
    (hroot : p_orb.reference_body = none) :
    LeaveSOI m r body parent = some r := by
  simp [LeaveSOI, hpo, hroot]

/-- The registry LeaveSOI returns when the parent has a reference body g and every component
it reads is present. -/
theorem LeaveSOI_eq (m : Externals R E) (r : Registry R E) (body parent g : Entity)
    (p_orb orb : Orbit R E) (gsys pt : List Entity) (gbody : Body R)
    (gk pos p_pos : Kinematics R)
    (hpo : r.orbit parent = some p_orb) (hg : p_orb.reference_body = some g)
    (hgs : r.orbitalSystem g = some gsys) (hgb : r.body g = some gbody)
    (hgk : r.kinematics g = some gk) (hps : r.orbitalSystem parent = some pt)
    (hk : r.kinematics body = some pos) (hpk : r.kinematics parent = some p_pos)
    (hbo : r.orbit body = some orb) (hne : body ≠ parent) :
    LeaveSOI m r body parent = some
      { r with
        orbitalSystem :=
          Function.update (Function.update r.orbitalSystem g (some (gsys ++ [body]))) parent
            (some (eraseAll (if parent = g then gsys ++ [body] else pt) body))
        orbit := Function.update r.orbit body
          (some { m.Vec3ToOrbit (pos.position + p_pos.position)
                    (pos.velocity + p_pos.velocity) gbody.GM r.date with
                  reference_body := some g })
        kinematics := Function.update r.kinematics body
          (some { pos with position := pos.position + p_pos.position,
                           velocity := pos.velocity + p_pos.velocity })
        dirtyOrbit := Function.update r.dirtyOrbit body true } := by
  have hne' : parent ≠ body := Ne.symm hne
  by_cases hpg : parent = g
  · subst hpg
    obtain rfl : gk = p_pos := by
      rw [hpk] at hgk
      exact (Option.some.inj hgk).symm
    simp [LeaveSOI, hpo, hg, hgs, hgb, hgk, hk, hbo, hne, hne', Registry.setChildren,
      Registry.setOrbit, Registry.setKinematics, Registry.markDirty, Function.update_noteq]
  · simp [LeaveSOI, hpo, hg, hgs, hgb, hgk, hps, hk, hpk, hbo, hne, hne', hpg,
      Registry.setChildren, Registry.setOrbit, Registry.setKinematics, Registry.markDirty,
      Function.update_noteq]

/-- C3: for a body whose parent has a reference body g (the parent is not the tree root),
LeaveSOI returns a registry in which the body's Kinematics holds position = body position +
parent position and velocity = body velocity + parent velocity, the body's Orbit is
Vec3ToOrbit of the summed position and velocity with the GM of g's Body and the current date,
with reference_body = g, and DirtyOrbit is set on the body. The hypotheses say that the
components the function reads are present and that the body is not its own parent. -/
theorem LeaveSOI_splice (m : Externals R E) (r : Registry R E) (body parent g : Entity)
    (p_orb orb : Orbit R E) (gsys pt : List Entity) (gbody : Body R)
    (gk pos p_pos : Kinematics R)
    (hpo : r.orbit parent = some p_orb) (hg : p_orb.reference_body = some g)
    (hgs : r.orbitalSystem g = some gsys) (hgb : r.body g = some gbody)
    (hgk : r.kinematics g = some gk) (hps : r.orbitalSystem parent = some pt)
    (hk : r.kinematics body = some pos) (hpk : r.kinematics parent = some p_pos)
    (hbo : r.orbit body = some orb) (hne : body ≠ parent) :
    ∃ r1, LeaveSOI m r body parent = some r1 ∧
      r1.kinematics body =
        some { pos with position := pos.position + p_pos.position,
                        velocity := pos.velocity + p_pos.velocity } ∧
      r1.orbit body =
        some { m.Vec3ToOrbit (pos.position + p_pos.position) (pos.velocity + p_pos.velocity)
                 gbody.GM r.date with reference_body := some g } ∧
      r1.dirtyOrbit body = true := by
  refine ⟨_, LeaveSOI_eq m r body parent g p_orb orb gsys pt gbody gk pos p_pos
    hpo hg hgs hgb hgk hps hk hpk hbo hne, ?_, ?_, ?_⟩ <;> simp

/-- Witness of C3: the probe at x = 200 from the planet (SOI 100) is spliced into the frame of
the star. -/
theorem LeaveSOI_splice_witness :
    ∃ r1, LeaveSOI frozenMath (scene 200) 3 1 = some r1 ∧
      r1.kinematics 3 = some ⟨⟨1200, 0, 0⟩, ⟨0, 5, 0⟩, ⟨1000, 0, 0⟩⟩ ∧
      r1.orbit 3 = some ⟨1200, 0, 1000, some 0, (⟨1200, 0, 0⟩, ⟨0, 5, 0⟩)⟩ ∧
      r1.dirtyOrbit 3 = true :=
  LeaveSOI_splice frozenMath (scene 200) 3 1 0 (sceneOrbit (some 0) 1000 ⟨1000, 0, 0⟩ ⟨0, 3, 0⟩)
    (sceneOrbit (some 1) 10 ⟨200, 0, 0⟩ ⟨0, 2, 0⟩) [1] [2, 3] ⟨10, 100000, 1000, 1000, 1, 0, 0⟩
    ⟨0, 0, 0⟩ ⟨⟨200, 0, 0⟩, ⟨0, 2, 0⟩, ⟨1000, 0, 0⟩⟩ ⟨⟨1000, 0, 0⟩, ⟨0, 3, 0⟩, 0⟩
    rfl rfl rfl rfl rfl rfl rfl rfl rfl (by decide)

/-- C5: for a body whose parent has a reference body g different from the parent, LeaveSOI
moves the body between two child lists and touches no other: the parent's list becomes its
previous list without the body (the other children in the same order), the list of g becomes
its previous list with the body appended at the end, and every other entity keeps its child
list. -/
theorem LeaveSOI_child_lists (m : Externals R E) (r : Registry R E) (body parent g : Entity)
    (p_orb orb : Orbit R E) (gsys pt : List Entity) (gbody : Body R)
    (gk pos p_pos : Kinematics R)
    (hpo : r.orbit parent = some p_orb) (hg : p_orb.reference_body = some g)
    (hgs : r.orbitalSystem g = some gsys) (hgb : r.body g = some gbody)
    (hgk : r.kinematics g = some gk) (hps : r.orbitalSystem parent = some pt)
    (hk : r.kinematics body = some pos) (hpk : r.kinematics parent = some p_pos)
    (hbo : r.orbit body = some orb) (hne : body ≠ parent) (hpg : parent ≠ g) :
    ∃ r1, LeaveSOI m r body parent = some r1 ∧
      r1.orbitalSystem parent = some (pt.filter (fun e => decide (e ≠ body))) ∧
      r1.orbitalSystem g = some (gsys ++ [body]) ∧
      ∀ e, e ≠ parent → e ≠ g → r1.orbitalSystem e = r.orbitalSystem e := by
  refine ⟨_, LeaveSOI_eq m r body parent g p_orb orb gsys pt gbody gk pos p_pos
    hpo hg hgs hgb hgk hps hk hpk hbo hne, ?_, ?_, ?_⟩
  · simp [hpg, eraseAll_eq_filter]
  · simp [Function.update_noteq (Ne.symm hpg)]
  · intro e he1 he2
    simp [Function.update_noteq he1, Function.update_noteq he2]

/-- Witness of C5: the probe leaves the list [2, 3] of the planet and is appended to the list
[1] of the star; the moon, which has no child list, still has none. -/
theorem LeaveSOI_child_lists_witness :
    ∃ r1, LeaveSOI frozenMath (scene 200) 3 1 = some r1 ∧
      r1.orbitalSystem 1 = some ([2, 3].filter (fun e => decide (e ≠ 3))) ∧
      r1.orbitalSystem 0 = some ([1] ++ [3]) ∧
      ∀ e, e ≠ 1 → e ≠ 0 → r1.orbitalSystem e = (scene 200).orbitalSystem e :=
  LeaveSOI_child_lists frozenMath (scene 200) 3 1 0
    (sceneOrbit (some 0) 1000 ⟨1000, 0, 0⟩ ⟨0, 3, 0⟩)
    (sceneOrbit (some 1) 10 ⟨200, 0, 0⟩ ⟨0, 2, 0⟩) [1] [2, 3] ⟨10, 100000, 1000, 1000, 1, 0, 0⟩
    ⟨0, 0, 0⟩ ⟨⟨200, 0, 0⟩, ⟨0, 2, 0⟩, ⟨1000, 0, 0⟩⟩ ⟨⟨1000, 0, 0⟩, ⟨0, 3, 0⟩, 0⟩
    rfl rfl rfl rfl rfl rfl rfl rfl rfl (by decide) (by decide)

/-- C6: when the parent's Orbit has no reference body (the parent is the tree root), LeaveSOI
returns the registry it was given, for every body, whatever its position: Orbit, Kinematics,
every child list and the DirtyOrbit marker are unchanged. -/
theorem LeaveSOI_noop_at_root (m : Externals R E) (r : Registry R E) (body parent : Entity)
    (p_orb : Orbit R E) (hpo : r.orbit parent = some p_orb)
    (hroot : p_orb.reference_body = none) :
    LeaveSOI m r body parent = some r := by
  simp [LeaveSOI, hpo, hroot]

/-- Witness of C6: the planet cannot leave the star, whose reference body is null. -/
theorem LeaveSOI_noop_at_root_witness :
    LeaveSOI frozenMath (scene 200) 1 0 = some (scene 200) :=
  LeaveSOI_noop_at_root frozenMath (scene 200) 1 0 (sceneOrbit none 0 0 0) rfl rfl

/-! ### EnterSOI -/

/-- The registry EnterSOI.reparent returns: it always succeeds when the parent has a child
list. -/
theorem EnterSOI.reparent_eq (m : Externals R E) (r : Registry R E) (parent body S : Entity)
    (pos : Kinematics R) (b : Body R) (k : Kinematics R) (l : List Entity)
    (hs : r.orbitalSystem parent = some l) :
    EnterSOI.reparent m r parent body S pos b k = some
      { r with
        orbit := Function.update r.orbit body
          (some { m.Vec3ToOrbit (pos.position - k.position) (pos.velocity - k.velocity)
                    b.GM r.date with reference_body := some S })
        kinematics := Function.update r.kinematics body
          (some { pos with
            position := m.toVec3
              { m.Vec3ToOrbit (pos.position - k.position) (pos.velocity - k.velocity)
                  b.GM r.date with reference_body := some S },
            velocity := m.OrbitVelocityToVec3
              { m.Vec3ToOrbit (pos.position - k.position) (pos.velocity - k.velocity)
                  b.GM r.date with reference_body := some S }
              (m.Vec3ToOrbit (pos.position - k.position) (pos.velocity - k.velocity)
                  b.GM r.date).v })
        orbitalSystem :=
          Function.update
            (Function.update r.orbitalSystem S (some ((r.orbitalSystem S).getD [] ++ [body])))
            parent (some (eraseAll (if parent = S then l ++ [body] else l) body))
        dirtyOrbit := Function.update r.dirtyOrbit body true } := by
  by_cases hpS : parent = S
  · subst hpS
    simp [EnterSOI.reparent, Registry.emplaceOrbitalSystem, hs, Registry.setChildren,
      Registry.setOrbit, Registry.setKinematics, Registry.markDirty]
  · cases hS : r.orbitalSystem S <;>
      simp [EnterSOI.reparent, Registry.emplaceOrbitalSystem, hs, hS, hpS, Registry.setChildren,
        Registry.setOrbit, Registry.setKinematics, Registry.markDirty, Function.update_noteq]

/-- When no child in the list qualifies, the scan returns false and the registry it was
given. -/
theorem EnterSOI.scan_none (m : Externals R E) (r : Registry R E) (parent body : Entity)
    (pos : Kinematics R) (l : List Entity)
    (h : ∀ S ∈ l, SiblingQualifies m r body pos S = false) :
    EnterSOI.scan m r parent body pos l = some (r, false) := by
  induction l with
  | nil => rfl
  | cons e rest ih =>
    have hrest := ih (fun S hS => h S (List.mem_cons_of_mem e hS))
    have he := h e (List.mem_cons_self e rest)
    unfold EnterSOI.scan
    by_cases heb : e = body
    · simpa [heb] using hrest
    · simp only [heb, if_false]
      cases hb : r.body e with
      | none => simpa [hb] using hrest
      | some bc =>
        cases hk : r.kinematics e with
        | none => simpa [hb, hk] using hrest
        | some tk =>
          have hd : ¬ m.distance tk.position pos.position ≤ bc.SOI := by
            simpa [SiblingQualifies, heb, hb, hk] using he
          simp [hd, hrest]

/-- When S is the first child in the list that qualifies, the scan reparents the body under S
and returns true. -/
theorem EnterSOI.scan_find (m : Externals R E) (r : Registry R E) (parent body : Entity)
    (pos : Kinematics R) (l : List Entity) (S : Entity) (b : Body R) (k : Kinematics R)
    (hfind : l.find? (SiblingQualifies m r body pos) = some S)
    (hb : r.body S = some b) (hk : r.kinematics S = some k) :
    EnterSOI.scan m r parent body pos l =
      (EnterSOI.reparent m r parent body S pos b k).map (fun r1 => (r1, true)) := by
  induction l with
  | nil => simp at hfind
  | cons e rest ih =>
    unfold EnterSOI.scan
    rw [List.find?_cons] at hfind
    cases hq : SiblingQualifies m r body pos e with
    | true =>
      rw [hq] at hfind
      obtain rfl : e = S := Option.some.inj hfind
      have hq1 := hq
      simp only [SiblingQualifies, hb, hk, Bool.and_eq_true, decide_eq_true_eq] at hq1
      simp only [hq1.1, if_false, hb, hk, hq1.2, if_true]
      cases EnterSOI.reparent m r parent body e pos b k <;> rfl
    | false =>
      rw [hq] at hfind
      have hrest := ih hfind
      by_cases heb : e = body
      · simpa [heb] using hrest
      · simp only [heb, if_false]
        cases hbe : r.body e with
        | none => simpa [hbe] using hrest
        | some bc =>
          cases hke : r.kinematics e with
          | none => simpa [hbe, hke] using hrest
          | some tk =>
            have hd : ¬ m.distance tk.position pos.position ≤ bc.SOI := by
              simpa [SiblingQualifies, heb, hbe, hke] using hq
            simp [hd, hrest]

/-- A child that qualifies carries Body and Kinematics. -/
theorem SiblingQualifies.components (m : Externals R E) (r : Registry R E) (body : Entity)
    (pos : Kinematics R) (S : Entity) (h : SiblingQualifies m r body pos S = true) :
    ∃ b k, r.body S = some b ∧ r.kinematics S = some k ∧ S ≠ body ∧
      m.distance k.position pos.position ≤ b.SOI := by
  unfold SiblingQualifies at h
  cases hb : r.body S with
  | none => simp [hb] at h
  | some b =>
    cases hk : r.kinematics S with
    | none => simp [hb, hk] at h
    | some k =>
      refine ⟨b, k, rfl, rfl, ?_⟩
      simpa [hb, hk] using h

/-- The result of EnterSOI on a body without Body, given the first child that qualifies. -/
theorem EnterSOI_eq_of_find (m : Externals R E) (r : Registry R E) (parent body S : Entity)
    (pos : Kinematics R) (orb : Orbit R E) (l : List Entity) (b : Body R) (k : Kinematics R)
    (hbody : r.body body = none) (hk : r.kinematics body = some pos)
    (ho : r.orbit body = some orb) (hs : r.orbitalSystem parent = some l)
    (hfind : l.find? (SiblingQualifies m r body pos) = some S)
    (hb : r.body S = some b) (hSk : r.kinematics S = some k) :
    EnterSOI m r parent body =
      (EnterSOI.reparent m r parent body S pos b k).map (fun r1 => (r1, true)) := by
  simp [EnterSOI, hbody, hk, ho, hs, EnterSOI.scan_find m r parent body pos l S b k hfind hb hSk]

/-- C7: whenever EnterSOI returns true, the new reference body S is the first entity of the
parent's child list, in list order, that is not the body, carries Body and Kinematics and
has the body within its SOI (distance(S.position, body.position) ≤ S.Body.SOI); the body's
Orbit has reference_body = S, the body is appended to the child list of S (an empty list when
S had none), the parent's list is its previous list without the body, DirtyOrbit is set, and
no child list other than those of S and of the parent is changed, so no later qualifying
sibling receives the body. The hypothesis says that the parent is not in its own child
list. -/
theorem EnterSOI_first_match (m : Externals R E) (r r1 : Registry R E) (parent body : Entity)
    (h : EnterSOI m r parent body = some (r1, true))
    (hself : ∀ l, r.orbitalSystem parent = some l → parent ∉ l) :
    ∃ l pos S b k, r.orbitalSystem parent = some l ∧ r.kinematics body = some pos ∧
      l.find? (SiblingQualifies m r body pos) = some S ∧
      S ≠ body ∧ r.body S = some b ∧ r.kinematics S = some k ∧
      m.distance k.position pos.position ≤ b.SOI ∧
      (r1.orbit body).map (fun o => o.reference_body) = some (some S) ∧
      r1.orbitalSystem S = some ((r.orbitalSystem S).getD [] ++ [body]) ∧
      r1.orbitalSystem parent = some (l.filter (fun e => decide (e ≠ body))) ∧
      r1.dirtyOrbit body = true ∧
      ∀ e, e ≠ S → e ≠ parent → r1.orbitalSystem e = r.orbitalSystem e := by
  unfold EnterSOI at h
  by_cases htag : (r.body body).isSome = true
  · simp [htag] at h
  · simp only [htag, if_false] at h
    cases hk : r.kinematics body with
    | none => simp [hk] at h
    | some pos =>
      cases ho : r.orbit body with
      | none => simp [hk, ho] at h
      | some orb =>
        cases hs : r.orbitalSystem parent with
        | none => simp [hk, ho, hs] at h
        | some l =>
          simp only [hk, ho, hs] at h
          cases hfind : l.find? (SiblingQualifies m r body pos) with
          | none =>
            have hnone : ∀ S ∈ l, SiblingQualifies m r body pos S = false := by
              intro S hS
              have := List.find?_eq_none.mp hfind S hS
              simpa using this
            rw [EnterSOI.scan_none m r parent body pos l hnone] at h
            simp at h
          | some S =>
            have hq : SiblingQualifies m r body pos S = true := List.find?_some hfind
            obtain ⟨b, k, hb, hSk, hSne, hdist⟩ := SiblingQualifies.components m r body pos S hq
            have hSl : S ∈ l := List.mem_of_find?_eq_some hfind
            have hSp : S ≠ parent := fun e => hself l hs (e ▸ hSl)
            rw [EnterSOI.scan_find m r parent body pos l S b k hfind hb hSk,
              EnterSOI.reparent_eq m r parent body S pos b k l hs] at h
            simp only [Bool.false_eq_true, if_false, Option.map_some', Option.some.injEq,
              Prod.mk.injEq, and_true] at h
            subst h
            refine ⟨l, pos, S, b, k, rfl, rfl, hfind, hSne, hb, hSk, hdist, ?_, ?_, ?_, ?_, ?_⟩
            · simp
            · simp [Function.update_noteq hSp]
            · simp [Ne.symm hSp, eraseAll_eq_filter]
            · simp
            · intro e he1 he2
              simp [Function.update_noteq he1, Function.update_noteq he2]

/-- Witness of C7: the probe at x = 57 from the planet is 7 away from the moon at x = 50,
whose SOI is 20; the moon is the only child of the planet that qualifies. -/
theorem EnterSOI_first_match_witness :
    ∃ l pos S b k, (scene 57).orbitalSystem 1 = some l ∧ (scene 57).kinematics 3 = some pos ∧
      l.find? (SiblingQualifies frozenMath (scene 57) 3 pos) = some S ∧
      S ≠ 3 ∧ (scene 57).body S = some b ∧ (scene 57).kinematics S = some k ∧
      frozenMath.distance k.position pos.position ≤ b.SOI ∧
      (sceneEntered.orbit 3).map (fun o => o.reference_body) = some (some S) ∧
      sceneEntered.orbitalSystem S = some (((scene 57).orbitalSystem S).getD [] ++ [3]) ∧
      sceneEntered.orbitalSystem 1 = some (l.filter (fun e => decide (e ≠ 3))) ∧
      sceneEntered.dirtyOrbit 3 = true ∧
      ∀ e, e ≠ S → e ≠ 1 → sceneEntered.orbitalSystem e = (scene 57).orbitalSystem e :=
  EnterSOI_first_match frozenMath (scene 57) sceneEntered 1 3
    (Option.eq_some_of_map_snd _ (scene 57, false) (by decide))
    (by
      intro l hl
      have : l = [2, 3] := (Option.some.inj hl).symm
      subst this
      decide)

/-- C8: when EnterSOI reparents a body without Body under S, the first sibling that
qualifies, the body's Orbit becomes Vec3ToOrbit(body position - S position, body velocity -
S velocity, S.Body.GM, date) with reference_body = S, computed from the positions and
velocities held before the call, and the cached position and velocity, which the code reads
back from that Orbit with toVec3 and OrbitVelocityToVec3, are body position - S position and
body velocity - S velocity. The math library is assumed to convert back what it converted
(Externals.Converts). -/
theorem EnterSOI_relative_state (m : Externals R E) (r : Registry R E) (parent body S : Entity)
    (pos : Kinematics R) (orb : Orbit R E) (l : List Entity) (b : Body R) (k : Kinematics R)
    (hm : m.Converts)
    (hbody : r.body body = none) (hk : r.kinematics body = some pos)
    (ho : r.orbit body = some orb) (hs : r.orbitalSystem parent = some l)
    (hfind : l.find? (SiblingQualifies m r body pos) = some S)
    (hb : r.body S = some b) (hSk : r.kinematics S = some k) :
    ∃ r1, EnterSOI m r parent body = some (r1, true) ∧
      r1.kinematics body =
        some { pos with position := pos.position - k.position,
                        velocity := pos.velocity - k.velocity } ∧
      r1.orbit body =
        some { m.Vec3ToOrbit (pos.position - k.position) (pos.velocity - k.velocity)
                 b.GM r.date with reference_body := some S } := by
  have hE := EnterSOI_eq_of_find m r parent body S pos orb l b k hbody hk ho hs hfind hb hSk
  rw [EnterSOI.reparent_eq m r parent body S pos b k l hs] at hE
  simp only [Option.map_some'] at hE
  obtain ⟨h1, h2⟩ :=
    hm (pos.position - k.position) (pos.velocity - k.velocity) b.GM r.date (some S)
  refine ⟨_, hE, ?_, ?_⟩
  · simp only [Function.update_same, Option.some.injEq, Kinematics.mk.injEq, and_true]
    exact ⟨h1, h2⟩
  · simp

/-- Witness of C8: the probe at x = 57 enters the SOI of the moon at x = 50 with position
(7, 0, 0) and velocity (0, 1, 0) relative to the moon. -/
theorem EnterSOI_relative_state_witness :
    ∃ r1, EnterSOI frozenMath (scene 57) 1 3 = some (r1, true) ∧
      r1.kinematics 3 = some ⟨⟨7, 0, 0⟩, ⟨0, 1, 0⟩, ⟨1000, 0, 0⟩⟩ ∧
      r1.orbit 3 = some ⟨7, 0, 1, some 2, (⟨7, 0, 0⟩, ⟨0, 1, 0⟩)⟩ :=
  EnterSOI_relative_state frozenMath (scene 57) 1 3 2 ⟨⟨57, 0, 0⟩, ⟨0, 2, 0⟩, ⟨1000, 0, 0⟩⟩
    (sceneOrbit (some 1) 10 ⟨57, 0, 0⟩ ⟨0, 2, 0⟩) [2, 3] ⟨1, 20, 1, 1, 1, 0, 0⟩
    ⟨⟨50, 0, 0⟩, ⟨0, 1, 0⟩, ⟨1000, 0, 0⟩⟩ (fun _ _ _ _ _ => ⟨rfl, rfl⟩)
    rfl rfl rfl rfl (by decide) rfl rfl

/-- C9: on a registry that holds the components EnterSOI reads (the body's Kinematics and
Orbit, the parent's child list l), EnterSOI returns false together with the registry it was
given (Orbit, Kinematics, every child list and DirtyOrbit unchanged) if and only if the body
carries Body or no entity of l other than the body carries Body and Kinematics with the body
within its SOI; in every other case it returns true. -/
theorem EnterSOI_false_iff (m : Externals R E) (r : Registry R E) (parent body : Entity)
    (pos : Kinematics R) (orb : Orbit R E) (l : List Entity)
    (hk : r.kinematics body = some pos) (ho : r.orbit body = some orb)
    (hs : r.orbitalSystem parent = some l) :
    (EnterSOI m r parent body = some (r, false) ↔
      ((r.body body).isSome = true ∨ ∀ S ∈ l, SiblingQualifies m r body pos S = false)) ∧
    (¬ ((r.body body).isSome = true ∨ ∀ S ∈ l, SiblingQualifies m r body pos S = false) →
      ∃ r1, EnterSOI m r parent body = some (r1, true)) := by
  have key : ¬ ((r.body body).isSome = true ∨
      ∀ S ∈ l, SiblingQualifies m r body pos S = false) →
      ∃ r1, EnterSOI m r parent body = some (r1, true) := by
    intro hcond
    rw [not_or] at hcond
    obtain ⟨htag, hex⟩ := hcond
    have hbody : r.body body = none := by
      cases hb : r.body body with
      | none => rfl
      | some x => simp [hb] at htag
    cases hfind : l.find? (SiblingQualifies m r body pos) with
    | none =>
      exfalso
      apply hex
      intro S hS
      have := List.find?_eq_none.mp hfind S hS
      simpa using this
    | some S =>
      obtain ⟨b, k, hb, hSk, -, -⟩ :=
        SiblingQualifies.components m r body pos S (List.find?_some hfind)
      have hE := EnterSOI_eq_of_find m r parent body S pos orb l b k hbody hk ho hs hfind hb hSk
      rw [EnterSOI.reparent_eq m r parent body S pos b k l hs] at hE
      simp only [Option.map_some'] at hE
      exact ⟨_, hE⟩
  refine ⟨⟨?_, ?_⟩, key⟩
  · intro h
    by_contra hcond
    obtain ⟨r1, hr1⟩ := key hcond
    rw [hr1] at h
    simp at h
  · intro hcond
    by_cases htag : (r.body body).isSome = true
    · simp [EnterSOI, htag]
    · have hnone : ∀ S ∈ l, SiblingQualifies m r body pos S = false := by
        rcases hcond with h1 | h2
        · exact absurd h1 htag
        · exact h2
      simp [EnterSOI, htag, hk, ho, hs, EnterSOI.scan_none m r parent body pos l hnone]

/-- Witness of C9: the probe at x = 200 from the planet is 150 away from the moon, outside its
SOI of 20, and no other sibling is in the planet's child list [2, 3]: EnterSOI returns false
and the registry unchanged. -/
theorem EnterSOI_false_iff_witness :
    EnterSOI frozenMath (scene 200) 1 3 = some (scene 200, false) :=
  (EnterSOI_false_iff frozenMath (scene 200) 1 3 ⟨⟨200, 0, 0⟩, ⟨0, 2, 0⟩, ⟨1000, 0, 0⟩⟩
    (sceneOrbit (some 1) 10 ⟨200, 0, 0⟩ ⟨0, 2, 0⟩) [2, 3] rfl rfl rfl).1.2
    (Or.inr (by decide))

/-! ### CrashObject -/

/-- The registry CrashObject returns for a body without Body, not yet marked Crash, that is
within the radius of its parent. -/
theorem CrashObject_eq_of_le (m : Externals R E) (r : Registry R E) (body parent : Entity)
    (p_bod : Body R) (pos : Kinematics R) (orb : Orbit R E)
    (hpb : r.body parent = some p_bod) (hk : r.kinematics body = some pos)
    (ho : r.orbit body = some orb) (hbody : r.body body = none)
    (hcrash : r.crash body = false) (hle : m.length pos.position ≤ p_bod.radius) :
    CrashObject m r body parent = some
      { r with
        crash := Function.update r.crash body true
        kinematics := Function.update r.kinematics body (some { pos with position := 0 })
        orbit := Function.update r.orbit body (some { orb with semi_major_axis := 0 }) } := by
  simp [CrashObject, hbody, hpb, hk, hcrash, hle, Registry.markCrash, Registry.setKinematics,
    Registry.setOrbit, ho]

/-- C10: on a registry that holds the components CrashObject reads (the parent's Body, the
body's Kinematics and Orbit): a body that carries Body is left unchanged; for a body without
Body that is not yet marked Crash, CrashObject returns a registry in which Crash is marked
exactly when length(position) ≤ parent.Body.radius (the boundary included), in that case the
position is the origin and semi_major_axis is 0 (velocity, center and the other elements as
before), and when length(position) > parent.Body.radius the registry is unchanged. -/
theorem CrashObject_spec (m : Externals R E) (r : Registry R E) (body parent : Entity)
    (p_bod : Body R) (pos : Kinematics R) (orb : Orbit R E)
    (hpb : r.body parent = some p_bod) (hk : r.kinematics body = some pos)
    (ho : r.orbit body = some orb) :
    ((r.body body).isSome = true → CrashObject m r body parent = some r) ∧
    (r.body body = none → r.crash body = false →
      ∃ r1, CrashObject m r body parent = some r1 ∧
        (r1.crash body = true ↔ m.length pos.position ≤ p_bod.radius) ∧
        (m.length pos.position ≤ p_bod.radius →
          r1.kinematics body = some { pos with position := 0 } ∧
          r1.orbit body = some { orb with semi_major_axis := 0 }) ∧
        (m.length pos.position > p_bod.radius → r1 = r)) := by
  constructor
  · intro htag
    simp [CrashObject, htag]
  · intro hbody hcrash
    by_cases hle : m.length pos.position ≤ p_bod.radius
    · refine ⟨_, CrashObject_eq_of_le m r body parent p_bod pos orb hpb hk ho hbody hcrash hle,
        ?_, ?_, ?_⟩
      · simp [hle]
      · intro _
        simp
      · intro hgt
        exact absurd hle (not_le.mpr hgt)
    · refine ⟨r, ?_, ?_, ?_, ?_⟩
      · simp [CrashObject, hbody, hpb, hk, hcrash, hle]
      · simp [hle, hcrash]
      · intro h
        exact absurd h hle
      · intro _
        rfl

/-- Witness of C10: the probe at x = 5 from the planet, whose radius is 5, is on the boundary:
it is marked Crash, its position is the origin and its semi-major axis 0. -/
theorem CrashObject_spec_witness :
    ∃ r1, CrashObject frozenMath (scene 5) 3 1 = some r1 ∧ r1.crash 3 = true ∧
      r1.kinematics 3 = some ⟨0, ⟨0, 2, 0⟩, ⟨1000, 0, 0⟩⟩ ∧
      r1.orbit 3 = some ⟨0, 0, 10, some 1, (⟨5, 0, 0⟩, ⟨0, 2, 0⟩)⟩ := by
  obtain ⟨r1, h1, h2, h3, -⟩ :=
    (CrashObject_spec frozenMath (scene 5) 3 1 ⟨5, 100, 10, 10, 1, 0, 0⟩
      ⟨⟨5, 0, 0⟩, ⟨0, 2, 0⟩, ⟨1000, 0, 0⟩⟩ (sceneOrbit (some 1) 10 ⟨5, 0, 0⟩ ⟨0, 2, 0⟩)
      rfl rfl rfl).2 rfl rfl
  have hle : frozenMath.length (⟨5, 0, 0⟩ : Vec3 Int) ≤ 5 := by decide
  exact ⟨r1, h1, h2.mpr hle, (h3 hle).1, (h3 hle).2⟩

/-! ### The loop over the children and the fuel -/

/-- A loop that succeeds still succeeds, with the same result, when the step function is
replaced by one that extends it. -/
theorem ParseOrbitTree.loop_extend {σ : Type} (children : σ → Option (List Entity))
    (f g : Entity → σ → Option σ) (hfg : ∀ e s x, f e s = some x → g e s = some x) :
    ∀ (k i : Nat) (buf : List Entity) (s out : σ),
      ParseOrbitTree.loop children f k i buf s = some out →
      ParseOrbitTree.loop children g k i buf s = some out := by
  intro k
  induction k with
  | zero =>
    intro i buf s out h
    exact h
  | succ k ih =>
    intro i buf s out h
    rw [ParseOrbitTree.loop] at h ⊢
    cases hb : buf[i]? with
    | none => simpa [hb] using h
    | some e =>
      simp only [hb] at h ⊢
      cases hf : f e s with
      | none => simp [hf] at h
      | some s1 =>
        simp only [hf] at h
        simp only [hfg e s s1 hf]
        by_cases hk : k = 0
        · simpa [hk] using h
        · simp only [hk, if_false] at h ⊢
          cases hc : children s with
          | none => simp [hc] at h
          | some l =>
            cases hc1 : children s1 with
            | none => simp [hc, hc1] at h
            | some l1 =>
              simp only [hc, hc1] at h ⊢
              by_cases h1 : l1 = l
              · simp only [h1, if_true] at h ⊢
                exact ih _ _ _ _ h
              · simp only [h1, if_false] at h ⊢
                by_cases h2 : l1 = eraseAll l e
                · simp only [h2, if_true] at h ⊢
                  exact ih _ _ _ _ h
                · simp [h2] at h

/-- A loop that may fail preserves every reflexive and transitive relation between the state
before and after a step. -/
theorem ParseOrbitTree.loop_rel {σ : Type} (children : σ → Option (List Entity))
    (step : Entity → σ → Option σ) (P : σ → σ → Prop)
    (hrefl : ∀ b, P b b) (htrans : ∀ a b c, P a b → P b c → P a c)
    (hstep : ∀ e b b1, step e b = some b1 → P b b1) :
    ∀ (k i : Nat) (buf : List Entity) (s out : σ),
      ParseOrbitTree.loop children step k i buf s = some out → P s out := by
  intro k
  induction k with
  | zero =>
    intro i buf s out h
    cases h
    exact hrefl s
  | succ k ih =>
    intro i buf s out h
    rw [ParseOrbitTree.loop] at h
    cases hb : buf[i]? with
    | none =>
      simp only [hb, Option.some.injEq] at h
      subst h
      exact hrefl s
    | some e =>
      simp only [hb] at h
      cases hf : step e s with
      | none => simp [hf] at h
      | some s1 =>
        simp only [hf] at h
        have hs1 := hstep e s s1 hf
        by_cases hk : k = 0
        · simp only [hk, if_true, Option.some.injEq] at h
          subst h
          exact hs1
        · simp only [hk, if_false] at h
          cases hc : children s with
          | none => simp [hc] at h
          | some l =>
            cases hc1 : children s1 with
            | none => simp [hc, hc1] at h
            | some l1 =>
              simp only [hc, hc1] at h
              by_cases h1 : l1 = l
              · simp only [h1, if_true] at h
                exact htrans _ _ _ hs1 (ih _ _ _ _ h)
              · simp only [h1, if_false] at h
                by_cases h2 : l1 = eraseAll l e
                · simp only [h2, if_true] at h
                  exact htrans _ _ _ hs1 (ih _ _ _ _ h)
                · simp [h2] at h

/-- A loop that carries a log computes the state of the loop without the log. -/
theorem ParseOrbitTree.loop_map {σ τ : Type} (p : τ → σ) (children : σ → Option (List Entity))
    (f : Entity → τ → Option τ) (g : Entity → σ → Option σ)
    (h : ∀ (e : Entity) (a : τ), (f e a).map p = g e (p a)) :
    ∀ (k i : Nat) (buf : List Entity) (a : τ),
      (ParseOrbitTree.loop (fun x => children (p x)) f k i buf a).map p =
        ParseOrbitTree.loop children g k i buf (p a) := by
  intro k
  induction k with
  | zero =>
    intro i buf a
    rfl
  | succ k ih =>
    intro i buf a
    rw [ParseOrbitTree.loop, ParseOrbitTree.loop]
    cases hb : buf[i]? with
    | none => rfl
    | some e =>
      simp only []
      have he := h e a
      cases hf : f e a with
      | none =>
        rw [hf] at he
        rw [← he]
        rfl
      | some a1 =>
        rw [hf] at he
        rw [← he]
        simp only [Option.map_some']
        by_cases hk : k = 0
        · simp [hk]
        · simp only [hk, if_false]
          cases hc : children (p a) with
          | none => rfl
          | some l =>
            cases hc1 : children (p a1) with
            | none => rfl
            | some l1 =>
              simp only []
              by_cases h1 : l1 = l
              · simp only [h1, if_true]
                exact ih _ _ _
              · simp only [h1, if_false]
                by_cases h2 : l1 = eraseAll l e
                · simp only [h2, if_true]
                  exact ih _ _ _
                · simp [h2]

/-- One round of the loop when the call leaves the child list of the body as it is: the loop
goes on with the next slot of the same vector. -/
theorem ParseOrbitTree.loop_step {σ : Type} (children : σ → Option (List Entity))
    (step : Entity → σ → Option σ) (k i : Nat) (buf : List Entity) (s s1 : σ) (e : Entity)
    (l : List Entity) (hb : buf[i]? = some e) (hs : step e s = some s1)
    (hl : children s = some l) (hl1 : children s1 = some l) :
    ParseOrbitTree.loop children step (k + 1) i buf s =
      ParseOrbitTree.loop children step k (i + 1) buf s1 := by
  rw [ParseOrbitTree.loop]
  simp only [hb, hs, hl, hl1, if_true]
  by_cases hk : k = 0
  · subst hk
    rfl
  · simp only [hk, if_false]

/-- More fuel does not change the result of a walk that succeeded. -/
theorem ParseOrbitTree_fuel_succ (m : Externals R E) (fuel : Nat) :
    ∀ (parent : Option Entity) (body : Entity) (r r1 : Registry R E),
      ParseOrbitTree m fuel parent body r = some r1 →
      ParseOrbitTree m (fuel + 1) parent body r = some r1 := by
  induction fuel with
  | zero =>
    intro parent body r r1 h
    simp [ParseOrbitTree] at h
  | succ n ih =>
    intro parent body r r1 h
    rw [ParseOrbitTree] at h ⊢
    by_cases hv : r.valid body = false
    · simpa [hv] using h
    · simp only [hv, if_false] at h ⊢
      cases hvis : ParseOrbitTree.visit m parent body r with
      | none => simp [hvis] at h
      | some r2 =>
        simp only [hvis] at h ⊢
        cases hc : r2.orbitalSystem body with
        | none => simpa [hc] using h
        | some children =>
          simp only [hc] at h ⊢
          exact ParseOrbitTree.loop_extend _ _ _ (fun e acc x hx => ih (some body) e acc x hx)
            _ _ _ _ _ h

/-- A walk that succeeded with some fuel gives the same result with any larger fuel. -/
theorem ParseOrbitTree_fuel_le (m : Externals R E) (fuel fuel1 : Nat) (hle : fuel ≤ fuel1)
    (parent : Option Entity) (body : Entity) (r r1 : Registry R E)
    (h : ParseOrbitTree m fuel parent body r = some r1) :
    ParseOrbitTree m fuel1 parent body r = some r1 := by
  induction hle with
  | refl => exact h
  | step _ ih => exact ParseOrbitTree_fuel_succ m _ parent body r r1 ih

/-! ### The walk on the concrete scenarios -/

/-- C4 at a failing input: the probe at x = 200 from the planet (SOI 100, at x = 1000 from the
star) is visited with the planet as parent. SOI exit fires and the probe's reference body
becomes the star, its position 200 + 1000 = 1200 in the frame of the star; its center is then
set to the planet's absolute position 1000, so that center + position is 2200, whereas the
planet's absolute position plus the probe's position relative to the planet is 1200. -/
theorem ParseOrbitTree_visit_exit_moves_absolute_position :
    (ParseOrbitTree.visit frozenMath (some 1) 3 (scene 200)).map
        (fun r => ((r.orbit 3).map (fun o => o.reference_body),
          (r.kinematics 3).map (fun k => (k.position, k.center, k.center + k.position)))) =
      some (some (some 0), some (⟨1200, 0, 0⟩, ⟨1000, 0, 0⟩, ⟨2200, 0, 0⟩)) ∧
    ((scene 200).kinematics 1).map (fun p => p.center + p.position + ⟨200, 0, 0⟩) =
      some (⟨1200, 0, 0⟩ : Vec3 Int) := by
  decide

/-- C2 at a failing input: after DoSystem on the scenario with the probe at x = 200 from the
planet, the walk has succeeded, the probe is a child of the star with reference body the star,
and its center is (1000, 0, 0), the absolute position of the planet, whereas center +
position of the star is the origin. -/
theorem DoSystem_center_stale_after_exit :
    (DoSystem frozenMath 4 0 0 (scene 200)).map
        (fun r => (r.orbitalSystem 0, r.orbitalSystem 1)) = some (some [1, 3], some [2]) ∧
    (DoSystem frozenMath 4 0 0 (scene 200)).map
        (fun r => (r.orbit 3).map (fun o => o.reference_body)) = some (some (some 0)) ∧
    (DoSystem frozenMath 4 0 0 (scene 200)).map
        (fun r => ((r.kinematics 3).map (fun k => k.center),
          (r.kinematics 0).map (fun k => k.center + k.position))) =
      some (some ⟨1000, 0, 0⟩, some ⟨0, 0, 0⟩) := by
  decide

/-- C1 at a failing input: the child lists of the scenario form a tree (star [1], planet
[2, 3], every reference body the parent). With the probe at x = -940 from the planet, SOI exit
moves the probe to the child list of the star, with position x = 60 in the frame of the star;
SOI entry, still called with the planet as parent, compares that position with the moon's
position x = 50 in the frame of the planet and appends the probe to the child list of the moon
as well. After DoSystem the probe is in two child lists. -/
theorem DoSystem_probe_in_two_child_lists :
    ((scene (-940)).orbitalSystem 0, (scene (-940)).orbitalSystem 1) =
      (some [1], some [2, 3]) ∧
    ((scene (-940)).orbitalSystem 2, (scene (-940)).orbitalSystem 3) = (none, none) ∧
    [1, 2, 3].map (fun e => ((scene (-940)).orbit e).map (fun o => o.reference_body)) =
      [some (some 0), some (some 1), some (some 1)] ∧
    (DoSystem frozenMath 4 0 0 (scene (-940))).map
        (fun r => (r.orbitalSystem 0, r.orbitalSystem 2)) = some (some [1, 3], some [3]) ∧
    (DoSystem frozenMath 4 0 0 (scene (-940))).map
        (fun r => (r.orbitalSystem 1, r.orbitalSystem 3)) = some (some [2], none) ∧
    (DoSystem frozenMath 4 0 0 (scene (-940))).map
        (fun r => (r.orbit 3).map (fun o => o.reference_body)) = some (some (some 2)) := by
  decide

/-- The loop over the children on two scenarios. When the probe, first in the child list
[3, 2, 4] of the planet, enters the SOI of the moon 2, EnterSOI erases it from the vector the
loop is reading: the elements shift down to [2, 4] and the third slot keeps its 4, so the loop
goes on with the second slot and visits 4 twice and the moon 2 not at all. When the probe
leaves the SOI of the first of two planets, LeaveSOI pushes it onto the child vector of the
star while the loop of the star has the second planet still to read: the walk has no defined
result. -/
theorem ParseOrbitTree_follows_live_vector :
    (ParseOrbitTree.trace frozenMath 5 none 0 (probeFirstScene, [])).map Prod.snd =
      some [0, 1, 3, 4, 4] ∧
    (DoSystem frozenMath 5 0 0 probeFirstScene).map
        (fun r => (r.orbitalSystem 1, r.orbitalSystem 2)) = some (some [2, 4], some [3]) ∧
    (DoSystem frozenMath 5 0 0 twoPlanetScene).isNone = true := by
  decide

/-! ### UpdateCommandQueue and CalculateImpulse -/

/-- C14: on a body that has an Orbit, UpdateCommandQueue returns the registry of the reference
processor: with a non-empty queue whose front command has time ≤ the date, the Orbit becomes
ApplyImpulse(Orbit, front.delta_v, front.time), DirtyOrbit is marked and the queue becomes its
tail (one command popped, whatever the times of the later commands); with no queue, an empty
queue or a front command in the future (whatever the times of the later commands) the
registry is unchanged. -/
theorem UpdateCommandQueue_refines (m : Externals R E) (r : Registry R E) (body : Entity)
    (parent : Option Entity) (orb : Orbit R E) (ho : r.orbit body = some orb) :
    UpdateCommandQueue m r body parent = some (UpdateCommandQueue.reference m r body) := by
  unfold UpdateCommandQueue UpdateCommandQueue.reference
  cases hq : r.commandQueue body with
  | none => simp
  | some q =>
    cases q with
    | nil => simp
    | cons front tail =>
      by_cases ht : front.time ≤ r.date
      · simp [ho, ht, not_lt.mpr ht, Registry.setOrbit, Registry.markDirty,
          Registry.setCommands]
      · simp [ho, ht, not_le.mp ht]

/-- Witness of C14: at date 10 the probe has two overdue commands; one call applies the first
(scheduled at 3) and leaves the second queued. -/
theorem UpdateCommandQueue_refines_witness :
    UpdateCommandQueue frozenMath queueScene 3 (some 1) =
        some (UpdateCommandQueue.reference frozenMath queueScene 3) ∧
      (UpdateCommandQueue.reference frozenMath queueScene 3).commandQueue 3 =
        some [⟨7, ⟨0, 0, 1⟩⟩] ∧
      (UpdateCommandQueue.reference frozenMath queueScene 3).orbit 3 =
        some ⟨57, 0, 10, some 1, (⟨57, 0, 0⟩, ⟨0, 3, 0⟩)⟩ :=
  ⟨UpdateCommandQueue_refines frozenMath queueScene 3 (some 1)
    (sceneOrbit (some 1) 10 ⟨57, 0, 0⟩ ⟨0, 2, 0⟩) rfl, by decide, by decide⟩

/-- The Kinematics an entity has after get_or_emplace. -/
theorem Registry.emplaceKinematics_kinematics {S F : Type} (m : Externals S F)
    (r : Registry S F) (e : Entity) :
    (r.emplaceKinematics m e).kinematics e = some ((r.kinematics e).getD m.newKinematics) := by
  unfold Registry.emplaceKinematics
  cases h : r.kinematics e <;> simp [h, Registry.setKinematics]

/-- The registry CalculateImpulse returns for a body with an Impulse and an Orbit. -/
theorem CalculateImpulse_eq (m : Externals R E) (r : Registry R E) (body parent : Entity)
    (orb : Orbit R E) (imp : Impulse R) (ho : r.orbit body = some orb)
    (hi : r.impulse body = some imp) :
    CalculateImpulse m r body parent = some
      { r with
        orbit := Function.update r.orbit body
          (some { m.Vec3ToOrbit ((r.kinematics body).getD m.newKinematics).position
                    (((r.kinematics body).getD m.newKinematics).velocity + imp.impulse)
                    orb.GM r.date with reference_body := orb.reference_body })
        kinematics := Function.update r.kinematics body
          (some { (r.kinematics body).getD m.newKinematics with
            position := m.toVec3
              { m.Vec3ToOrbit ((r.kinematics body).getD m.newKinematics).position
                  (((r.kinematics body).getD m.newKinematics).velocity + imp.impulse)
                  orb.GM r.date with reference_body := orb.reference_body }
            velocity := m.OrbitVelocityToVec3
              { m.Vec3ToOrbit ((r.kinematics body).getD m.newKinematics).position
                  (((r.kinematics body).getD m.newKinematics).velocity + imp.impulse)
                  orb.GM r.date with reference_body := orb.reference_body }
              (m.Vec3ToOrbit ((r.kinematics body).getD m.newKinematics).position
                  (((r.kinematics body).getD m.newKinematics).velocity + imp.impulse)
                  orb.GM r.date).v })
        dirtyOrbit := Function.update r.dirtyOrbit body true
        impulse := Function.update r.impulse body none } := by
  unfold CalculateImpulse
  cases hk : r.kinematics body <;>
    simp [hi, ho, hk, Registry.emplaceKinematics, Registry.setKinematics, Registry.setOrbit,
      Registry.markDirty, Registry.removeImpulse]

/-- CalculateImpulse returns the registry unchanged for a body without Impulse. -/
theorem CalculateImpulse_none (m : Externals R E) (r : Registry R E) (body parent : Entity)
    (hi : r.impulse body = none) : CalculateImpulse m r body parent = some r := by
  simp [CalculateImpulse, hi]

/-- C15: for a body with an Orbit and an Impulse pending, CalculateImpulse returns a registry
in which the Orbit is Vec3ToOrbit(position, velocity + impulse, previous Orbit.GM, date) with
the previous reference_body (position and velocity are those of the body's Kinematics,
default-constructed when the body had none), DirtyOrbit is marked and the Impulse is removed,
so that a second call returns that registry unchanged; for a body without Impulse the
registry is returned unchanged. -/
theorem CalculateImpulse_once (m : Externals R E) (r : Registry R E) (body parent : Entity)
    (orb : Orbit R E) (ho : r.orbit body = some orb) :
    (∀ imp, r.impulse body = some imp →
      ∃ r1, CalculateImpulse m r body parent = some r1 ∧
        r1.orbit body =
          some { m.Vec3ToOrbit ((r.kinematics body).getD m.newKinematics).position
                   (((r.kinematics body).getD m.newKinematics).velocity + imp.impulse)
                   orb.GM r.date with reference_body := orb.reference_body } ∧
        r1.dirtyOrbit body = true ∧ r1.impulse body = none ∧
        CalculateImpulse m r1 body parent = some r1) ∧
    (r.impulse body = none → CalculateImpulse m r body parent = some r) := by
  refine ⟨?_, CalculateImpulse_none m r body parent⟩
  intro imp hi
  refine ⟨_, CalculateImpulse_eq m r body parent orb imp ho hi, ?_, ?_, ?_, ?_⟩
  · simp
  · simp
  · simp
  · apply CalculateImpulse_none
    simp

/-- Witness of C15: the Impulse (0, 0, 4) on the probe, whose velocity is (0, 2, 0), is
applied once and removed; a second call changes nothing. -/
theorem CalculateImpulse_once_witness :
    ∃ r1, CalculateImpulse frozenMath impulseScene 3 1 = some r1 ∧
      r1.orbit 3 = some ⟨57, 0, 10, some 1, (⟨57, 0, 0⟩, ⟨0, 2, 4⟩)⟩ ∧
      r1.dirtyOrbit 3 = true ∧ r1.impulse 3 = none ∧
      CalculateImpulse frozenMath r1 3 1 = some r1 :=
  (CalculateImpulse_once frozenMath impulseScene 3 1
    (sceneOrbit (some 1) 10 ⟨57, 0, 0⟩ ⟨0, 2, 0⟩) rfl).1 ⟨⟨0, 0, 4⟩⟩ rfl

/-- C17: let the body have an Orbit and a queue of commands whose scheduled times are all ≤ the
current date, and let UpdateCommandQueue be called once per tick at k dates that do not
decrease from the current date, k ≤ the length of the queue. All k calls succeed; afterwards
the queue is the original queue without its first k commands (the last n - k commands in
their original order) and the Orbit is the left fold of ApplyImpulse(orbit, cmd.delta_v,
cmd.time) over the first k commands. With k = n the queue is empty and the fold runs over the
whole original queue. -/
theorem UpdateCommandQueue_drains (m : Externals R E) (body : Entity) (parent : Option Entity)
    (dates : List R) (r : Registry R E) (cmds : List (Command R)) (orb : Orbit R E)
    (hq : r.commandQueue body = some cmds) (ho : r.orbit body = some orb)
    (hdue : ∀ c ∈ cmds, c.time ≤ r.date) (hdates : List.Chain (fun a b => a ≤ b) r.date dates)
    (hlen : dates.length ≤ cmds.length) :
    ∃ r1, UpdateCommandQueue.ticks m body parent dates r = some r1 ∧
      r1.commandQueue body = some (cmds.drop dates.length) ∧
      r1.orbit body =
        some ((cmds.take dates.length).foldl
          (fun o c => m.ApplyImpulse o c.delta_v c.time) orb) ∧
      (dates.length = cmds.length →
        r1.commandQueue body = some [] ∧
        r1.orbit body =
          some (cmds.foldl (fun o c => m.ApplyImpulse o c.delta_v c.time) orb)) := by
  induction dates generalizing r cmds orb with
  | nil =>
    refine ⟨r, rfl, by simpa using hq, by simpa using ho, ?_⟩
    intro h
    have hnil : cmds = [] := List.length_eq_zero.mp h.symm
    subst hnil
    exact ⟨hq, by simpa using ho⟩
  | cons t ts ih =>
    obtain ⟨hrt, hchain⟩ := List.chain_cons.mp hdates
    cases cmds with
    | nil => simp at hlen
    | cons c cs =>
      have hct : c.time ≤ t := le_trans (hdue c (List.mem_cons_self c cs)) hrt
      have hstep : UpdateCommandQueue m { r with date := t } body parent = some
          { r with
            date := t
            orbit := Function.update r.orbit body (some (m.ApplyImpulse orb c.delta_v c.time))
            dirtyOrbit := Function.update r.dirtyOrbit body true
            commandQueue := Function.update r.commandQueue body (some cs) } := by
        simp [UpdateCommandQueue, hq, ho, not_lt.mpr hct, Registry.setOrbit,
          Registry.markDirty, Registry.setCommands]
      obtain ⟨r1, h1, h2, h3, h4⟩ := ih
        { r with
          date := t
          orbit := Function.update r.orbit body (some (m.ApplyImpulse orb c.delta_v c.time))
          dirtyOrbit := Function.update r.dirtyOrbit body true
          commandQueue := Function.update r.commandQueue body (some cs) }
        cs (m.ApplyImpulse orb c.delta_v c.time) (by simp) (by simp)
        (fun c1 hc1 => le_trans (hdue c1 (List.mem_cons_of_mem c hc1)) hrt) hchain
        (by simpa using hlen)
      refine ⟨r1, ?_, ?_, ?_, ?_⟩
      · simp only [UpdateCommandQueue.ticks, hstep]
        exact h1
      · simpa using h2
      · simpa using h3
      · intro h
        have h5 := h4 (by simpa using h)
        exact ⟨h5.1, by simpa using h5.2⟩

/-- Witness of C17: the two overdue commands of the probe are drained by two calls, at dates
10 and 11, in their order; the velocity kept in the elements goes from (0, 2, 0) to
(0, 3, 1). -/
theorem UpdateCommandQueue_drains_witness :
    ∃ r1, UpdateCommandQueue.ticks frozenMath 3 (some 1) [10, 11] queueScene = some r1 ∧
      r1.commandQueue 3 = some [] ∧
      r1.orbit 3 = some ⟨57, 0, 10, some 1, (⟨57, 0, 0⟩, ⟨0, 3, 1⟩)⟩ := by
  obtain ⟨r1, h1, -, -, h4⟩ :=
    UpdateCommandQueue_drains frozenMath 3 (some 1) [10, 11] queueScene
      [⟨3, ⟨0, 1, 0⟩⟩, ⟨7, ⟨0, 0, 1⟩⟩] (sceneOrbit (some 1) 10 ⟨57, 0, 0⟩ ⟨0, 2, 0⟩)
      rfl rfl (by decide)
      (List.Chain.cons (by decide) (List.Chain.cons (by decide) List.Chain.nil)) (by decide)
  exact ⟨r1, h1, (h4 rfl).1, (h4 rfl).2⟩

/-! ### Idempotence of CrashObject -/

/-- A registry CrashObject has returned is returned unchanged by a second call. -/
theorem CrashObject_idem (m : Externals R E) (r r1 : Registry R E) (body parent : Entity)
    (h : CrashObject m r body parent = some r1) :
    CrashObject m r1 body parent = some r1 := by
  unfold CrashObject at h
  by_cases htag : (r.body body).isSome = true
  · simp only [htag, if_true, Option.some.injEq] at h
    subst h
    simp [CrashObject, htag]
  · simp only [htag, if_false] at h
    cases hb : r.body parent with
    | none => simp [hb] at h
    | some p_bod =>
      cases hk : r.kinematics body with
      | none => simp [hb, hk] at h
      | some pos =>
        simp only [hb, hk] at h
        by_cases hz : m.length (0 : Vec3 R) ≤ p_bod.radius
        · by_cases hc : r.crash body = true
          · cases ho : r.orbit body with
            | none =>
              simp [hc, hz, ho, Registry.setKinematics, Registry.markCrash] at h
            | some orb =>
              simp [hc, hz, ho, Registry.setKinematics, Registry.markCrash,
                Registry.setOrbit] at h
              subst h
              simp [CrashObject, htag, hb, hz, Registry.setKinematics, Registry.markCrash,
                Registry.setOrbit]
          · by_cases hl : m.length pos.position ≤ p_bod.radius
            · cases ho : r.orbit body with
              | none =>
                simp [hc, hl, hk, ho, Registry.setKinematics, Registry.markCrash] at h
              | some orb =>
                simp [hc, hl, hk, ho, Registry.setKinematics, Registry.markCrash,
                  Registry.setOrbit] at h
                subst h
                simp [CrashObject, htag, hb, hz, Registry.setKinematics, Registry.markCrash,
                  Registry.setOrbit]
            · simp [hc, hl, hk] at h
              subst h
              simp [CrashObject, htag, hb, hk, hc, hl]
        · by_cases hc : r.crash body = true
          · simp [hc, hz, Registry.setKinematics] at h
            subst h
            simp [CrashObject, htag, hb, hz, hc, Registry.setKinematics]
          · by_cases hl : m.length pos.position ≤ p_bod.radius
            · cases ho : r.orbit body with
              | none =>
                simp [hc, hl, hk, ho, Registry.setKinematics, Registry.markCrash] at h
              | some orb =>
                simp [hc, hl, hk, ho, Registry.setKinematics, Registry.markCrash,
                  Registry.setOrbit] at h
                subst h
                simp [CrashObject, htag, hb, hz, Registry.setKinematics, Registry.markCrash,
                  Registry.setOrbit]
            · simp [hc, hl, hk] at h
              subst h
              simp [CrashObject, htag, hb, hk, hc, hl]

/-- CrashObject returns a registry whenever the components it reads are present. -/
theorem CrashObject_isSome (m : Externals R E) (r : Registry R E) (body parent : Entity)
    (p_bod : Body R) (pos : Kinematics R) (orb : Orbit R E)
    (hpb : r.body parent = some p_bod) (hk : r.kinematics body = some pos)
    (ho : r.orbit body = some orb) :
    ∃ r1, CrashObject m r body parent = some r1 := by
  unfold CrashObject
  by_cases htag : (r.body body).isSome = true
  · exact ⟨r, by simp [htag]⟩
  · by_cases hc : r.crash body = true
    · by_cases hz : m.length (0 : Vec3 R) ≤ p_bod.radius
      · simp [htag, hpb, hk, hc, hz, ho, Registry.setKinematics, Registry.markCrash,
          Registry.setOrbit]
      · simp [htag, hpb, hk, hc, hz, Registry.setKinematics]
    · by_cases hl : m.length pos.position ≤ p_bod.radius
      · simp [htag, hpb, hk, hc, hl, ho, Registry.setKinematics, Registry.markCrash,
          Registry.setOrbit]
      · simp [htag, hpb, hk, hc, hl]

/-- C11: CrashObject is idempotent. Whatever the registry, the body and the parent, a
registry returned by CrashObject is returned unchanged, as a whole, by a second call (the
Crash marker, the Kinematics and the Orbit included); and the first call does return a
registry whenever the parent's Body and the body's Kinematics and Orbit are present. -/
theorem CrashObject_idempotent (m : Externals R E) (r : Registry R E) (body parent : Entity) :
    (∀ r1, CrashObject m r body parent = some r1 → CrashObject m r1 body parent = some r1) ∧
    (∀ (p_bod : Body R) (pos : Kinematics R) (orb : Orbit R E),
      r.body parent = some p_bod → r.kinematics body = some pos → r.orbit body = some orb →
      ∃ r1, CrashObject m r body parent = some r1) :=
  ⟨fun r1 h => CrashObject_idem m r r1 body parent h,
    fun p_bod pos orb hpb hk ho => CrashObject_isSome m r body parent p_bod pos orb hpb hk ho⟩

/-- Witness of C11: the probe on the boundary of the planet (x = 5, radius 5) crashes at the
first call and the second call returns the same registry. -/
theorem CrashObject_idempotent_witness :
    ∃ r1, CrashObject frozenMath (scene 5) 3 1 = some r1 ∧ r1.crash 3 = true ∧
      CrashObject frozenMath r1 3 1 = some r1 := by
  obtain ⟨r1, h1⟩ := (CrashObject_idempotent frozenMath (scene 5) 3 1).2
    ⟨5, 100, 10, 10, 1, 0, 0⟩ ⟨⟨5, 0, 0⟩, ⟨0, 2, 0⟩, ⟨1000, 0, 0⟩⟩
    (sceneOrbit (some 1) 10 ⟨5, 0, 0⟩ ⟨0, 2, 0⟩) rfl rfl rfl
  have h2 := (CrashObject_idempotent frozenMath (scene 5) 3 1).1 r1 h1
  have h3 : (CrashObject frozenMath (scene 5) 3 1).map (fun x => x.crash 3) = some true := by
    decide
  rw [h1] at h3
  exact ⟨r1, h1, by simpa using h3, h2⟩

/-! ### normalize_radian -/

section UnitsProofs

variable {α : Type} [LinearOrderedField α] [FloorRing α]

/-- The constant TWOPI is positive. -/
theorem TWOPI_pos {β : Type} [LinearOrderedField β] : (0 : β) < TWOPI := by
  unfold TWOPI PI
  positivity

/-- The conversion to int is undefined from 2147483648 on. -/
theorem toInt_of_large (q : α) (h : 2147483648 ≤ q) : toInt q = none := by
  have h0 : 0 ≤ q := le_trans (by norm_num) h
  have hb : ¬ ⌊q⌋ ≤ 2147483647 := by
    have : (2147483648 : Int) ≤ ⌊q⌋ := Int.le_floor.mpr (by exact_mod_cast h)
    omega
  simp [toInt, h0, hb]

/-- C18 at a failing input: for the radian 2147483648 * TWOPI, a double of about 1.35e10
(scaling TWOPI by a power of two is exact), the quotient x / TWOPI is exactly 2147483648,
which every rounding that leaves the double 2147483648 as it is returns unchanged and which
(int) cannot represent: the conversion in floatmod is undefined and normalize_radian returns
no value, in [0, 2 * PI) or elsewhere. -/
theorem normalize_radian_undefined_at_large (fl : α → α)
    (hfl : fl 2147483648 = 2147483648) :
    normalize_radian fl (2147483648 * TWOPI) = none := by
  have hy : (0 : α) < TWOPI := TWOPI_pos
  have hq : (2147483648 : α) * TWOPI / TWOPI = 2147483648 := by
    field_simp
  simp [normalize_radian, floatmod, hq, hfl, toInt_of_large (2147483648 : α) le_rfl]

/-- The value of roundNearest at a number q with 2^e ≤ |q| < 2^(e + 1) that is less than half
a unit 2^(e - 52) away from n units. -/
theorem roundNearest_eq (q : ℚ) (e n : ℤ) (he1 : (2 : ℚ) ^ e ≤ |q|)
    (he2 : |q| < (2 : ℚ) ^ (e + 1)) (hn : |q / (2 : ℚ) ^ (e - 52) - n| < 1 / 2) :
    roundNearest q = n * (2 : ℚ) ^ (e - 52) := by
  have hpos : (0 : ℚ) < |q| := lt_of_lt_of_le (by positivity) he1
  have hq : q ≠ 0 := abs_pos.mp hpos
  have hlog : Int.log 2 |q| = e := by
    have h1 : e ≤ Int.log 2 |q| :=
      (Int.zpow_le_iff_le_log (by norm_num) hpos).mp (by exact_mod_cast he1)
    have h2 : Int.log 2 |q| < e + 1 :=
      (Int.lt_zpow_iff_log_lt (by norm_num) hpos).mp (by exact_mod_cast he2)
    omega
  unfold roundNearest
  simp only [hq, if_false, hlog]
  obtain ⟨h1, h2⟩ := abs_lt.mp hn
  by_cases hle : (n : ℚ) ≤ q / (2 : ℚ) ^ (e - 52)
  · have hfl : ⌊q / (2 : ℚ) ^ (e - 52)⌋ = n := by
      rw [Int.floor_eq_iff]
      constructor
      · exact hle
      · linarith
    rw [hfl]
    have : q / (2 : ℚ) ^ (e - 52) - n < 1 / 2 := h2
    simp only [this, if_true]
  · have hlt : q / (2 : ℚ) ^ (e - 52) < n := not_le.mp hle
    have hfl : ⌊q / (2 : ℚ) ^ (e - 52)⌋ = n - 1 := by
      rw [Int.floor_eq_iff]
      constructor
      · push_cast
        linarith
      · push_cast
        linarith
    rw [hfl]
    have h3 : ¬ (q / (2 : ℚ) ^ (e - 52) - ((n - 1 : ℤ) : ℚ) < 1 / 2) := by
      push_cast
      linarith
    have h4 : (1 : ℚ) / 2 < q / (2 : ℚ) ^ (e - 52) - ((n - 1 : ℤ) : ℚ) := by
      push_cast
      linarith
    simp only [h3, if_false, h4, if_true]
    push_cast
    ring

/-- Witness of C18 at the failing input, with rounding to the nearest double: 2147483648 is
2^52 units of 2^(-21) and is left as it is. -/
theorem normalize_radian_undefined_at_large_witness :
    normalize_radian roundNearest (2147483648 * TWOPI) = none :=
  normalize_radian_undefined_at_large roundNearest
    (by
      rw [roundNearest_eq 2147483648 31 4503599627370496 (by norm_num) (by norm_num)
        (by norm_num)]
      norm_num)

/-- A negative radian x that is a double, with a quotient x / TWOPI that rounds into (-1, 0]
and a sum x + TWOPI that rounds to TWOPI: the quotient truncates to 0, floatmod returns x
itself, and normalize_radian returns x + TWOPI rounded, which is TWOPI, a value outside
[0, 2 * PI). -/
theorem normalize_radian_attains_TWOPI (fl : α → α) (x : α) (hx : x < 0) (h0 : fl 0 = 0)
    (hfx : fl x = x) (hq1 : -1 < fl (x / TWOPI)) (hq0 : fl (x / TWOPI) ≤ 0)
    (habs : fl (x + TWOPI) = TWOPI) :
    normalize_radian fl x = some TWOPI := by
  have hk : toInt (fl (x / TWOPI)) = some 0 := by
    unfold toInt
    by_cases hy : 0 ≤ fl (x / TWOPI)
    · have hz : fl (x / TWOPI) = 0 := le_antisymm hq0 hy
      simp [hz]
    · have hc : ⌈fl (x / TWOPI)⌉ = 0 := by
        rw [Int.ceil_eq_iff]
        constructor
        · simpa using hq1
        · simpa using hq0
      simp [hy, hc]
  simp [normalize_radian, floatmod, hk, h0, hfx, hx, habs]

/-- The radian -2^(-70) with rounding to the nearest double: the quotient by TWOPI rounds to
-5734161139222659 * 2^(-125), which truncates to 0, and -2^(-70) + TWOPI rounds to TWOPI,
half a unit 2^(-50) of TWOPI being 2^(-51). normalize_radian returns TWOPI. -/
theorem normalize_radian_attains_TWOPI_witness :
    normalize_radian roundNearest (-(1 / 1180591620717411303424)) = some TWOPI :=
  have hq : roundNearest (-(1 / 1180591620717411303424) / TWOPI) =
      -5734161139222659 / 42535295865117307932921825928971026432 := by
    rw [roundNearest_eq _ (-73) (-5734161139222659) (by norm_num [TWOPI, PI, abs_of_pos])
      (by norm_num [TWOPI, PI, abs_of_pos]) (by norm_num [TWOPI, PI, abs_lt])]
    norm_num [TWOPI, PI]
  normalize_radian_attains_TWOPI roundNearest (-(1 / 1180591620717411303424)) (by norm_num)
    (by simp [roundNearest])
    (by
      rw [roundNearest_eq _ (-70) (-4503599627370496)
        (by rw [abs_neg, abs_of_pos (by norm_num)]; norm_num)
        (by rw [abs_neg, abs_of_pos (by norm_num)]; norm_num) (by norm_num)]
      norm_num)
    (by
      rw [hq]
      norm_num)
    (by
      rw [hq]
      norm_num)
    (by
      rw [roundNearest_eq _ 2 7074237752028440 (by norm_num [TWOPI, PI, abs_of_pos])
        (by norm_num [TWOPI, PI, abs_of_pos]) (by norm_num [TWOPI, PI, abs_lt])]
      norm_num [TWOPI, PI])

end UnitsProofs

/-! ### What a node visit leaves alone -/

/-- A registry differs from itself in nothing. -/
theorem Registry.SameExceptAt.refl {S F : Type} (body : Entity) (r : Registry S F) :
    Registry.SameExceptAt body r r :=
  ⟨rfl, rfl, rfl, rfl, rfl, fun _ _ => rfl, fun _ _ => rfl, fun _ _ => rfl, fun _ _ => rfl,
    fun _ _ => rfl, fun _ _ => rfl, fun _ _ => rfl, fun _ _ => rfl⟩

/-- Changes confined to the components of one entity compose. -/
theorem Registry.SameExceptAt.trans {S F : Type} {body : Entity} {r r1 r2 : Registry S F}
    (h1 : Registry.SameExceptAt body r r1) (h2 : Registry.SameExceptAt body r1 r2) :
    Registry.SameExceptAt body r r2 :=
  ⟨h2.valid.trans h1.valid, h2.bodies.trans h1.bodies,
    h2.orbitalSystem.trans h1.orbitalSystem, h2.date.trans h1.date, h2.sun.trans h1.sun,
    fun e he => (h2.orbit e he).trans (h1.orbit e he),
    fun e he => (h2.kinematics e he).trans (h1.kinematics e he),
    fun e he => (h2.futurePosition e he).trans (h1.futurePosition e he),
    fun e he => (h2.commandQueue e he).trans (h1.commandQueue e he),
    fun e he => (h2.impulse e he).trans (h1.impulse e he),
    fun e he => (h2.setTrueAnomaly e he).trans (h1.setTrueAnomaly e he),
    fun e he => (h2.dirtyOrbit e he).trans (h1.dirtyOrbit e he),
    fun e he => (h2.crash e he).trans (h1.crash e he)⟩

/-- UpdateCommandQueue writes only components of the body, and neither its Kinematics, nor
its Impulse, nor its Crash marker. -/
theorem UpdateCommandQueue_spec (m : Externals R E) (r r1 : Registry R E) (body : Entity)
    (parent : Option Entity) (h : UpdateCommandQueue m r body parent = some r1) :
    Registry.SameExceptAt body r r1 ∧ r1.kinematics = r.kinematics ∧
      r1.impulse = r.impulse ∧ r1.crash = r.crash ∧ r1.futurePosition = r.futurePosition ∧
      r1.setTrueAnomaly = r.setTrueAnomaly ∧
      ((r.orbit body).isSome = true → (r1.orbit body).isSome = true) ∧
      (m.KeepsFrame → (r1.orbit body).map (fun o => o.reference_body) =
        (r.orbit body).map (fun o => o.reference_body)) := by
  unfold UpdateCommandQueue at h
  split at h
  · cases h
    exact ⟨Registry.SameExceptAt.refl _ _, rfl, rfl, rfl, rfl, rfl, id, fun _ => rfl⟩
  · cases h
    exact ⟨Registry.SameExceptAt.refl _ _, rfl, rfl, rfl, rfl, rfl, id, fun _ => rfl⟩
  · split at h
    · cases h
      exact ⟨Registry.SameExceptAt.refl _ _, rfl, rfl, rfl, rfl, rfl, id, fun _ => rfl⟩
    · split at h
      · cases h
      · rename_i orb ho
        cases h
        refine ⟨⟨rfl, rfl, rfl, rfl, rfl, ?_, ?_, ?_, ?_, ?_, ?_, ?_, ?_⟩,
          rfl, rfl, rfl, rfl, rfl, ?_, ?_⟩ <;>
          first
          | (intro e he
             simp [Registry.setOrbit, Registry.markDirty, Registry.setCommands,
               Function.update_noteq he])
          | (intro hk
             simp [Registry.setOrbit, Registry.markDirty, Registry.setCommands, ho, hk.2])
          | simp [Registry.setOrbit, Registry.markDirty, Registry.setCommands]

/-- The registry after lines 127-139 of ParseOrbitTree: only components of the body are
written, neither its Impulse nor its Crash marker; the body then has an Orbit and a
Kinematics whose position and velocity are those of the Orbit and whose center is the one it
had (the default one if it had no Kinematics). -/
theorem ParseOrbitTree.propagate_spec (m : Externals R E) (r r1 : Registry R E)
    (parent : Option Entity) (body : Entity)
    (h : ParseOrbitTree.propagate m parent body r = some r1) :
    Registry.SameExceptAt body r r1 ∧ r1.impulse = r.impulse ∧ r1.crash = r.crash ∧
      r1.futurePosition = r.futurePosition ∧
      (∃ o k, r1.orbit body = some o ∧ r1.kinematics body = some k ∧
        k.position = m.toVec3 o ∧ k.velocity = m.OrbitVelocityToVec3 o o.v ∧
        k.center = ((r.kinematics body).getD m.newKinematics).center) ∧
      (m.KeepsFrame → (r1.orbit body).map (fun o => o.reference_body) =
        (r.orbit body).map (fun o => o.reference_body)) := by
  unfold ParseOrbitTree.propagate at h
  split at h
  · cases h
  · split at h
    · cases h
    · rename_i rq hU
      obtain ⟨hs, hkin, himp, hcr, hfp, hsta, -, href⟩ :=
        UpdateCommandQueue_spec m r rq body parent hU
      split at h
      · cases h
      · rename_i orb ho
        cases hk : rq.kinematics body <;> cases hst : rq.setTrueAnomaly body <;>
          (simp [Registry.emplaceKinematics, Registry.setOrbit, Registry.setKinematics, hk,
              hst, Registry.removeSetTrueAnomaly] at h
           subst h
           refine ⟨⟨hs.valid, hs.bodies, hs.orbitalSystem, hs.date, hs.sun, ?_, ?_, ?_, ?_,
              ?_, ?_, ?_, ?_⟩, himp, hcr, hfp, ?_, ?_⟩
           · intro e he
             simpa [Function.update_noteq he] using hs.orbit e he
           · intro e he
             simpa [Function.update_noteq he] using hs.kinematics e he
           · exact hs.futurePosition
           · exact hs.commandQueue
           · exact hs.impulse
           · intro e he
             simpa [Function.update_noteq he] using hs.setTrueAnomaly e he
           · exact hs.dirtyOrbit
           · exact hs.crash
           · refine ⟨_, _, Function.update_same _ _ _, Function.update_same _ _ _, rfl, rfl,
               ?_⟩
             rw [← hkin, hk]
             rfl
           · intro hm
             have := href hm
             rw [ho] at this
             simp [hm.1, ← this])

/-- UpdateCommandQueue returns a registry whenever the body has an Orbit. -/
theorem UpdateCommandQueue_isSome (m : Externals R E) (r : Registry R E) (body : Entity)
    (parent : Option Entity) (orb : Orbit R E) (ho : r.orbit body = some orb) :
    ∃ rq, UpdateCommandQueue m r body parent = some rq := by
  unfold UpdateCommandQueue
  cases hq : r.commandQueue body with
  | none => exact ⟨r, rfl⟩
  | some q =>
    cases q with
    | nil => exact ⟨r, rfl⟩
    | cons c cs =>
      by_cases ht : c.time > r.date
      · exact ⟨r, by simp [ht]⟩
      · simp [ht, ho]

/-- Lines 127-139 of ParseOrbitTree return a registry whenever the body has an Orbit. -/
theorem ParseOrbitTree.propagate_isSome (m : Externals R E) (r : Registry R E)
    (parent : Option Entity) (body : Entity) (orb : Orbit R E) (ho : r.orbit body = some orb) :
    ∃ r1, ParseOrbitTree.propagate m parent body r = some r1 := by
  obtain ⟨rq, hU⟩ := UpdateCommandQueue_isSome m r body parent orb ho
  have hq := (UpdateCommandQueue_spec m r rq body parent hU).2.2.2.2.2.2.1 (by simp [ho])
  cases hoq : rq.orbit body with
  | none => simp [hoq] at hq
  | some orbq =>
    unfold ParseOrbitTree.propagate
    cases hk : rq.kinematics body <;> cases hst : rq.setTrueAnomaly body <;>
      simp [ho, hU, hoq, Registry.emplaceKinematics, Registry.setOrbit,
        Registry.setKinematics, hk, hst, Registry.removeSetTrueAnomaly]

/-! ### FuturePosition is write-only -/

/-- UpdateCommandQueue neither reads nor writes the FuturePosition store. -/
theorem UpdateCommandQueue_withFuture (m : Externals R E) (r : Registry R E) (body : Entity)
    (parent : Option Entity) (f : Entity → Option (FuturePosition R)) :
    UpdateCommandQueue m (r.withFuture f) body parent =
      (UpdateCommandQueue m r body parent).map (fun r1 => r1.withFuture f) := by
  unfold UpdateCommandQueue
  simp only [Registry.withFuture, Registry.setOrbit, Registry.markDirty, Registry.setCommands]
  repeat' split
  all_goals simp_all

/-- Lines 127-139 of ParseOrbitTree neither read nor write the FuturePosition store. -/
theorem ParseOrbitTree.propagate_withFuture (m : Externals R E) (r : Registry R E)
    (parent : Option Entity) (body : Entity) (f : Entity → Option (FuturePosition R)) :
    ParseOrbitTree.propagate m parent body (r.withFuture f) =
      (ParseOrbitTree.propagate m parent body r).map (fun r1 => r1.withFuture f) := by
  unfold ParseOrbitTree.propagate
  rw [UpdateCommandQueue_withFuture]
  cases hU : UpdateCommandQueue m r body parent with
  | none =>
    simp only [Registry.withFuture, Option.map_none']
    split <;> simp_all
  | some rq =>
    cases ho : r.orbit body <;> cases hoq : rq.orbit body <;>
      cases hk : rq.kinematics body <;> cases hst : rq.setTrueAnomaly body <;>
      simp [Registry.withFuture, Registry.setOrbit, Registry.setKinematics,
        Registry.emplaceKinematics, Registry.removeSetTrueAnomaly, ho, hoq, hk, hst]

/-- LeaveSOI neither reads nor writes the FuturePosition store. -/
theorem LeaveSOI_withFuture (m : Externals R E) (r : Registry R E) (body parent : Entity)
    (f : Entity → Option (FuturePosition R)) :
    LeaveSOI m (r.withFuture f) body parent =
      (LeaveSOI m r body parent).map (fun r1 => r1.withFuture f) := by
  unfold LeaveSOI
  simp only [Registry.withFuture, Registry.setChildren, Registry.setOrbit,
    Registry.setKinematics, Registry.markDirty]
  repeat' split
  all_goals simp_all

/-- CrashObject neither reads nor writes the FuturePosition store. -/
theorem CrashObject_withFuture (m : Externals R E) (r : Registry R E) (body parent : Entity)
    (f : Entity → Option (FuturePosition R)) :
    CrashObject m (r.withFuture f) body parent =
      (CrashObject m r body parent).map (fun r1 => r1.withFuture f) := by
  unfold CrashObject
  by_cases htag : (r.body body).isSome = true
  · simp [Registry.withFuture, htag]
  · cases hb : r.body parent with
    | none => simp [Registry.withFuture, htag, hb]
    | some p_bod =>
      cases hk : r.kinematics body with
      | none => simp [Registry.withFuture, htag, hb, hk]
      | some pos =>
        by_cases hc : r.crash body = true <;>
          by_cases hz : m.length (0 : Vec3 R) ≤ p_bod.radius <;>
          by_cases hl : m.length pos.position ≤ p_bod.radius <;>
          cases ho : r.orbit body <;>
          simp [Registry.withFuture, htag, hb, hk, hc, hz, hl, ho, Registry.setOrbit,
            Registry.setKinematics, Registry.markCrash]

/-- CalculateImpulse neither reads nor writes the FuturePosition store. -/
theorem CalculateImpulse_withFuture (m : Externals R E) (r : Registry R E)
    (body parent : Entity) (f : Entity → Option (FuturePosition R)) :
    CalculateImpulse m (r.withFuture f) body parent =
      (CalculateImpulse m r body parent).map (fun r1 => r1.withFuture f) := by
  unfold CalculateImpulse
  simp only [Registry.withFuture, Registry.setOrbit, Registry.setKinematics,
    Registry.emplaceKinematics, Registry.markDirty, Registry.removeImpulse]
  repeat' split
  all_goals simp_all

/-- The reparenting step of EnterSOI neither reads nor writes the FuturePosition store. -/
theorem EnterSOI.reparent_withFuture (m : Externals R E) (r : Registry R E)
    (parent body entity : Entity) (pos : Kinematics R) (b : Body R) (k : Kinematics R)
    (f : Entity → Option (FuturePosition R)) :
    EnterSOI.reparent m (r.withFuture f) parent body entity pos b k =
      (EnterSOI.reparent m r parent body entity pos b k).map (fun r1 => r1.withFuture f) := by
  unfold EnterSOI.reparent
  simp only [Registry.withFuture, Registry.setOrbit, Registry.setKinematics,
    Registry.emplaceOrbitalSystem, Registry.setChildren, Registry.markDirty]
  repeat' split
  all_goals simp_all

/-- The scan of EnterSOI neither reads nor writes the FuturePosition store. -/
theorem EnterSOI.scan_withFuture (m : Externals R E) (r : Registry R E) (parent body : Entity)
    (pos : Kinematics R) (f : Entity → Option (FuturePosition R)) (l : List Entity) :
    EnterSOI.scan m (r.withFuture f) parent body pos l =
      (EnterSOI.scan m r parent body pos l).map (fun x => (x.1.withFuture f, x.2)) := by
  induction l with
  | nil => rfl
  | cons e rest ih =>
    unfold EnterSOI.scan
    by_cases heb : e = body
    · simpa [heb] using ih
    · simp only [heb, if_false]
      cases hb : r.body e with
      | none => simpa [Registry.withFuture, hb] using ih
      | some bc =>
        cases hk : r.kinematics e with
        | none => simpa [Registry.withFuture, hb, hk] using ih
        | some tk =>
          by_cases hd : m.distance tk.position pos.position ≤ bc.SOI
          · have hrep := EnterSOI.reparent_withFuture m r parent body e pos bc tk f
            cases hR : EnterSOI.reparent m r parent body e pos bc tk with
            | none =>
              rw [hR] at hrep
              simp [Registry.withFuture, hb, hk, hd, hR] at hrep ⊢
              simp [hrep]
            | some r1 =>
              rw [hR] at hrep
              simp [Registry.withFuture, hb, hk, hd, hR] at hrep ⊢
              simp [hrep]
          · simpa [Registry.withFuture, hb, hk, hd] using ih

/-- EnterSOI neither reads nor writes the FuturePosition store. -/
theorem EnterSOI_withFuture (m : Externals R E) (r : Registry R E) (parent body : Entity)
    (f : Entity → Option (FuturePosition R)) :
    EnterSOI m (r.withFuture f) parent body =
      (EnterSOI m r parent body).map (fun x => (x.1.withFuture f, x.2)) := by
  unfold EnterSOI
  simp only [EnterSOI.scan_withFuture]
  simp only [Registry.withFuture]
  repeat' split
  all_goals simp_all

/-- The call get_or_emplace<Kinematics> neither reads nor writes the FuturePosition store. -/
theorem Registry.emplaceKinematics_withFuture {S F : Type} (m : Externals S F)
    (r : Registry S F) (e : Entity) (f : Entity → Option (FuturePosition S)) :
    (r.withFuture f).emplaceKinematics m e = (r.emplaceKinematics m e).withFuture f := by
  unfold Registry.emplaceKinematics
  cases h : r.kinematics e <;> simp [Registry.withFuture, Registry.setKinematics, h]

/-- Lines 141-154 of ParseOrbitTree neither read nor write the FuturePosition store. -/
theorem ParseOrbitTree.frame_withFuture (m : Externals R E) (r : Registry R E)
    (parent body : Entity) (f : Entity → Option (FuturePosition R)) :
    ParseOrbitTree.frame m parent body (r.withFuture f) =
      (ParseOrbitTree.frame m parent body r).map (fun r1 => r1.withFuture f) := by
  unfold ParseOrbitTree.frame
  simp only [Registry.emplaceKinematics_withFuture]
  generalize r.emplaceKinematics m parent = r1
  have hb0 : (r1.withFuture f).body = r1.body := rfl
  have hk0 : (r1.withFuture f).kinematics = r1.kinematics := rfl
  simp only [hb0, hk0]
  cases hb : r1.body parent with
  | none => simp
  | some pb =>
    cases hk : r1.kinematics body with
    | none => simp
    | some pos =>
      have h2 : (if m.length pos.position > pb.SOI then LeaveSOI m (r1.withFuture f) body parent
          else some (r1.withFuture f)) =
          (if m.length pos.position > pb.SOI then LeaveSOI m r1 body parent
            else some r1).map (fun r2 => r2.withFuture f) := by
        split <;> simp [LeaveSOI_withFuture]
      simp only [h2]
      cases (if m.length pos.position > pb.SOI then LeaveSOI m r1 body parent
          else some r1) with
      | none => simp
      | some r2 =>
        simp only [Option.map_some', CrashObject_withFuture]
        cases CrashObject m r2 body parent with
        | none => simp
        | some r3 =>
          simp only [Option.map_some', CalculateImpulse_withFuture]
          cases CalculateImpulse m r3 body parent with
          | none => simp
          | some r4 =>
            have hk4 : (r4.withFuture f).kinematics = r4.kinematics := rfl
            simp only [Option.map_some', hk4]
            cases r4.kinematics body with
            | none => simp
            | some pos1 =>
              cases r4.kinematics parent with
              | none => simp
              | some p_pos =>
                have hset : (r4.withFuture f).setKinematics body
                    { pos1 with center := p_pos.center + p_pos.position } =
                    (r4.setKinematics body
                      { pos1 with center := p_pos.center + p_pos.position }).withFuture f := rfl
                simp only [hset, EnterSOI_withFuture]
                cases EnterSOI m (r4.setKinematics body
                    { pos1 with center := p_pos.center + p_pos.position }) parent body <;>
                  simp

/-- Two registries with the same image under eraseFuture differ only in the FuturePosition
store. -/
theorem Registry.eq_withFuture_of_eraseFuture {S F : Type} (a b : Registry S F)
    (h : a.eraseFuture = b.eraseFuture) : a = b.withFuture a.futurePosition := by
  have ha : a = a.eraseFuture.withFuture a.futurePosition := rfl
  rw [ha, h]
  rfl

/-- Two optional registries with the same image under eraseFuture are both none, or both
some, with registries that differ only in the FuturePosition store. -/
theorem Option.eraseFuture_cases {S F : Type} (x y : Option (Registry S F))
    (h : x.map Registry.eraseFuture = y.map Registry.eraseFuture) :
    (x = none ∧ y = none) ∨
      ∃ a b, x = some a ∧ y = some b ∧ a = b.withFuture a.futurePosition := by
  cases x with
  | none =>
    cases y with
    | none => exact Or.inl ⟨rfl, rfl⟩
    | some b => simp at h
  | some a =>
    cases y with
    | none => simp at h
    | some b =>
      refine Or.inr ⟨a, b, rfl, rfl, ?_⟩
      apply Registry.eq_withFuture_of_eraseFuture
      simpa using h

/-- Lines 156-158 of ParseOrbitTree write the FuturePosition store only, and what they write
to the other stores does not depend on it. -/
theorem ParseOrbitTree.future_withFuture (m : Externals R E) (r : Registry R E)
    (body : Entity) (f : Entity → Option (FuturePosition R)) :
    (ParseOrbitTree.future m body (r.withFuture f)).map Registry.eraseFuture =
      (ParseOrbitTree.future m body r).map Registry.eraseFuture := by
  unfold ParseOrbitTree.future
  cases ho : r.orbit body <;> cases hk : r.kinematics body <;> cases hf : f body <;>
    cases hr : r.futurePosition body <;>
    simp [Registry.eraseFuture, Registry.withFuture, Registry.emplaceFuturePosition,
      Registry.setFuturePosition, ho, hk, hf, hr]

/-- A node visit writes to the stores other than FuturePosition what it would write from any
other content of the FuturePosition store. -/
theorem ParseOrbitTree.visit_withFuture (m : Externals R E) (r : Registry R E)
    (parent : Option Entity) (body : Entity) (f : Entity → Option (FuturePosition R)) :
    (ParseOrbitTree.visit m parent body (r.withFuture f)).map Registry.eraseFuture =
      (ParseOrbitTree.visit m parent body r).map Registry.eraseFuture := by
  unfold ParseOrbitTree.visit
  rw [ParseOrbitTree.propagate_withFuture]
  cases ParseOrbitTree.propagate m parent body r with
  | none => simp
  | some r1 =>
    simp only [Option.map_some']
    cases parent with
    | none => exact ParseOrbitTree.future_withFuture m r1 body f
    | some p =>
      simp only [ParseOrbitTree.frame_withFuture]
      cases ParseOrbitTree.frame m p body r1 with
      | none => simp
      | some r2 =>
        simp only [Option.map_some']
        exact ParseOrbitTree.future_withFuture m r2 body f

/-- A loop over the children whose step commutes with replacing the FuturePosition store
commutes with it. -/
theorem ParseOrbitTree.loop_withFuture {S F : Type} (body : Entity)
    (step : Entity → Registry S F → Option (Registry S F))
    (hstep : ∀ (e : Entity) (r : Registry S F) (f : Entity → Option (FuturePosition S)),
      (step e (r.withFuture f)).map Registry.eraseFuture =
        (step e r).map Registry.eraseFuture) :
    ∀ (k i : Nat) (buf : List Entity) (r : Registry S F)
      (f : Entity → Option (FuturePosition S)),
      (ParseOrbitTree.loop (fun s => s.orbitalSystem body) step k i buf
          (r.withFuture f)).map Registry.eraseFuture =
        (ParseOrbitTree.loop (fun s => s.orbitalSystem body) step k i buf r).map
          Registry.eraseFuture := by
  intro k
  induction k with
  | zero =>
    intro i buf r f
    rfl
  | succ k ih =>
    intro i buf r f
    rw [ParseOrbitTree.loop, ParseOrbitTree.loop]
    cases hb : buf[i]? with
    | none => rfl
    | some e =>
      simp only []
      rcases Option.eraseFuture_cases _ _ (hstep e r f) with ⟨h1, h2⟩ | ⟨a, b, h1, h2, h3⟩
      · rw [h1, h2]
      · rw [h1, h2, h3]
        simp only []
        by_cases hk : k = 0
        · simp only [hk, if_true, Option.map_some']
          rfl
        · simp only [hk, if_false]
          have hr : (r.withFuture f).orbitalSystem body = r.orbitalSystem body := rfl
          have hbw : (b.withFuture a.futurePosition).orbitalSystem body =
              b.orbitalSystem body := rfl
          rw [hr, hbw]
          cases hc : r.orbitalSystem body with
          | none => rfl
          | some l =>
            cases hc1 : b.orbitalSystem body with
            | none => rfl
            | some l1 =>
              simp only []
              by_cases h4 : l1 = l
              · simp only [h4, if_true]
                exact ih _ _ _ _
              · simp only [h4, if_false]
                by_cases h5 : l1 = eraseAll l e
                · simp only [h5, if_true]
                  exact ih _ _ _ _
                · simp [h5]

/-- The walk writes to the stores other than FuturePosition what it would write from any
other content of the FuturePosition store, and succeeds or fails alike. -/
theorem ParseOrbitTree_withFuture (m : Externals R E) (fuel : Nat) :
    ∀ (parent : Option Entity) (body : Entity) (r : Registry R E)
      (f : Entity → Option (FuturePosition R)),
      (ParseOrbitTree m fuel parent body (r.withFuture f)).map Registry.eraseFuture =
        (ParseOrbitTree m fuel parent body r).map Registry.eraseFuture := by
  induction fuel with
  | zero =>
    intro parent body r f
    rfl
  | succ n ih =>
    intro parent body r f
    rw [ParseOrbitTree, ParseOrbitTree]
    have hv : (r.withFuture f).valid = r.valid := rfl
    rw [hv]
    cases hval : r.valid body with
    | false =>
      simp only [if_true, Option.map_some']
      rfl
    | true =>
      simp only [Bool.true_eq_false, if_false]
      rcases Option.eraseFuture_cases _ _ (ParseOrbitTree.visit_withFuture m r parent body f)
        with ⟨h1, h2⟩ | ⟨a, b, h1, h2, h3⟩
      · rw [h1, h2]
      · rw [h1, h2]
        have hc : a.orbitalSystem = b.orbitalSystem := by
          rw [h3]
          rfl
        simp only [hc]
        cases b.orbitalSystem body with
        | none =>
          simp only [Option.map_some']
          rw [h3]
          rfl
        | some children =>
          simp only []
          rw [h3]
          exact ParseOrbitTree.loop_withFuture body _ (fun e r1 f1 => ih (some body) e r1 f1)
            _ _ _ b _

/-- Lines 156-158 of ParseOrbitTree write the FuturePosition of the body only: its center is
the center of the body's Kinematics, its position is OrbitTimeToVec3 of the body's Orbit one
time increment ahead. -/
theorem ParseOrbitTree.future_spec (m : Externals R E) (r r1 : Registry R E) (body : Entity)
    (h : ParseOrbitTree.future m body r = some r1) :
    Registry.SameExceptAt body r r1 ∧ r1.orbit = r.orbit ∧ r1.kinematics = r.kinematics ∧
      r1.commandQueue = r.commandQueue ∧ r1.impulse = r.impulse ∧
      r1.setTrueAnomaly = r.setTrueAnomaly ∧ r1.dirtyOrbit = r.dirtyOrbit ∧
      r1.crash = r.crash ∧
      ∃ fp k o, r1.futurePosition body = some fp ∧ r.kinematics body = some k ∧
        r.orbit body = some o ∧ fp.center = k.center ∧
        fp.position = m.OrbitTimeToVec3 o (r.date + m.TIME_INCREMENT) := by
  unfold ParseOrbitTree.future at h
  cases ho : r.orbit body with
  | none =>
    cases hk : r.kinematics body <;> cases hf : r.futurePosition body <;>
      simp [Registry.emplaceFuturePosition, Registry.setFuturePosition, ho, hk, hf] at h
  | some o =>
    cases hk : r.kinematics body with
    | none =>
      cases hf : r.futurePosition body <;>
        simp [Registry.emplaceFuturePosition, Registry.setFuturePosition, ho, hk, hf] at h
    | some k =>
      cases hf : r.futurePosition body <;>
        (simp [Registry.emplaceFuturePosition, Registry.setFuturePosition, ho, hk, hf] at h
         subst h
         refine ⟨⟨rfl, rfl, rfl, rfl, rfl, fun _ _ => rfl, fun _ _ => rfl, ?_,
           fun _ _ => rfl, fun _ _ => rfl, fun _ _ => rfl, fun _ _ => rfl, fun _ _ => rfl⟩,
           rfl, rfl, rfl, rfl, rfl, rfl, rfl, ?_⟩
         · intro e he
           simp [Function.update_noteq he]
         · exact ⟨_, k, o, Function.update_same _ _ _, rfl, rfl, rfl, rfl⟩)

/-- Lines 156-158 of ParseOrbitTree return a registry whenever the body has an Orbit and a
Kinematics. -/
theorem ParseOrbitTree.future_isSome (m : Externals R E) (r : Registry R E) (body : Entity)
    (o : Orbit R E) (k : Kinematics R) (ho : r.orbit body = some o)
    (hk : r.kinematics body = some k) :
    ∃ r1, ParseOrbitTree.future m body r = some r1 := by
  unfold ParseOrbitTree.future
  cases hf : r.futurePosition body <;>
    simp [Registry.emplaceFuturePosition, Registry.setFuturePosition, ho, hk, hf]

/-- An optional value that is some is some of its value or default. -/
theorem Option.eq_some_getD {α : Type} (o : Option α) (d : α) (h : o.isSome = true) :
    o = some (o.getD d) := by
  cases o with
  | none => simp at h
  | some a => rfl

/-- C19: FuturePosition does not feed back into propagation. Let r be a registry and f any
other content of the FuturePosition store. If DoSystem succeeds on r it succeeds on r with
its FuturePosition store replaced by f, and the two results have the same Orbit, Kinematics,
child list, DirtyOrbit, Crash, Impulse, SetTrueAnomaly and CommandQueue stores; if it fails on
r it fails on the other. And after every node visit the FuturePosition of the body has the
center of the body's Kinematics. -/
theorem DoSystem_ignores_FuturePosition (m : Externals R E) (fuel : Nat) (center : Entity)
    (time : R) (r : Registry R E) (f : Entity → Option (FuturePosition R)) :
    (∀ r1, DoSystem m fuel center time r = some r1 →
      ∃ s1, DoSystem m fuel center time (r.withFuture f) = some s1 ∧
        s1.orbit = r1.orbit ∧ s1.kinematics = r1.kinematics ∧
        s1.orbitalSystem = r1.orbitalSystem ∧ s1.dirtyOrbit = r1.dirtyOrbit ∧
        s1.crash = r1.crash ∧ s1.impulse = r1.impulse ∧
        s1.setTrueAnomaly = r1.setTrueAnomaly ∧ s1.commandQueue = r1.commandQueue) ∧
    (DoSystem m fuel center time r = none →
      DoSystem m fuel center time (r.withFuture f) = none) ∧
    (∀ parent body r1, ParseOrbitTree.visit m parent body r = some r1 →
      ∃ fp k, r1.futurePosition body = some fp ∧ r1.kinematics body = some k ∧
        fp.center = k.center) := by
  have hw := ParseOrbitTree_withFuture m fuel none center r f
  refine ⟨?_, ?_, ?_⟩
  · intro r1 h1
    unfold DoSystem at h1 ⊢
    rcases Option.eraseFuture_cases _ _ hw with ⟨-, h2⟩ | ⟨a, b, ha, hb, hab⟩
    · rw [h2] at h1
      cases h1
    · rw [hb] at h1
      cases h1
      refine ⟨a, ha, ?_, ?_, ?_, ?_, ?_, ?_, ?_, ?_⟩ <;>
        (rw [hab]
         rfl)
  · intro h1
    unfold DoSystem at h1 ⊢
    rcases Option.eraseFuture_cases _ _ hw with ⟨h2, -⟩ | ⟨a, b, -, hb, -⟩
    · exact h2
    · rw [hb] at h1
      cases h1
  · intro parent body r1 h1
    unfold ParseOrbitTree.visit at h1
    cases hp : ParseOrbitTree.propagate m parent body r with
    | none => simp [hp] at h1
    | some r2 =>
      simp only [hp] at h1
      cases parent with
      | none =>
        obtain ⟨-, -, hkin, -, -, -, -, -, fp, k, o, hfp, hk, -, hc, -⟩ :=
          ParseOrbitTree.future_spec m r2 r1 body h1
        exact ⟨fp, k, hfp, by rw [hkin, hk], hc⟩
      | some p =>
        cases hf : ParseOrbitTree.frame m p body r2 with
        | none => simp [hf] at h1
        | some r3 =>
          simp only [hf] at h1
          obtain ⟨-, -, hkin, -, -, -, -, -, fp, k, o, hfp, hk, -, hc, -⟩ :=
            ParseOrbitTree.future_spec m r3 r1 body h1
          exact ⟨fp, k, hfp, by rw [hkin, hk], hc⟩

/-- Witness of C19: the walk over the scenario with the probe at x = 57 gives the same
orbits, kinematics, child lists and markers when every entity starts with a stored
FuturePosition (9, 9, 9). -/
theorem DoSystem_ignores_FuturePosition_witness :
    ∃ s1, DoSystem frozenMath 4 0 0
        ((scene 57).withFuture (fun _ => some ⟨⟨9, 9, 9⟩, ⟨9, 9, 9⟩⟩)) = some s1 ∧
      s1.orbit = sceneWalked.orbit ∧ s1.kinematics = sceneWalked.kinematics ∧
      s1.orbitalSystem = sceneWalked.orbitalSystem ∧ s1.dirtyOrbit = sceneWalked.dirtyOrbit ∧
      s1.crash = sceneWalked.crash ∧ s1.impulse = sceneWalked.impulse ∧
      s1.setTrueAnomaly = sceneWalked.setTrueAnomaly ∧
      s1.commandQueue = sceneWalked.commandQueue :=
  (DoSystem_ignores_FuturePosition frozenMath 4 0 0 (scene 57)
    (fun _ => some ⟨⟨9, 9, 9⟩, ⟨9, 9, 9⟩⟩)).1 sceneWalked
    (Option.eq_some_getD _ (scene 57) (by decide))

/-! ### The stages of a node visit -/

/-- The stages of lines 141-154 of ParseOrbitTree when they return a registry. -/
theorem ParseOrbitTree.frame_stages (m : Externals R E) (r r1 : Registry R E)
    (parent body : Entity) (h : ParseOrbitTree.frame m parent body r = some r1) :
    ∃ pb pos r2 r3 r4 pos1 p_pos b,
      (r.emplaceKinematics m parent).body parent = some pb ∧
      (r.emplaceKinematics m parent).kinematics body = some pos ∧
      (if m.length pos.position > pb.SOI
        then LeaveSOI m (r.emplaceKinematics m parent) body parent
        else some (r.emplaceKinematics m parent)) = some r2 ∧
      CrashObject m r2 body parent = some r3 ∧
      CalculateImpulse m r3 body parent = some r4 ∧
      r4.kinematics body = some pos1 ∧ r4.kinematics parent = some p_pos ∧
      EnterSOI m (r4.setKinematics body { pos1 with center := p_pos.center + p_pos.position })
        parent body = some (r1, b) := by
  unfold ParseOrbitTree.frame at h
  simp only [] at h
  generalize r.emplaceKinematics m parent = re at h ⊢
  cases hb : re.body parent with
  | none => simp [hb] at h
  | some pb =>
    cases hk : re.kinematics body with
    | none => simp [hb, hk] at h
    | some pos =>
      simp only [hb, hk] at h
      cases h2 : (if m.length pos.position > pb.SOI then LeaveSOI m re body parent
          else some re) with
      | none => simp [h2] at h
      | some r2 =>
        simp only [h2] at h
        cases h3 : CrashObject m r2 body parent with
        | none => simp [h3] at h
        | some r3 =>
          simp only [h3] at h
          cases h4 : CalculateImpulse m r3 body parent with
          | none => simp [h4] at h
          | some r4 =>
            simp only [h4] at h
            cases hk4 : r4.kinematics body with
            | none => simp [hk4] at h
            | some pos1 =>
              cases hpk4 : r4.kinematics parent with
              | none => simp [hk4, hpk4] at h
              | some p_pos =>
                simp only [hk4, hpk4] at h
                cases h5 : EnterSOI m (r4.setKinematics body
                    { pos1 with center := p_pos.center + p_pos.position }) parent body with
                | none => simp [h5] at h
                | some res =>
                  simp only [h5, Option.some.injEq] at h
                  obtain ⟨ra, b⟩ := res
                  simp only at h
                  subst h
                  exact ⟨pb, pos, r2, r3, r4, pos1, p_pos, b, rfl, rfl, h2, h3, h4, hk4, hpk4,
                    h5⟩

/-- The stages of a node visit that returns a registry. -/
theorem ParseOrbitTree.visit_stages (m : Externals R E) (r r1 : Registry R E)
    (parent : Option Entity) (body : Entity)
    (h : ParseOrbitTree.visit m parent body r = some r1) :
    ∃ rp rf, ParseOrbitTree.propagate m parent body r = some rp ∧
      (match parent with
        | none => rf = rp
        | some p => ParseOrbitTree.frame m p body rp = some rf) ∧
      ParseOrbitTree.future m body rf = some r1 := by
  unfold ParseOrbitTree.visit at h
  cases hp : ParseOrbitTree.propagate m parent body r with
  | none => simp [hp] at h
  | some rp =>
    simp only [hp] at h
    cases parent with
    | none => exact ⟨rp, rp, rfl, rfl, h⟩
    | some p =>
      cases hf : ParseOrbitTree.frame m p body rp with
      | none => simp [hf] at h
      | some rf =>
        simp only [hf] at h
        exact ⟨rp, rf, rfl, hf, h⟩

/-- What LeaveSOI leaves alone, when it returns a registry: it writes only the Orbit, the
Kinematics and the DirtyOrbit marker of the body and two child lists, and no component is
removed. Either no child list is changed, or the body is appended to the child list of the
parent's reference body and then erased from the child list of the parent. -/
theorem LeaveSOI_rel (m : Externals R E) (r r2 : Registry R E) (body parent : Entity)
    (h : LeaveSOI m r body parent = some r2) :
    r2.valid = r.valid ∧ r2.body = r.body ∧ r2.date = r.date ∧ r2.sun = r.sun ∧
      r2.crash = r.crash ∧ r2.impulse = r.impulse ∧ r2.futurePosition = r.futurePosition ∧
      r2.commandQueue = r.commandQueue ∧ r2.setTrueAnomaly = r.setTrueAnomaly ∧
      (∀ e, e ≠ body → r2.kinematics e = r.kinematics e ∧ r2.orbit e = r.orbit e ∧
        r2.dirtyOrbit e = r.dirtyOrbit e) ∧
      ((r.kinematics body).isSome = true → (r2.kinematics body).isSome = true) ∧
      ((r.orbit body).isSome = true → (r2.orbit body).isSome = true) ∧
      (r2.orbitalSystem = r.orbitalSystem ∨
        ∃ g gsys pt, r.orbitalSystem g = some gsys ∧
          Function.update r.orbitalSystem g (some (gsys ++ [body])) parent = some pt ∧
          r2.orbitalSystem =
            Function.update (Function.update r.orbitalSystem g (some (gsys ++ [body])))
              parent (some (eraseAll pt body))) := by
  unfold LeaveSOI at h
  split at h
  · cases h
  · split at h
    · cases h
      exact ⟨rfl, rfl, rfl, rfl, rfl, rfl, rfl, rfl, rfl, fun _ _ => ⟨rfl, rfl, rfl⟩, id, id,
        Or.inl rfl⟩
    · rename_i g hg
      split at h
      · cases h
      · rename_i gsys hgs
        try dsimp only at h
        split at h
        · rename_i gb gk pt hgb hgk hpt
          try dsimp only at h
          split at h
          · try dsimp only at h
            split at h
            · try dsimp only at h
              split at h
              · try dsimp only at h
                split at h
                · try dsimp only at h
                  cases h
                  refine ⟨rfl, rfl, rfl, rfl, rfl, rfl, rfl, rfl, rfl, ?_, ?_, ?_, ?_⟩
                  · intro e he
                    simp [Registry.setChildren, Registry.setOrbit, Registry.setKinematics,
                      Registry.markDirty, Function.update_noteq he]
                  · intro _
                    simp [Registry.setChildren, Registry.setOrbit, Registry.setKinematics,
                      Registry.markDirty]
                  · intro _
                    simp [Registry.setChildren, Registry.setOrbit, Registry.setKinematics,
                      Registry.markDirty]
                  · refine Or.inr ⟨g, gsys, pt, hgs, ?_, ?_⟩
                    · simpa [Registry.setChildren] using hpt
                    · simp [Registry.setChildren, Registry.setOrbit, Registry.setKinematics,
                        Registry.markDirty]
                · cases h
              · cases h
            · cases h
          · cases h
        · cases h

/-- What CrashObject leaves alone, when it returns a registry: it writes only the Kinematics,
the Orbit and the Crash marker of the body, keeps the reference body and removes nothing. For
a body without Body that is already marked Crash, with the origin within the parent's radius,
the body ends with its position at the origin and a semi-major axis 0. -/
theorem CrashObject_rel (m : Externals R E) (r r3 : Registry R E) (body parent : Entity)
    (h : CrashObject m r body parent = some r3) :
    Registry.SameExceptAt body r r3 ∧ r3.impulse = r.impulse ∧
      r3.futurePosition = r.futurePosition ∧ r3.commandQueue = r.commandQueue ∧
      r3.setTrueAnomaly = r.setTrueAnomaly ∧ r3.dirtyOrbit = r.dirtyOrbit ∧
      (r3.orbit body).map (fun o => o.reference_body) =
        (r.orbit body).map (fun o => o.reference_body) ∧
      (r3.kinematics body).map (fun k => k.center) =
        (r.kinematics body).map (fun k => k.center) ∧
      ((r.body body).isSome = true → r3 = r) ∧
      (r.crash body = true → r3.crash body = true) ∧
      (∀ pb, r.body body = none → r.crash body = true → r.body parent = some pb →
        m.length (0 : Vec3 R) ≤ pb.radius →
        ∃ k o, r3.kinematics body = some k ∧ k.position = 0 ∧ r3.orbit body = some o ∧
          o.semi_major_axis = 0) := by
  unfold CrashObject at h
  by_cases htag : (r.body body).isSome = true
  · simp only [htag, if_true, Option.some.injEq] at h
    subst h
    refine ⟨Registry.SameExceptAt.refl _ _, rfl, rfl, rfl, rfl, rfl, rfl, rfl, fun _ => rfl,
      id, ?_⟩
    intro pb hb
    simp [hb] at htag
  · simp only [htag, if_false] at h
    cases hb : r.body parent with
    | none => simp [hb] at h
    | some p_bod =>
      cases hk : r.kinematics body with
      | none => simp [hb, hk] at h
      | some pos =>
        simp only [hb, hk] at h
        by_cases hc : r.crash body = true <;>
          by_cases hz : m.length (0 : Vec3 R) ≤ p_bod.radius <;>
          by_cases hl : m.length pos.position ≤ p_bod.radius <;>
          cases ho : r.orbit body <;>
          simp [hc, hz, hl, hk, ho, Registry.setKinematics, Registry.markCrash,
            Registry.setOrbit] at h <;>
          (subst h
           refine ⟨⟨rfl, rfl, rfl, rfl, rfl, ?_, ?_, fun _ _ => rfl, fun _ _ => rfl,
             fun _ _ => rfl, fun _ _ => rfl, fun _ _ => rfl, ?_⟩, rfl, rfl, rfl, rfl, rfl,
             ?_, ?_, ?_, ?_, ?_⟩
           · intro e he
             simp [Function.update_noteq he]
           · intro e he
             simp [Function.update_noteq he]
           · intro e he
             simp [Function.update_noteq he]
           · simp [ho]
           · simp [hk]
           · intro ht
             exact absurd ht htag
           · intro hc1
             first
             | exact absurd hc1 hc
             | exact hc1
             | simp [hc1]
           · intro pb _ hc1 hpb hz1
             have hpb1 : pb = p_bod := (Option.some.inj hpb).symm
             subst hpb1
             first
             | exact absurd hc1 hc
             | exact absurd hz1 hz
             | exact ⟨_, _, Function.update_same _ _ _, rfl, Function.update_same _ _ _, rfl⟩)

/-- What CalculateImpulse leaves alone, when it returns a registry: it writes only the Orbit,
the Kinematics, the DirtyOrbit marker and the Impulse of the body, keeps the reference body
and the center, and returns the registry itself for a body without Impulse. -/
theorem CalculateImpulse_rel (m : Externals R E) (r r4 : Registry R E) (body parent : Entity)
    (h : CalculateImpulse m r body parent = some r4) :
    Registry.SameExceptAt body r r4 ∧ r4.crash = r.crash ∧
      r4.futurePosition = r.futurePosition ∧ r4.commandQueue = r.commandQueue ∧
      r4.setTrueAnomaly = r.setTrueAnomaly ∧
      (r4.orbit body).map (fun o => o.reference_body) =
        (r.orbit body).map (fun o => o.reference_body) ∧
      ((r.orbit body).isSome = true → (r4.orbit body).isSome = true) ∧
      ((r.kinematics body).isSome = true → (r4.kinematics body).isSome = true) ∧
      (r.impulse body = none → r4 = r) := by
  cases hi : r.impulse body with
  | none =>
    rw [CalculateImpulse_none m r body parent hi] at h
    cases h
    exact ⟨Registry.SameExceptAt.refl _ _, rfl, rfl, rfl, rfl, rfl, id, id, fun _ => rfl⟩
  | some imp =>
    cases ho : r.orbit body with
    | none => simp [CalculateImpulse, hi, ho] at h
    | some orb =>
      rw [CalculateImpulse_eq m r body parent orb imp ho hi] at h
      cases h
      refine ⟨⟨rfl, rfl, rfl, rfl, rfl, ?_, ?_, fun _ _ => rfl, fun _ _ => rfl, ?_,
        fun _ _ => rfl, ?_, fun _ _ => rfl⟩, rfl, rfl, rfl, rfl, ?_, ?_, ?_, ?_⟩
      · intro e he
        simp [Function.update_noteq he]
      · intro e he
        simp [Function.update_noteq he]
      · intro e he
        simp [Function.update_noteq he]
      · intro e he
        simp [Function.update_noteq he]
      · simp
      · simp
      · simp
      · intro hn
        simp at hn

/-- The two outcomes of EnterSOI when it returns: either false with the registry it was given,
or true with the body, which has no Body, reparented under the first child S of the parent
that qualifies. -/
theorem EnterSOI_cases (m : Externals R E) (r r1 : Registry R E) (parent body : Entity)
    (b : Bool) (h : EnterSOI m r parent body = some (r1, b)) :
    (b = false ∧ r1 = r) ∨
    (b = true ∧ r.body body = none ∧
      ∃ l pos S bS k, r.orbitalSystem parent = some l ∧ r.kinematics body = some pos ∧
        l.find? (SiblingQualifies m r body pos) = some S ∧ S ∈ l ∧ S ≠ body ∧
        r.body S = some bS ∧ r.kinematics S = some k ∧
        m.distance k.position pos.position ≤ bS.SOI ∧
        EnterSOI.reparent m r parent body S pos bS k = some r1) := by
  unfold EnterSOI at h
  by_cases htag : (r.body body).isSome = true
  · simp only [htag, if_true, Option.some.injEq, Prod.mk.injEq] at h
    exact Or.inl ⟨h.2.symm, h.1.symm⟩
  · have hbody : r.body body = none := by
      cases hb : r.body body with
      | none => rfl
      | some x => simp [hb] at htag
    simp only [hbody, Option.isSome_none, Bool.false_eq_true, if_false] at h
    cases hk : r.kinematics body with
    | none => simp [hk] at h
    | some pos =>
      cases ho : r.orbit body with
      | none => simp [hk, ho] at h
      | some orb =>
        cases hs : r.orbitalSystem parent with
        | none => simp [hk, ho, hs] at h
        | some l =>
          simp only [hk, ho, hs] at h
          cases hfind : l.find? (SiblingQualifies m r body pos) with
          | none =>
            have hnone : ∀ S ∈ l, SiblingQualifies m r body pos S = false := by
              intro S hS
              have := List.find?_eq_none.mp hfind S hS
              simpa using this
            rw [EnterSOI.scan_none m r parent body pos l hnone] at h
            simp only [Option.some.injEq, Prod.mk.injEq] at h
            exact Or.inl ⟨h.2.symm, h.1.symm⟩
          | some S =>
            have hq : SiblingQualifies m r body pos S = true := List.find?_some hfind
            obtain ⟨bS, k, hb, hSk, hSne, hdist⟩ :=
              SiblingQualifies.components m r body pos S hq
            have hSl : S ∈ l := List.mem_of_find?_eq_some hfind
            rw [EnterSOI.scan_find m r parent body pos l S bS k hfind hb hSk] at h
            cases hrep : EnterSOI.reparent m r parent body S pos bS k with
            | none => simp [hrep] at h
            | some r2 =>
              simp only [hrep, Option.map_some', Option.some.injEq, Prod.mk.injEq] at h
              refine Or.inr ⟨h.2.symm, hbody, l, pos, S, bS, k, rfl, rfl, hfind, hSl, hSne, hb,
                hSk, hdist, ?_⟩
              rw [hrep, h.1]

/-! ### OrbitalSystem components with an empty child list -/

/-- LeaveSOI removes no OrbitalSystem component, and leaves non-empty every child list other
than the one of the parent. -/
theorem LeaveSOI_systems (m : Externals R E) (r r1 : Registry R E) (body parent : Entity)
    (h : LeaveSOI m r body parent = some r1) :
    r.SystemsKept r1 ∧
      (r.SystemsNonEmpty → ∀ e l, e ≠ parent → r1.orbitalSystem e = some l → l ≠ []) := by
  obtain ⟨-, -, -, -, -, -, -, -, -, -, -, -, hsys⟩ := LeaveSOI_rel m r r1 body parent h
  rcases hsys with hsys | ⟨g, gsys, pt, hg, hpt, hsys⟩
  · refine ⟨?_, ?_⟩
    · intro e he
      rw [hsys]
      exact he
    · intro hne e l _ hl
      rw [hsys] at hl
      exact hne e l hl
  · refine ⟨?_, ?_⟩
    · intro e he
      rw [hsys]
      by_cases hep : e = parent
      · subst hep
        rw [Function.update_same]
        rfl
      · by_cases heg : e = g
        · subst heg
          rw [Function.update_noteq hep, Function.update_same]
          rfl
        · simpa [Function.update_noteq hep, Function.update_noteq heg] using he
    · intro hne e l hep hl
      rw [hsys, Function.update_noteq hep] at hl
      by_cases heg : e = g
      · subst heg
        rw [Function.update_same] at hl
        cases hl
        simp
      · rw [Function.update_noteq heg] at hl
        exact hne e l hl

/-- EnterSOI removes no OrbitalSystem component and leaves every child list non-empty: the
parent keeps the sibling the body moves to. -/
theorem EnterSOI_systems (m : Externals R E) (r r1 : Registry R E) (parent body : Entity)
    (b : Bool) (h : EnterSOI m r parent body = some (r1, b)) :
    r.SystemsKept r1 ∧ (r.SystemsNonEmpty → r1.SystemsNonEmpty) := by
  rcases EnterSOI_cases m r r1 parent body b h with ⟨-, h1⟩ |
    ⟨-, -, l, pos, S, bS, k, hl, -, -, hSl, hSne, -, -, -, hrep⟩
  · subst h1
    exact ⟨fun e he => he, id⟩
  · rw [EnterSOI.reparent_eq m r parent body S pos bS k l hl] at hrep
    cases hrep
    refine ⟨?_, ?_⟩
    · intro e he
      show (Function.update (Function.update r.orbitalSystem S _) parent _ e).isSome = true
      by_cases hep : e = parent
      · subst hep
        rw [Function.update_same]
        rfl
      · by_cases heS : e = S
        · subst heS
          rw [Function.update_noteq hep, Function.update_same]
          rfl
        · simpa [Function.update_noteq hep, Function.update_noteq heS] using he
    · intro hne e l1 hl1
      change Function.update (Function.update r.orbitalSystem S _) parent _ e = some l1 at hl1
      by_cases hep : e = parent
      · subst hep
        rw [Function.update_same] at hl1
        cases hl1
        have hmem : S ∈ eraseAll (if e = S then l ++ [body] else l) body := by
          rw [eraseAll_eq_filter]
          refine List.mem_filter.mpr ⟨?_, by simpa using hSne⟩
          split
          · exact List.mem_append_left _ hSl
          · exact hSl
        exact List.ne_nil_of_mem hmem
      · rw [Function.update_noteq hep] at hl1
        by_cases heS : e = S
        · subst heS
          rw [Function.update_same] at hl1
          cases hl1
          simp
        · rw [Function.update_noteq heS] at hl1
          exact hne e l1 hl1

/-- A node visit removes no OrbitalSystem component. -/
theorem ParseOrbitTree.visit_systems (m : Externals R E) (r r1 : Registry R E)
    (parent : Option Entity) (body : Entity)
    (h : ParseOrbitTree.visit m parent body r = some r1) : r.SystemsKept r1 := by
  obtain ⟨rp, rf, hp, hf, hfu⟩ := ParseOrbitTree.visit_stages m r r1 parent body h
  have h1 := (ParseOrbitTree.propagate_spec m r rp parent body hp).1.orbitalSystem
  have h3 := (ParseOrbitTree.future_spec m rf r1 body hfu).1.orbitalSystem
  have h2 : rp.SystemsKept rf := by
    cases parent with
    | none =>
      simp only at hf
      subst hf
      exact fun e he => he
    | some p =>
      simp only at hf
      obtain ⟨pb, pos, r2, r3, r4, pos1, p_pos, b, -, -, hL, hC, hI, -, -, hE⟩ :=
        ParseOrbitTree.frame_stages m rp rf p body hf
      have he : (rp.emplaceKinematics m p).orbitalSystem = rp.orbitalSystem := by
        unfold Registry.emplaceKinematics
        cases rp.kinematics p <;> rfl
      have hL1 : (rp.emplaceKinematics m p).SystemsKept r2 := by
        split at hL
        · exact (LeaveSOI_systems m _ r2 body p hL).1
        · cases hL
          exact fun e he => he
      have hC1 := (CrashObject_rel m r2 r3 body p hC).1.orbitalSystem
      have hI1 := (CalculateImpulse_rel m r3 r4 body p hI).1.orbitalSystem
      have hE1 := (EnterSOI_systems m _ rf p body b hE).1
      intro e hx
      apply hE1
      show (r4.orbitalSystem e).isSome = true
      rw [hI1, hC1]
      apply hL1
      rw [he]
      exact hx
  intro e hx
  rw [h3]
  apply h2
  rw [h1]
  exact hx

/-- The walk removes no OrbitalSystem component. -/
theorem ParseOrbitTree_systems (m : Externals R E) (fuel : Nat) :
    ∀ (parent : Option Entity) (body : Entity) (r r1 : Registry R E),
      ParseOrbitTree m fuel parent body r = some r1 → r.SystemsKept r1 := by
  induction fuel with
  | zero =>
    intro parent body r r1 h
    cases h
  | succ n ih =>
    intro parent body r r1 h
    rw [ParseOrbitTree] at h
    cases hval : r.valid body with
    | false =>
      simp only [hval, if_true, Option.some.injEq] at h
      subst h
      exact fun e he => he
    | true =>
      simp only [hval, Bool.true_eq_false, if_false] at h
      cases hv : ParseOrbitTree.visit m parent body r with
      | none => simp [hv] at h
      | some rv =>
        simp only [hv] at h
        have h1 := ParseOrbitTree.visit_systems m r rv parent body hv
        cases hc : rv.orbitalSystem body with
        | none =>
          simp only [hc, Option.some.injEq] at h
          subst h
          exact h1
        | some children =>
          simp only [hc] at h
          have h2 := ParseOrbitTree.loop_rel (fun s => s.orbitalSystem body)
            (fun entity acc => ParseOrbitTree m n (some body) entity acc)
            Registry.SystemsKept (fun _ e he => he)
            (fun _ _ _ hab hbc e he => hbc e (hab e he))
            (fun e b b1 hs => ih (some body) e b b1 hs) _ _ _ rv r1 h
          exact fun e he => h2 e (h1 e he)

/-- The walk with a log of the SOI exits computes the registry ParseOrbitTree computes. -/
theorem ParseOrbitTree.exitLog_fst (m : Externals R E) (fuel : Nat) :
    ∀ (parent : Option Entity) (body : Entity) (acc : Registry R E × List Entity),
      (ParseOrbitTree.exitLog m fuel parent body acc).map Prod.fst =
        ParseOrbitTree m fuel parent body acc.1 := by
  induction fuel with
  | zero =>
    intro parent body acc
    rfl
  | succ n ih =>
    intro parent body acc
    rw [ParseOrbitTree.exitLog, ParseOrbitTree]
    cases hval : acc.1.valid body with
    | false => simp
    | true =>
      simp only [Bool.true_eq_false, if_false]
      cases hv : ParseOrbitTree.visit m parent body acc.1 with
      | none => rfl
      | some r1 =>
        simp only []
        cases hc : r1.orbitalSystem body with
        | none => rfl
        | some children =>
          simp only []
          exact ParseOrbitTree.loop_map Prod.fst (fun s => s.orbitalSystem body) _ _
            (fun e a => ih (some body) e a) _ _ _ _

/-- Registries with the same child lists have their empty child lists at the same
entities. -/
theorem Registry.EmptyOnlyAt.of_eq {S F : Type} {r r1 : Registry S F} {X : List Entity}
    (h : r.EmptyOnlyAt X) (he : r1.orbitalSystem = r.orbitalSystem) : r1.EmptyOnlyAt X := by
  intro e l hl
  rw [he] at hl
  exact h e l hl

/-- A longer list of exceptions is still a list of exceptions. -/
theorem Registry.EmptyOnlyAt.append {S F : Type} {r : Registry S F} {X : List Entity}
    (h : r.EmptyOnlyAt X) (Y : List Entity) : r.EmptyOnlyAt (X ++ Y) :=
  fun e l hl hn => List.mem_append_left Y (h e l hl hn)

/-- After LeaveSOI the parent is the only entity whose child list can have become empty. -/
theorem LeaveSOI_emptyOnlyAt (m : Externals R E) (r r1 : Registry R E) (body parent : Entity)
    (X : List Entity) (h : LeaveSOI m r body parent = some r1) (hX : r.EmptyOnlyAt X) :
    r1.EmptyOnlyAt (X ++ [parent]) := by
  obtain ⟨-, -, -, -, -, -, -, -, -, -, -, -, hsys⟩ := LeaveSOI_rel m r r1 body parent h
  rcases hsys with hsys | ⟨g, gsys, pt, hg, hpt, hsys⟩
  · exact (hX.of_eq hsys).append [parent]
  · intro e l hl hn
    rw [hsys] at hl
    by_cases hep : e = parent
    · rw [hep]
      simp
    · rw [Function.update_noteq hep] at hl
      by_cases heg : e = g
      · subst heg
        rw [Function.update_same] at hl
        cases hl
        simp at hn
      · rw [Function.update_noteq heg] at hl
        exact List.mem_append_left _ (hX e l hl hn)

/-- EnterSOI empties no child list. -/
theorem EnterSOI_emptyOnlyAt (m : Externals R E) (r r1 : Registry R E) (parent body : Entity)
    (b : Bool) (X : List Entity) (h : EnterSOI m r parent body = some (r1, b))
    (hX : r.EmptyOnlyAt X) : r1.EmptyOnlyAt X := by
  rcases EnterSOI_cases m r r1 parent body b h with ⟨-, h1⟩ |
    ⟨-, -, l, pos, S, bS, k, hl, -, -, hSl, hSne, -, -, -, hrep⟩
  · subst h1
    exact hX
  · rw [EnterSOI.reparent_eq m r parent body S pos bS k l hl] at hrep
    cases hrep
    intro e l1 hl1 hn
    change Function.update (Function.update r.orbitalSystem S _) parent _ e = some l1 at hl1
    by_cases hep : e = parent
    · subst hep
      rw [Function.update_same] at hl1
      cases hl1
      have hmem : S ∈ eraseAll (if e = S then l ++ [body] else l) body := by
        rw [eraseAll_eq_filter]
        refine List.mem_filter.mpr ⟨?_, by simpa using hSne⟩
        split
        · exact List.mem_append_left _ hSl
        · exact hSl
      rw [hn] at hmem
      cases hmem
    · rw [Function.update_noteq hep] at hl1
      by_cases heS : e = S
      · subst heS
        rw [Function.update_same] at hl1
        cases hl1
        simp at hn
      · rw [Function.update_noteq heS] at hl1
        exact hX e l1 hl1 hn

/-- A node visit can empty the child list of the parent only, and only when SOI exit moves
the body out of it. -/
theorem ParseOrbitTree.visit_emptyOnlyAt (m : Externals R E) (r r1 : Registry R E)
    (parent : Option Entity) (body : Entity) (X : List Entity)
    (h : ParseOrbitTree.visit m parent body r = some r1) (hX : r.EmptyOnlyAt X) :
    r1.EmptyOnlyAt (ParseOrbitTree.noteExit m parent body r X) := by
  obtain ⟨rp, rf, hp, hf, hfu⟩ := ParseOrbitTree.visit_stages m r r1 parent body h
  have h1 := (ParseOrbitTree.propagate_spec m r rp parent body hp).1.orbitalSystem
  have h3 := (ParseOrbitTree.future_spec m rf r1 body hfu).1.orbitalSystem
  cases parent with
  | none =>
    simp only at hf
    subst hf
    exact hX.of_eq (h3.trans h1)
  | some p =>
    simp only [ParseOrbitTree.noteExit] at hf ⊢
    obtain ⟨pb, pos, r2, r3, r4, pos1, p_pos, b, hpb, hpos, hL, hC, hI, -, -, hE⟩ :=
      ParseOrbitTree.frame_stages m rp rf p body hf
    have he : (rp.emplaceKinematics m p).orbitalSystem = rp.orbitalSystem := by
      unfold Registry.emplaceKinematics
      cases rp.kinematics p <;> rfl
    have hXe : (rp.emplaceKinematics m p).EmptyOnlyAt X := hX.of_eq (he.trans h1)
    have h2 : r2.EmptyOnlyAt (if ParseOrbitTree.exits m p body r then X ++ [p] else X) := by
      unfold ParseOrbitTree.exits
      simp only [hp, hpb, hpos]
      by_cases htest : m.length pos.position > pb.SOI
      · simp only [htest, if_true] at hL
        cases hpo : (rp.emplaceKinematics m p).orbit p with
        | none => simp [LeaveSOI, hpo] at hL
        | some po =>
          simp only []
          rcases Option.eq_none_or_eq_some po.reference_body with href | ⟨g, href⟩
          · rw [LeaveSOI_root m _ body p po hpo href] at hL
            cases hL
            simpa [href] using hXe
          · simp only [htest, href, decide_True, Option.isSome_some, Bool.and_self, if_true]
            exact LeaveSOI_emptyOnlyAt m _ r2 body p X hL hXe
      · simp only [htest, if_false, Option.some.injEq] at hL
        subst hL
        cases hpo : (rp.emplaceKinematics m p).orbit p with
        | none => simpa using hXe
        | some po => simpa [htest] using hXe
    have hC1 := (CrashObject_rel m r2 r3 body p hC).1.orbitalSystem
    have hI1 := (CalculateImpulse_rel m r3 r4 body p hI).1.orbitalSystem
    have h4 : (r4.setKinematics body
        { pos1 with center := p_pos.center + p_pos.position }).EmptyOnlyAt
        (if ParseOrbitTree.exits m p body r then X ++ [p] else X) :=
      h2.of_eq (show r4.orbitalSystem = r2.orbitalSystem from hI1.trans hC1)
    exact (EnterSOI_emptyOnlyAt m _ rf p body b _ hE h4).of_eq h3

/-- The walk can empty a child list only at the entities its log of SOI exits names. -/
theorem ParseOrbitTree.exitLog_emptyOnlyAt (m : Externals R E) (fuel : Nat) :
    ∀ (parent : Option Entity) (body : Entity) (acc out : Registry R E × List Entity),
      ParseOrbitTree.exitLog m fuel parent body acc = some out →
      acc.1.EmptyOnlyAt acc.2 → out.1.EmptyOnlyAt out.2 := by
  induction fuel with
  | zero =>
    intro parent body acc out h
    cases h
  | succ n ih =>
    intro parent body acc out h hX
    rw [ParseOrbitTree.exitLog] at h
    cases hval : acc.1.valid body with
    | false =>
      simp only [hval, if_true, Option.some.injEq] at h
      subst h
      exact hX
    | true =>
      simp only [hval, Bool.true_eq_false, if_false] at h
      cases hv : ParseOrbitTree.visit m parent body acc.1 with
      | none => simp [hv] at h
      | some rv =>
        simp only [hv] at h
        have h1 := ParseOrbitTree.visit_emptyOnlyAt m acc.1 rv parent body acc.2 hv hX
        cases hc : rv.orbitalSystem body with
        | none =>
          simp only [hc, Option.some.injEq] at h
          subst h
          exact h1
        | some children =>
          simp only [hc] at h
          exact ParseOrbitTree.loop_rel (fun a => a.1.orbitalSystem body)
            (fun entity a => ParseOrbitTree.exitLog m n (some body) entity a)
            (fun a b => a.1.EmptyOnlyAt a.2 → b.1.EmptyOnlyAt b.2) (fun _ hx => hx)
            (fun _ _ _ hab hbc hx => hbc (hab hx))
            (fun e a b hs => ih (some body) e a b hs) _ _ _ _ out h h1

/-- C16 at a failing input: in the scenario where the probe is the only child of the planet,
every OrbitalSystem has a non-empty child list (star [1], planet [3]). The probe is 200 from
the planet, outside its SOI of 100: LeaveSOI moves it to the star and leaves the planet with an
OrbitalSystem whose child list is empty, and so does the whole DoSystem tick, whose log of SOI
exits names the planet. -/
theorem LeaveSOI_leaves_empty_child_list :
    loneScene.SystemsNonEmpty ∧
    [0, 1, 2, 3].map loneScene.orbitalSystem = [some [1], some [3], none, none] ∧
    (LeaveSOI frozenMath loneScene 3 1).map (fun r => (r.orbitalSystem 0, r.orbitalSystem 1)) =
      some (some [1, 3], some []) ∧
    (DoSystem frozenMath 4 0 0 loneScene).map
        (fun r => (r.orbitalSystem 0, r.orbitalSystem 1)) = some (some [1, 3], some []) ∧
    (ParseOrbitTree.exitLog frozenMath 4 none 0 (loneScene, [])).map Prod.snd = some [1] := by
  refine ⟨?_, by decide, by decide, by decide, by decide⟩
  intro e l h
  rcases e with _ | _ | e
  · cases h
    simp
  · cases h
    simp
  · cases h

/-- C16, amended: an OrbitalSystem component is never removed, and only the parent that a
body leaves by SOI exit can be left with an empty child list. From a registry where every
OrbitalSystem has a non-empty child list: LeaveSOI keeps every OrbitalSystem and leaves
non-empty every child list other than the parent's; EnterSOI keeps every OrbitalSystem and
leaves every child list non-empty; and after a whole DoSystem tick every OrbitalSystem is
kept and every child list is non-empty except those of the entities in the log of the SOI
exits of the tick (ParseOrbitTree.exitLog: the parents that a visited body left by SOI
exit). -/
theorem OrbitalSystem_kept (m : Externals R E) (r : Registry R E) (parent body : Entity)
    (fuel : Nat) (center : Entity) (time : R) :
    (∀ r1, r.SystemsNonEmpty → LeaveSOI m r body parent = some r1 →
      r.SystemsKept r1 ∧ ∀ e l, e ≠ parent → r1.orbitalSystem e = some l → l ≠ []) ∧
    (∀ r1 b, r.SystemsNonEmpty → EnterSOI m r parent body = some (r1, b) →
      r.SystemsKept r1 ∧ r1.SystemsNonEmpty) ∧
    (∀ r1, r.SystemsNonEmpty → DoSystem m fuel center time r = some r1 →
      ∃ X, ParseOrbitTree.exitLog m fuel none center (r, []) = some (r1, X) ∧
        r.SystemsKept r1 ∧ ∀ e l, r1.orbitalSystem e = some l → e ∉ X → l ≠ []) := by
  refine ⟨?_, ?_, ?_⟩
  · intro r1 hne h
    exact ⟨(LeaveSOI_systems m r r1 body parent h).1,
      (LeaveSOI_systems m r r1 body parent h).2 hne⟩
  · intro r1 b hne h
    exact ⟨(EnterSOI_systems m r r1 parent body b h).1,
      (EnterSOI_systems m r r1 parent body b h).2 hne⟩
  · intro r1 hne h
    have hfst := ParseOrbitTree.exitLog_fst m fuel none center (r, [])
    unfold DoSystem at h
    cases hx : ParseOrbitTree.exitLog m fuel none center (r, []) with
    | none =>
      rw [hx, h] at hfst
      cases hfst
    | some out =>
      rw [hx, h, Option.map_some', Option.some.injEq] at hfst
      obtain ⟨r2, X⟩ := out
      simp only at hfst
      subst hfst
      have hX := ParseOrbitTree.exitLog_emptyOnlyAt m fuel none center (r, []) (r2, X) hx
        (fun e l hl hn => absurd hn (hne e l hl))
      refine ⟨X, rfl, ParseOrbitTree_systems m fuel none center r r2 h, ?_⟩
      intro e l hl hnX hn
      exact hnX (hX e l hl hn)

/-- Witness of C16: on the scenario with the probe at x = 57, where the child lists are star
[1] and planet [2, 3], LeaveSOI of the probe leaves the star with [1, 3], EnterSOI moves the
probe under the moon and leaves the planet with [2] and the moon with [3], and the whole
tick, in which no SOI exit fires (the log of the exits is empty), leaves every child list
non-empty. -/
theorem OrbitalSystem_kept_witness :
    ((scene 57).SystemsKept ((LeaveSOI frozenMath (scene 57) 3 1).getD (scene 57)) ∧
      ∀ e l, e ≠ 1 →
        ((LeaveSOI frozenMath (scene 57) 3 1).getD (scene 57)).orbitalSystem e = some l →
        l ≠ []) ∧
    ((scene 57).SystemsKept sceneEntered ∧ sceneEntered.SystemsNonEmpty) ∧
    (∃ X, ParseOrbitTree.exitLog frozenMath 4 none 0 (scene 57, []) = some (sceneWalked, X) ∧
      (scene 57).SystemsKept sceneWalked ∧
      ∀ e l, sceneWalked.orbitalSystem e = some l → e ∉ X → l ≠ []) ∧
    (ParseOrbitTree.exitLog frozenMath 4 none 0 (scene 57, [])).map Prod.snd = some [] :=
  have hne : (scene 57).SystemsNonEmpty := by
    intro e l h
    rcases e with _ | _ | e
    · cases h
      simp
    · cases h
      simp
    · cases h
  ⟨(OrbitalSystem_kept frozenMath (scene 57) 1 3 4 0 0).1 _ hne
      (Option.eq_some_getD _ (scene 57) (by decide)),
    (OrbitalSystem_kept frozenMath (scene 57) 1 3 4 0 0).2.1 sceneEntered true hne
      (Option.eq_some_of_map_snd _ (scene 57, false) (by decide)),
    (OrbitalSystem_kept frozenMath (scene 57) 1 3 4 0 0).2.2 sceneWalked hne
      (Option.eq_some_getD _ (scene 57) (by decide)),
    by decide⟩

/-! ### The visit of a crashed body -/

/-- The call get_or_emplace<Kinematics> changes nothing for an entity that has one. -/
theorem Registry.emplaceKinematics_of_some {S F : Type} (m : Externals S F)
    (r : Registry S F) (e : Entity) (k : Kinematics S) (h : r.kinematics e = some k) :
    r.emplaceKinematics m e = r := by
  simp [Registry.emplaceKinematics, h]

/-- C12 at a failing input: the probe, without Body and without Impulse, is marked Crash and
sits at the planet's center with a semi-major axis 0; the moon is 50 from the planet's center
and its SOI is 60. CrashObject on that registry returns the probe pinned, position at the
origin and semi-major axis 0. The visit of the probe under the planet pins it in CrashObject
as well, and EnterSOI then finds the origin within the SOI of the moon and rewrites the state
relative to the moon: the visit ends with position (-50, 0, 0) and a semi-major axis 50. -/
theorem ParseOrbitTree_visit_crashed_not_pinned :
    (wideMoonScene.crash 3, wideMoonScene.body 3) = (true, none) ∧
    (wideMoonScene.impulse 3, wideMoonScene.orbitalSystem 1) = (none, some [2, 3]) ∧
    ((wideMoonScene.kinematics 3).map (fun k => k.position),
      (wideMoonScene.orbit 3).map (fun o => o.semi_major_axis)) = (some 0, some 0) ∧
    ((wideMoonScene.kinematics 2).map (fun k => k.position),
      (wideMoonScene.body 2).map (fun b => b.SOI)) = (some ⟨50, 0, 0⟩, some 60) ∧
    (CrashObject frozenMath wideMoonScene 3 1).map
        (fun r => ((r.kinematics 3).map (fun k => k.position),
          (r.orbit 3).map (fun o => o.semi_major_axis))) =
      some (some 0, some 0) ∧
    (ParseOrbitTree.visit frozenMath (some 1) 3 wideMoonScene).map
        (fun r => ((r.kinematics 3).map (fun k => k.position),
          (r.orbit 3).map (fun o => o.semi_major_axis))) =
      some (some ⟨-50, 0, 0⟩, some 50) := by
  decide

/-- C13 at a failing input: the probe, without Body, is marked Crash and sits at the planet's
center, within the planet's SOI; its reference body is the planet, whose child list is
[2, 3]. The moon is 50 from the planet's center and its SOI is 60. In the visit of the probe
under the planet SOI entry fires: the probe's reference body becomes the moon, the planet's
child list becomes [2] and the moon gets the child list [3]. -/
theorem ParseOrbitTree_visit_crashed_enters_SOI :
    (wideMoonScene.crash 3, wideMoonScene.body 3) = (true, none) ∧
    ((wideMoonScene.orbit 3).map (fun o => o.reference_body),
      (wideMoonScene.kinematics 3).map (fun k => k.position)) = (some (some 1), some 0) ∧
    (wideMoonScene.orbitalSystem 1, wideMoonScene.orbitalSystem 2) = (some [2, 3], none) ∧
    (ParseOrbitTree.visit frozenMath (some 1) 3 wideMoonScene).map
        (fun r => (r.orbit 3).map (fun o => o.reference_body)) = some (some (some 2)) ∧
    (ParseOrbitTree.visit frozenMath (some 1) 3 wideMoonScene).map
        (fun r => (r.orbitalSystem 1, r.orbitalSystem 2)) = some (some [2], some [3]) := by
  decide

/-! ### The walk over a tree without SOI transition -/

/-- The walk with a log computes the registry ParseOrbitTree computes. -/
theorem ParseOrbitTree.trace_fst (m : Externals R E) (fuel : Nat) :
    ∀ (parent : Option Entity) (body : Entity) (acc : Registry R E × List Entity),
      (ParseOrbitTree.trace m fuel parent body acc).map Prod.fst =
        ParseOrbitTree m fuel parent body acc.1 := by
  induction fuel with
  | zero =>
    intro parent body acc
    rfl
  | succ n ih =>
    intro parent body acc
    rw [ParseOrbitTree.trace, ParseOrbitTree]
    cases hval : acc.1.valid body with
    | false => simp
    | true =>
      simp only [Bool.true_eq_false, if_false]
      cases hv : ParseOrbitTree.visit m parent body acc.1 with
      | none => rfl
      | some r1 =>
        simp only []
        cases hc : r1.orbitalSystem body with
        | none => rfl
        | some children =>
          simp only []
          exact ParseOrbitTree.loop_map Prod.fst (fun s => s.orbitalSystem body) _ _
            (fun e a => ih (some body) e a) _ _ _ (r1, acc.2 ++ [body])

/-- A registry has the same frame as itself. -/
theorem Registry.SameFrame.frame_refl {S F : Type} (r : Registry S F) : r.SameFrame r :=
  ⟨rfl, rfl, rfl, rfl, rfl⟩

/-- Equality of frames composes. -/
theorem Registry.SameFrame.frame_trans {S F : Type} {r r1 r2 : Registry S F}
    (h1 : r.SameFrame r1) (h2 : r1.SameFrame r2) : r.SameFrame r2 :=
  ⟨h2.valid.trans h1.valid, h2.bodies.trans h1.bodies,
    h2.orbitalSystem.trans h1.orbitalSystem, h2.date.trans h1.date, h2.sun.trans h1.sun⟩

/-- A registry holds the components it holds. -/
theorem Registry.SameAt.at_refl {S F : Type} (e : Entity) (r : Registry S F) :
    Registry.SameAt e r r :=
  ⟨rfl, rfl, rfl, rfl, rfl, rfl, rfl, rfl⟩

/-- Equality of the components of an entity composes. -/
theorem Registry.SameAt.at_trans {S F : Type} {e : Entity} {r r1 r2 : Registry S F}
    (h1 : Registry.SameAt e r r1) (h2 : Registry.SameAt e r1 r2) : Registry.SameAt e r r2 :=
  ⟨h2.orbit.trans h1.orbit, h2.kinematics.trans h1.kinematics,
    h2.futurePosition.trans h1.futurePosition, h2.commandQueue.trans h1.commandQueue,
    h2.impulse.trans h1.impulse, h2.setTrueAnomaly.trans h1.setTrueAnomaly,
    h2.dirtyOrbit.trans h1.dirtyOrbit, h2.crash.trans h1.crash⟩

/-- Changes confined to the components of the body keep the frame. -/
theorem Registry.SameExceptAt.sameFrame {S F : Type} {body : Entity} {r r1 : Registry S F}
    (h : Registry.SameExceptAt body r r1) : r.SameFrame r1 :=
  ⟨h.valid, h.bodies, h.orbitalSystem, h.date, h.sun⟩

/-- Changes confined to the components of the body keep the components of the others. -/
theorem Registry.SameExceptAt.sameAt {S F : Type} {body : Entity} {r r1 : Registry S F}
    (h : Registry.SameExceptAt body r r1) (e : Entity) (he : e ≠ body) :
    Registry.SameAt e r r1 :=
  ⟨h.orbit e he, h.kinematics e he, h.futurePosition e he, h.commandQueue e he,
    h.impulse e he, h.setTrueAnomaly e he, h.dirtyOrbit e he, h.crash e he⟩

/-- The position lines 127-139 of ParseOrbitTree recompute for the body depends only on the
date and on the Orbit, the CommandQueue and the SetTrueAnomaly of the body; so does whether
they return. -/
theorem ParseOrbitTree.propagate_congr (m : Externals R E) (r r1 : Registry R E)
    (parent : Option Entity) (body : Entity) (hd : r1.date = r.date)
    (ho : r1.orbit body = r.orbit body) (hq : r1.commandQueue body = r.commandQueue body)
    (hs : r1.setTrueAnomaly body = r.setTrueAnomaly body) :
    (ParseOrbitTree.propagate m parent body r1).map
        (fun x => (x.kinematics body).map (fun k => k.position)) =
      (ParseOrbitTree.propagate m parent body r).map
        (fun x => (x.kinematics body).map (fun k => k.position)) := by
  unfold ParseOrbitTree.propagate UpdateCommandQueue
  rw [ho, hq]
  cases hob : r.orbit body with
  | none => rfl
  | some orb =>
    cases hqb : r.commandQueue body with
    | none =>
      cases hk : r.kinematics body <;> cases hk1 : r1.kinematics body <;>
        cases hst : r.setTrueAnomaly body <;>
        simp [Registry.setOrbit, Registry.setKinematics, Registry.emplaceKinematics,
          Registry.removeSetTrueAnomaly, ho, hob, hs, hst, hk, hk1, hd]
    | some q =>
      cases q with
      | nil =>
        cases hk : r.kinematics body <;> cases hk1 : r1.kinematics body <;>
          cases hst : r.setTrueAnomaly body <;>
          simp [Registry.setOrbit, Registry.setKinematics, Registry.emplaceKinematics,
            Registry.removeSetTrueAnomaly, ho, hob, hs, hst, hk, hk1, hd]
      | cons c cs =>
        by_cases ht : c.time > r.date <;>
          cases hk : r.kinematics body <;> cases hk1 : r1.kinematics body <;>
          cases hst : r.setTrueAnomaly body <;>
          simp [Registry.setOrbit, Registry.setKinematics, Registry.emplaceKinematics,
            Registry.removeSetTrueAnomaly, Registry.markDirty, Registry.setCommands, ho, hob,
            hs, hst, hk, hk1, hd, ht]
/-- The visit of a body that has an Orbit, at the root or under a parent that has Body and
Kinematics when the body carries Body and the position recomputed from its Orbit is within the
parent's SOI: the visit returns, it writes only components of the body, the body ends with a
Kinematics whose center is center + position of the parent, with an Orbit, and, for a math
library that keeps the frame, with the reference body it had. -/
theorem ParseOrbitTree.visit_quiet (m : Externals R E) (r : Registry R E)
    (parent : Option Entity) (body : Entity) (o : Orbit R E) (ho : r.orbit body = some o)
    (hpar : ∀ p, parent = some p → p ≠ body ∧ (r.body body).isSome = true ∧
      ∃ pb kp, r.body p = some pb ∧ r.kinematics p = some kp ∧
        ∀ rp k, ParseOrbitTree.propagate m parent body r = some rp →
          rp.kinematics body = some k → m.length k.position ≤ pb.SOI) :
    ∃ r1 k, ParseOrbitTree.visit m parent body r = some r1 ∧
      Registry.SameExceptAt body r r1 ∧ r1.kinematics body = some k ∧
      (∀ p kp, parent = some p → r.kinematics p = some kp →
        k.center = kp.center + kp.position) ∧
      (r1.orbit body).isSome = true ∧
      (m.KeepsFrame → (r1.orbit body).map (fun o1 => o1.reference_body) =
        (r.orbit body).map (fun o1 => o1.reference_body)) := by
  obtain ⟨rp, hp⟩ := ParseOrbitTree.propagate_isSome m r parent body o ho
  obtain ⟨hs, -, -, -, ⟨op, kp0, hop, hkp0, -, -, -⟩, hrefp⟩ :=
    ParseOrbitTree.propagate_spec m r rp parent body hp
  cases parent with
  | none =>
    obtain ⟨r1, h6⟩ := ParseOrbitTree.future_isSome m rp body op kp0 hop hkp0
    obtain ⟨hs6, ho6, hk6, -⟩ := ParseOrbitTree.future_spec m rp r1 body h6
    refine ⟨r1, kp0, ?_, hs.trans hs6, by rw [hk6, hkp0], ?_, by rw [ho6, hop]; rfl, ?_⟩
    · unfold ParseOrbitTree.visit
      simp only [hp, h6]
    · intro p kp h
      cases h
    · intro hm
      rw [ho6]
      exact hrefp hm
  | some p =>
    obtain ⟨hne, htag, pb, kp, hpb, hpk, hin⟩ := hpar p rfl
    have hpkp : rp.kinematics p = some kp := by rw [hs.kinematics p hne, hpk]
    have hemp := Registry.emplaceKinematics_of_some m rp p kp hpkp
    have hpbp : rp.body p = some pb := by rw [hs.bodies, hpb]
    have htagp : (rp.body body).isSome = true := by rw [hs.bodies]; exact htag
    have hquiet : ¬ m.length kp0.position > pb.SOI := not_lt.mpr (hin rp kp0 hp hkp0)
    have h3 : CrashObject m rp body p = some rp := by
      simp [CrashObject, htagp]
    have hop1 : (rp.orbit body).isSome = true := by simp [hop]
    have h4 : ∃ r4, CalculateImpulse m rp body p = some r4 := by
      cases hi : rp.impulse body with
      | none => exact ⟨rp, CalculateImpulse_none m rp body p hi⟩
      | some imp => exact ⟨_, CalculateImpulse_eq m rp body p op imp hop hi⟩
    obtain ⟨r4, h4⟩ := h4
    obtain ⟨hs4, -, -, -, -, href4, ho4, hk4, -⟩ := CalculateImpulse_rel m rp r4 body p h4
    obtain ⟨k4, hk4⟩ := Option.isSome_iff_exists.mp (hk4 (by simp [hkp0]))
    obtain ⟨o4, ho4⟩ := Option.isSome_iff_exists.mp (ho4 hop1)
    have hpk4 : r4.kinematics p = some kp := by rw [hs4.kinematics p hne, hpkp]
    have htag4 : (r4.body body).isSome = true := by rw [hs4.bodies]; exact htagp
    have h5 : EnterSOI m (r4.setKinematics body { k4 with center := kp.center + kp.position })
        p body =
        some (r4.setKinematics body { k4 with center := kp.center + kp.position }, false) := by
      have : ((r4.setKinematics body { k4 with center := kp.center + kp.position }).body
          body).isSome = true := htag4
      simp [EnterSOI, this]
    have hframe : ParseOrbitTree.frame m p body rp =
        some (r4.setKinematics body { k4 with center := kp.center + kp.position }) := by
      unfold ParseOrbitTree.frame
      simp only [hemp, hpbp, hkp0, hquiet, if_false, h3, h4, hk4, hpk4, h5]
    have hs5 : Registry.SameExceptAt body r4
        (r4.setKinematics body { k4 with center := kp.center + kp.position }) := by
      refine ⟨rfl, rfl, rfl, rfl, rfl, fun _ _ => rfl, ?_, fun _ _ => rfl, fun _ _ => rfl,
        fun _ _ => rfl, fun _ _ => rfl, fun _ _ => rfl, fun _ _ => rfl⟩
      intro e he
      simp [Registry.setKinematics, Function.update_noteq he]
    obtain ⟨r1, h6⟩ := ParseOrbitTree.future_isSome m
      (r4.setKinematics body { k4 with center := kp.center + kp.position }) body o4
      { k4 with center := kp.center + kp.position } ho4 (by simp [Registry.setKinematics])
    obtain ⟨hs6, ho6, hk6, -⟩ := ParseOrbitTree.future_spec m _ r1 body h6
    refine ⟨r1, { k4 with center := kp.center + kp.position }, ?_,
      ((hs.trans hs4).trans hs5).trans hs6, ?_, ?_, ?_, ?_⟩
    · unfold ParseOrbitTree.visit
      simp only [hp, hframe, h6]
    · rw [hk6]
      simp [Registry.setKinematics]
    · intro p1 kp1 h1 h2
      cases h1
      rw [hpk] at h2
      cases h2
      rfl
    · rw [ho6]
      show (r4.orbit body).isSome = true
      simp [ho4]
    · intro hm
      rw [ho6]
      show (r4.orbit body).map (fun o1 => o1.reference_body) = _
      rw [href4]
      exact hrefp hm

/-- An entity without child list reaches only itself. -/
theorem Registry.Reaches.eq_of_none {S F : Type} (r : Registry S F) (a b : Entity)
    (h : r.Reaches a b) (hn : r.orbitalSystem a = none) : b = a := by
  rcases Relation.ReflTransGen.cases_head h with h1 | ⟨c, ⟨l, hl, -⟩, -⟩
  · exact h1.symm
  · rw [hn] at hl
    cases hl

/-- The rank does not increase along the child lists of a quiet tree. -/
theorem Registry.QuietTree.rank_le {m : Externals R E} {r : Registry R E} {center : Entity}
    {rank : Entity → Nat} (ht : r.QuietTree m center rank) (a b : Entity)
    (ha : r.Reaches center a) (hab : r.Reaches a b) : rank b ≤ rank a := by
  induction hab with
  | refl => exact le_refl _
  | tail hac hcb ih =>
    exact le_of_lt (lt_of_lt_of_le (ht.rank _ _ (Relation.ReflTransGen.trans ha hac) hcb) ih)

/-- No entity of a quiet tree is reached from one of its children. -/
theorem Registry.QuietTree.not_reaches_parent {m : Externals R E} {r : Registry R E}
    {center : Entity} {rank : Entity → Nat} (ht : r.QuietTree m center rank) (p c : Entity)
    (hp : r.Reaches center p) (hc : r.Child p c) : ¬ r.Reaches c p := by
  intro h
  have h1 := ht.rank p c hp hc
  have h2 := ht.rank_le c p (Relation.ReflTransGen.tail hp hc) h
  omega

/-- Two entities of a quiet tree that reach a common entity are on one branch. -/
theorem Registry.QuietTree.reaches_or {m : Externals R E} {r : Registry R E}
    {center : Entity} {rank : Entity → Nat} (ht : r.QuietTree m center rank) (a b x : Entity)
    (ha : r.Reaches center a) (hb : r.Reaches center b) (hax : r.Reaches a x)
    (hbx : r.Reaches b x) : r.Reaches a b ∨ r.Reaches b a := by
  induction hax with
  | refl => exact Or.inr hbx
  | @tail y x hay hyx ih =>
    rcases Relation.ReflTransGen.cases_tail hbx with h1 | ⟨y1, hby1, hy1x⟩
    · left
      rw [← h1]
      exact Relation.ReflTransGen.tail hay hyx
    · have hyy : y = y1 := ht.parent y y1 x (Relation.ReflTransGen.trans ha hay)
        (Relation.ReflTransGen.trans hb hby1) hyx hy1x
      rw [← hyy] at hby1
      exact ih hby1

/-- The subtrees of two different children of an entity of a quiet tree are disjoint. -/
theorem Registry.QuietTree.disjoint {m : Externals R E} {r : Registry R E}
    {center : Entity} {rank : Entity → Nat} (ht : r.QuietTree m center rank)
    (p c1 c2 x : Entity) (hp : r.Reaches center p) (h1 : r.Child p c1) (h2 : r.Child p c2)
    (hne : c1 ≠ c2) (hx1 : r.Reaches c1 x) : ¬ r.Reaches c2 x := by
  have key : ∀ a b, r.Child p a → r.Child p b → a ≠ b → ¬ r.Reaches a b := by
    intro a b ha hb hab h
    rcases Relation.ReflTransGen.cases_tail h with h3 | ⟨y, hay, hyb⟩
    · exact hab h3.symm
    · have hyp : y = p := ht.parent y p b
        (Relation.ReflTransGen.trans (Relation.ReflTransGen.tail hp ha) hay) hp hyb hb
      rw [hyp] at hay
      exact ht.not_reaches_parent p a hp ha hay
  intro hx2
  rcases ht.reaches_or c1 c2 x (Relation.ReflTransGen.tail hp h1)
      (Relation.ReflTransGen.tail hp h2) hx1 hx2 with h | h
  · exact key c1 c2 h1 h2 hne h
  · exact key c2 c1 h2 h1 (Ne.symm hne) h

/-- A walk over no subtree has done nothing. -/
theorem Registry.WalkedBelow.nil (r0 r : Registry R E) (origin : Option (Vec3 R)) :
    r0.WalkedBelow origin [] r r [] where
  frame := Registry.SameFrame.frame_refl r
  outside := fun x _ => Registry.SameAt.at_refl x r
  reference := fun _ => rfl
  top := fun c hc => absurd hc (List.not_mem_nil c)
  centers := fun c hc => absurd hc (List.not_mem_nil c)
  nodup := List.nodup_nil
  mem := fun x => ⟨fun h => absurd h (List.not_mem_nil x),
    fun ⟨c, hc, _⟩ => absurd hc (List.not_mem_nil c)⟩
  order := fun c hc => absurd hc (List.not_mem_nil c)

/-- The walk over the subtree of c followed by the walk over the subtrees of rest, which are
disjoint from it, is a walk over the subtrees of c :: rest. -/
theorem Registry.WalkedBelow.cons {r0 r ra r1 : Registry R E}
    {origin : Option (Vec3 R)} {c : Entity} {rest L La : List Entity}
    (h1 : r0.WalkedBelow origin [c] r ra L) (h2 : r0.WalkedBelow origin rest ra r1 La)
    (hdis : ∀ x, r0.Reaches c x → ∀ d ∈ rest, ¬ r0.Reaches d x) :
    r0.WalkedBelow origin (c :: rest) r r1 (L ++ La) := by
  have hout : ∀ x, r0.Reaches c x → Registry.SameAt x ra r1 :=
    fun x hx => h2.outside x (hdis x hx)
  refine ⟨h1.frame.frame_trans h2.frame, ?_, ?_, ?_, ?_, ?_, ?_, ?_⟩
  · intro x hx
    refine (h1.outside x ?_).at_trans (h2.outside x ?_)
    · intro d hd
      rw [List.mem_singleton] at hd
      subst hd
      exact hx d (List.mem_cons_self d rest)
    · intro d hd
      exact hx d (List.mem_cons_of_mem c hd)
  · intro x
    rw [h2.reference x, h1.reference x]
  · intro d hd a ha
    rcases List.mem_cons.mp hd with hdc | hdr
    · subst hdc
      obtain ⟨k, hk, hka⟩ := h1.top d (List.mem_singleton_self d) a ha
      exact ⟨k, by rw [(hout d Relation.ReflTransGen.refl).kinematics, hk], hka⟩
    · exact h2.top d hdr a ha
  · intro d hd p e hp he
    rcases List.mem_cons.mp hd with hdc | hdr
    · subst hdc
      obtain ⟨ke, kp, hke, hkp, hc⟩ := h1.centers d (List.mem_singleton_self d) p e hp he
      refine ⟨ke, kp, ?_, ?_, hc⟩
      · rw [(hout e (Relation.ReflTransGen.tail hp he)).kinematics, hke]
      · rw [(hout p hp).kinematics, hkp]
    · exact h2.centers d hdr p e hp he
  · refine List.nodup_append.mpr ⟨h1.nodup, h2.nodup, ?_⟩
    intro x hx hxa
    obtain ⟨d, hd, hdx⟩ := (h1.mem x).mp hx
    rw [List.mem_singleton] at hd
    subst hd
    obtain ⟨d1, hd1, hd1x⟩ := (h2.mem x).mp hxa
    exact hdis x hdx d1 hd1 hd1x
  · intro x
    rw [List.mem_append, h1.mem x, h2.mem x]
    constructor
    · rintro (⟨d, hd, hdx⟩ | ⟨d, hd, hdx⟩)
      · rw [List.mem_singleton] at hd
        subst hd
        exact ⟨d, List.mem_cons_self d rest, hdx⟩
      · exact ⟨d, List.mem_cons_of_mem c hd, hdx⟩
    · rintro ⟨d, hd, hdx⟩
      rcases List.mem_cons.mp hd with hdc | hdr
      · subst hdc
        exact Or.inl ⟨d, List.mem_singleton_self d, hdx⟩
      · exact Or.inr ⟨d, hdr, hdx⟩
  · intro d hd p e hp he
    rcases List.mem_cons.mp hd with hdc | hdr
    · subst hdc
      exact (h1.order d (List.mem_singleton_self d) p e hp he).trans
        (List.sublist_append_left L La)
    · exact (h2.order d hdr p e hp he).trans (List.sublist_append_right L La)

/-- The visit of the body followed by the walk over the subtrees of its children is a walk
over the subtree of the body. -/
theorem Registry.WalkedBelow.node {r0 r rv r1 : Registry R E}
    {origin : Option (Vec3 R)} {body : Entity} {children Ls : List Entity}
    {kb : Kinematics R}
    (hs : Registry.SameExceptAt body r rv) (hk : rv.kinematics body = some kb)
    (htop : ∀ a, origin = some a → kb.center = a)
    (href : (rv.orbit body).map (fun o => o.reference_body) =
      (r.orbit body).map (fun o => o.reference_body))
    (hch : ∀ e, r0.Child body e ↔ e ∈ children)
    (hup : ∀ c ∈ children, ¬ r0.Reaches c body)
    (h2 : r0.WalkedBelow (some (kb.center + kb.position)) children rv r1 Ls) :
    r0.WalkedBelow origin [body] r r1 (body :: Ls) := by
  have hkb : r1.kinematics body = some kb := by
    rw [(h2.outside body hup).kinematics, hk]
  have hdown : ∀ c ∈ children, ∀ x, r0.Reaches c x → r0.Reaches body x :=
    fun c hc x hx => Relation.ReflTransGen.head ((hch c).mpr hc) hx
  refine ⟨hs.sameFrame.frame_trans h2.frame, ?_, ?_, ?_, ?_, ?_, ?_, ?_⟩
  · intro x hx
    have hxb : ¬ r0.Reaches body x := hx body (List.mem_singleton_self body)
    have hne : x ≠ body := by
      intro e
      rw [e] at hxb
      exact hxb Relation.ReflTransGen.refl
    exact (hs.sameAt x hne).at_trans
      (h2.outside x (fun c hc hcx => hxb (hdown c hc x hcx)))
  · intro x
    rw [h2.reference x]
    by_cases hx : x = body
    · rw [hx]
      exact href
    · rw [hs.orbit x hx]
  · intro c hc a ha
    rw [List.mem_singleton] at hc
    subst hc
    exact ⟨kb, hkb, htop a ha⟩
  · intro c hc p e hp he
    rw [List.mem_singleton] at hc
    subst hc
    rcases Relation.ReflTransGen.cases_head hp with h | ⟨d, hd, hdp⟩
    · subst h
      obtain ⟨k, hke, hka⟩ := h2.top e ((hch e).mp he) _ rfl
      exact ⟨k, kb, hke, hkb, hka⟩
    · exact h2.centers d ((hch d).mp hd) p e hdp he
  · refine List.nodup_cons.mpr ⟨?_, h2.nodup⟩
    intro hmem
    obtain ⟨c, hc, hcb⟩ := (h2.mem body).mp hmem
    exact hup c hc hcb
  · intro x
    rw [List.mem_cons, h2.mem x]
    constructor
    · rintro (hx | ⟨c, hc, hcx⟩)
      · subst hx
        exact ⟨x, List.mem_singleton_self x, Relation.ReflTransGen.refl⟩
      · exact ⟨body, List.mem_singleton_self body, hdown c hc x hcx⟩
    · rintro ⟨c, hc, hcx⟩
      rw [List.mem_singleton] at hc
      subst hc
      rcases Relation.ReflTransGen.cases_head hcx with h | ⟨d, hd, hdx⟩
      · exact Or.inl h.symm
      · exact Or.inr ⟨d, (hch d).mp hd, hdx⟩
  · intro c hc p e hp he
    rw [List.mem_singleton] at hc
    subst hc
    rcases Relation.ReflTransGen.cases_head hp with h | ⟨d, hd, hdp⟩
    · subst h
      have hmem : e ∈ Ls := (h2.mem e).mpr ⟨e, (hch e).mp he, Relation.ReflTransGen.refl⟩
      exact List.Sublist.cons₂ c (List.singleton_sublist.mpr hmem)
    · exact List.Sublist.cons c (h2.order d ((hch d).mp hd) p e hdp he)
/-- The walk from an entity of a quiet tree, started on a registry that has the frame of the
tree and still holds the initial components of the subtree of the entity, with the Kinematics
of the parent in place: the walk returns, and it has visited the subtree parents first and
given every entity of it the absolute position of its parent as center, without changing a
child list or a reference body. -/
theorem ParseOrbitTree.trace_quiet (m : Externals R E) (r0 : Registry R E) (center : Entity)
    (rank : Entity → Nat) (hm : m.KeepsFrame) (ht : r0.QuietTree m center rank) (fuel : Nat) :
    ∀ (parent : Option Entity) (body : Entity) (r : Registry R E) (log : List Entity),
      r0.Reaches center body → rank body < fuel →
      (∀ p, parent = some p →
        r0.Reaches center p ∧ r0.Child p body ∧ (r.kinematics p).isSome = true) →
      r0.SameFrame r → (∀ x, r0.Reaches body x → Registry.SameAt x r0 r) →
      ∃ r1 L, ParseOrbitTree.trace m fuel parent body (r, log) = some (r1, log ++ L) ∧
        r0.WalkedBelow ((parent.bind r.kinematics).map (fun k => k.center + k.position))
          [body] r r1 L := by
  induction fuel with
  | zero =>
    intro parent body r log _ h
    omega
  | succ n ih =>
    intro parent body r log hreach hrank hpar hframe hsame
    have hb := hsame body Relation.ReflTransGen.refl
    obtain ⟨o, ho⟩ : ∃ o, r.orbit body = some o := by
      have h1 := ht.orbit body hreach
      rw [← hb.orbit] at h1
      exact Option.isSome_iff_exists.mp h1
    have hparq : ∀ p, parent = some p → p ≠ body ∧ (r.body body).isSome = true ∧
        ∃ pb kp, r.body p = some pb ∧ r.kinematics p = some kp ∧
          ∀ rp k, ParseOrbitTree.propagate m parent body r = some rp →
            rp.kinematics body = some k → m.length k.position ≤ pb.SOI := by
      intro p hp
      subst hp
      obtain ⟨hrp, hcp, hkp⟩ := hpar p rfl
      obtain ⟨pb, hpb⟩ := Option.isSome_iff_exists.mp (ht.parentBody p body hrp hcp)
      obtain ⟨kp, hkp⟩ := Option.isSome_iff_exists.mp hkp
      refine ⟨?_, ?_, pb, kp, ?_, hkp, ?_⟩
      · intro e
        subst e
        have := ht.rank p p hrp hcp
        omega
      · rw [hframe.bodies]
        exact ht.tagged p body hrp hcp
      · rw [hframe.bodies]
        exact hpb
      · intro rp k h1 h2
        have hc := ParseOrbitTree.propagate_congr m r0 r (some p) body hframe.date hb.orbit
          hb.commandQueue hb.setTrueAnomaly
        rw [h1, Option.map_some', h2, Option.map_some'] at hc
        cases h0 : ParseOrbitTree.propagate m (some p) body r0 with
        | none =>
          rw [h0] at hc
          cases hc
        | some rp0 =>
          rw [h0, Option.map_some'] at hc
          cases hk0 : rp0.kinematics body with
          | none =>
            rw [hk0] at hc
            cases hc
          | some k0 =>
            rw [hk0, Option.map_some'] at hc
            have hpos : k.position = k0.position := Option.some.inj (Option.some.inj hc)
            rw [hpos]
            exact ht.inside p body pb rp0 k0 hrp hcp hpb h0 hk0
    obtain ⟨rv, kb, hv, hs, hkb, hcen, -, hrefv⟩ :=
      ParseOrbitTree.visit_quiet m r parent body o ho hparq
    have hval : r.valid body = true := by
      rw [hframe.valid]
      exact ht.valid body hreach
    have hsys : rv.orbitalSystem body = r0.orbitalSystem body := by
      rw [hs.orbitalSystem, hframe.orbitalSystem]
    have htop : ∀ a, (parent.bind r.kinematics).map (fun k => k.center + k.position) = some a →
        kb.center = a := by
      intro a ha
      cases parent with
      | none => cases ha
      | some p =>
        obtain ⟨kp, hkp⟩ := Option.isSome_iff_exists.mp (hpar p rfl).2.2
        simp only [Option.some_bind, hkp, Option.map_some', Option.some.injEq] at ha
        rw [← ha]
        exact hcen p kp rfl hkp
    cases hc : r0.orbitalSystem body with
    | none =>
      refine ⟨rv, [body], ?_, ?_⟩
      · rw [ParseOrbitTree.trace]
        simp [hval, hv, hsys, hc]
      · refine Registry.WalkedBelow.node hs hkb htop (hrefv hm) ?_ ?_
          (Registry.WalkedBelow.nil r0 rv _)
        · intro e
          constructor
          · rintro ⟨l, hl, -⟩
            rw [hc] at hl
            cases hl
          · intro h
            cases h
        · intro c hcm
          cases hcm
    | some children =>
      have hfold : ∀ (cs : List Entity) (i : Nat) (ra : Registry R E) (lg : List Entity),
          children.drop i = cs →
          (∀ c ∈ cs, r0.Child body c) → cs.Nodup → r0.SameFrame ra →
          (∀ c ∈ cs, ∀ x, r0.Reaches c x → Registry.SameAt x r0 ra) →
          ra.kinematics body = some kb →
          ∃ r1 L,
            ParseOrbitTree.loop (fun a => a.1.orbitalSystem body)
              (fun entity a => ParseOrbitTree.trace m n (some body) entity a)
              cs.length i children (ra, lg) = some (r1, lg ++ L) ∧
            r0.WalkedBelow (some (kb.center + kb.position)) cs ra r1 L := by
        intro cs
        induction cs with
        | nil =>
          intro i ra lg _ _ _ _ _ _
          exact ⟨ra, [], by simp [ParseOrbitTree.loop], Registry.WalkedBelow.nil r0 ra _⟩
        | cons c rest ihc =>
          intro i ra lg hdrop hchild hnd hfr hsm hka
          have hcc := hchild c (List.mem_cons_self c rest)
          have hrc : r0.Reaches center c := Relation.ReflTransGen.tail hreach hcc
          have hrk : rank c < n := by
            have := ht.rank body c hreach hcc
            omega
          obtain ⟨rb, L, htr, hw⟩ := ih (some body) c ra lg hrc hrk
            (by
              intro p hp
              cases hp
              exact ⟨hreach, hcc, by simp [hka]⟩)
            hfr (hsm c (List.mem_cons_self c rest))
          have hw1 : r0.WalkedBelow (some (kb.center + kb.position)) [c] ra rb L := by
            simpa [hka] using hw
          have hdis : ∀ x, r0.Reaches c x → ∀ d ∈ rest, ¬ r0.Reaches d x := by
            intro x hx d hd
            have hne : c ≠ d := by
              intro e
              subst e
              exact (List.nodup_cons.mp hnd).1 hd
            exact ht.disjoint body c d x hreach hcc (hchild d (List.mem_cons_of_mem c hd)) hne hx
          have hnb : ¬ r0.Reaches c body := ht.not_reaches_parent body c hreach hcc
          have hout : ∀ x, ¬ r0.Reaches c x → Registry.SameAt x ra rb := by
            intro x hx
            refine hw1.outside x ?_
            intro c1 hc1
            rw [List.mem_singleton] at hc1
            rw [hc1]
            exact hx
          have hget : children[i]? = some c := by
            have h1 : (children.drop i)[0]? = some c := by rw [hdrop]; simp
            rw [List.getElem?_drop] at h1
            simpa using h1
          have hdrop1 : children.drop (i + 1) = rest := by
            have h1 : (children.drop i).drop 1 = rest := by rw [hdrop]; rfl
            rw [List.drop_drop] at h1
            simpa [Nat.add_comm] using h1
          obtain ⟨r1, La, hfo, hwa⟩ := ihc (i + 1) rb (lg ++ L) hdrop1
            (fun d hd => hchild d (List.mem_cons_of_mem c hd)) (List.nodup_cons.mp hnd).2
            (hfr.frame_trans hw1.frame)
            (by
              intro d hd x hx
              exact (hsm d (List.mem_cons_of_mem c hd) x hx).at_trans
                (hout x (fun hcx => hdis x hcx d hd hx)))
            (by rw [(hout body hnb).kinematics, hka])
          refine ⟨r1, L ++ La, ?_, Registry.WalkedBelow.cons hw1 hwa hdis⟩
          have hla : ra.orbitalSystem body = some children := by rw [hfr.orbitalSystem, hc]
          have hlb : rb.orbitalSystem body = some children := by
            rw [hw1.frame.orbitalSystem, hla]
          rw [List.length_cons, ParseOrbitTree.loop_step (fun a => a.1.orbitalSystem body) _
            rest.length i children (ra, lg) (rb, lg ++ L) c children hget htr hla hlb,
            ← List.append_assoc]
          exact hfo
      have hchildren : ∀ e, r0.Child body e ↔ e ∈ children := by
        intro e
        constructor
        · rintro ⟨l, hl, he⟩
          rw [hc] at hl
          cases hl
          exact he
        · intro he
          exact ⟨children, hc, he⟩
      obtain ⟨r1, Ls, hfo, hw⟩ := hfold children 0 rv (log ++ [body]) rfl
        (fun c hcm => (hchildren c).mpr hcm) (ht.nodup body children hreach hc)
        (hframe.frame_trans hs.sameFrame)
        (by
          intro c hcm x hx
          have hxb : x ≠ body := by
            intro e
            subst e
            exact ht.not_reaches_parent _ c hreach ((hchildren c).mpr hcm) hx
          exact (hsame x (Relation.ReflTransGen.head ((hchildren c).mpr hcm) hx)).at_trans
            (hs.sameAt x hxb))
        hkb
      refine ⟨r1, body :: Ls, ?_, Registry.WalkedBelow.node hs hkb htop (hrefv hm) hchildren
        (fun c hcm => ht.not_reaches_parent body c hreach ((hchildren c).mpr hcm)) hw⟩
      rw [ParseOrbitTree.trace]
      simp only [hval, Bool.true_eq_false, if_false, hv, hsys, hc]
      rw [hfo, List.append_assoc]
      rfl

/-- C20: let the registry be a finite tree below the center in which no SOI transition can
fire during the tick (Registry.QuietTree: every entity the walk reaches is valid and has an
Orbit, the child lists form a tree, every non-root entity and its parent carry Body, and the
position recomputed for a non-root entity is within its parent's SOI), and let the fuel exceed
the rank of the center. Then DoSystem returns; the walk visits exactly the entities reachable
from the center, once each, every parent before each of its children; every child list and,
for a math library that keeps the frame (Externals.KeepsFrame), every Orbit.reference_body is
the same after the tick as before; and every entity e in the child list of a reachable p has
Kinematics(e).center = Kinematics(p).center + Kinematics(p).position. -/
theorem DoSystem_quiet_tree (m : Externals R E) (r : Registry R E) (center : Entity)
    (time : R) (fuel : Nat) (rank : Entity → Nat) (hm : m.KeepsFrame)
    (ht : r.QuietTree m center rank) (hfuel : rank center < fuel) :
    ∃ r1 log, DoSystem m fuel center time r = some r1 ∧
      ParseOrbitTree.trace m fuel none center (r, []) = some (r1, log) ∧
      log.Nodup ∧ (∀ e, e ∈ log ↔ r.Reaches center e) ∧
      (∀ p e, r.Reaches center p → r.Child p e → [p, e].Sublist log) ∧
      r1.orbitalSystem = r.orbitalSystem ∧
      (∀ e, (r1.orbit e).map (fun o => o.reference_body) =
        (r.orbit e).map (fun o => o.reference_body)) ∧
      (∀ p e, r.Reaches center p → r.Child p e →
        ∃ ke kp, r1.kinematics e = some ke ∧ r1.kinematics p = some kp ∧
          ke.center = kp.center + kp.position) := by
  obtain ⟨r1, L, htr, hw⟩ := ParseOrbitTree.trace_quiet m r center rank hm ht fuel none center
    r [] Relation.ReflTransGen.refl hfuel
    (by
      intro p hp
      cases hp)
    (Registry.SameFrame.frame_refl r) (fun x _ => Registry.SameAt.at_refl x r)
  rw [List.nil_append] at htr
  have hfst := ParseOrbitTree.trace_fst m fuel none center (r, [])
  rw [htr, Option.map_some'] at hfst
  refine ⟨r1, L, hfst.symm, htr, hw.nodup, ?_, ?_, hw.frame.orbitalSystem, hw.reference, ?_⟩
  · intro e
    rw [hw.mem e]
    constructor
    · rintro ⟨c, hc, hce⟩
      rw [List.mem_singleton] at hc
      rw [← hc]
      exact hce
    · intro he
      exact ⟨center, List.mem_singleton_self center, he⟩
  · exact hw.order center (List.mem_singleton_self center)
  · exact hw.centers center (List.mem_singleton_self center)

/-- The child lists of the scenario quietScene: the star has the planet, the planet the two
moons. -/
theorem quietScene_child (p e : Entity) (h : quietScene.Child p e) :
    (p = 0 ∧ e = 1) ∨ (p = 1 ∧ e = 2) ∨ (p = 1 ∧ e = 3) := by
  obtain ⟨l, hl, he⟩ := h
  rcases p with _ | _ | p
  · cases hl
    simp only [List.mem_singleton] at he
    exact Or.inl ⟨rfl, he⟩
  · cases hl
    simp only [List.mem_cons, List.mem_singleton, List.not_mem_nil, or_false] at he
    rcases he with he | he
    · exact Or.inr (Or.inl ⟨rfl, he⟩)
    · exact Or.inr (Or.inr ⟨rfl, he⟩)
  · cases hl

/-- The entities the walk over quietScene reaches from the star. -/
theorem quietScene_reaches (p e : Entity) (hp : p = 0 ∨ p = 1 ∨ p = 2 ∨ p = 3)
    (h : quietScene.Reaches p e) : e = 0 ∨ e = 1 ∨ e = 2 ∨ e = 3 := by
  induction h with
  | refl => exact hp
  | tail _ hc _ =>
    rcases quietScene_child _ _ hc with ⟨-, h⟩ | ⟨-, h⟩ | ⟨-, h⟩
    · exact Or.inr (Or.inl h)
    · exact Or.inr (Or.inr (Or.inl h))
    · exact Or.inr (Or.inr (Or.inr h))

/-- The scenario quietScene is a tree in which no SOI transition can fire: the planet is 1000
from the star, whose SOI is 100000, and the moons are 50 and 70 from the planet, whose SOI is
100. -/
theorem quietScene_quietTree : quietScene.QuietTree frozenMath 0 (fun e => 2 - e) where
  valid := by
    intro e he
    rcases quietScene_reaches 0 e (Or.inl rfl) he with h | h | h | h <;> subst h <;> rfl
  orbit := by
    intro e he
    rcases quietScene_reaches 0 e (Or.inl rfl) he with h | h | h | h <;> subst h <;> rfl
  rank := by
    intro p e _ hc
    rcases quietScene_child p e hc with ⟨h1, h2⟩ | ⟨h1, h2⟩ | ⟨h1, h2⟩ <;> subst h1 <;>
      subst h2 <;> decide
  parent := by
    intro p q e _ _ hp hq
    rcases quietScene_child p e hp with ⟨h1, h2⟩ | ⟨h1, h2⟩ | ⟨h1, h2⟩ <;>
      rcases quietScene_child q e hq with ⟨h3, h4⟩ | ⟨h3, h4⟩ | ⟨h3, h4⟩ <;>
      subst h1 <;> subst h3 <;> first | rfl | (subst h2; cases h4)
  nodup := by
    intro p l _ hl
    rcases p with _ | _ | p
    · cases hl
      decide
    · cases hl
      decide
    · cases hl
  tagged := by
    intro p e _ hc
    rcases quietScene_child p e hc with ⟨-, h2⟩ | ⟨-, h2⟩ | ⟨-, h2⟩ <;> subst h2 <;> rfl
  parentBody := by
    intro p e _ hc
    rcases quietScene_child p e hc with ⟨h1, -⟩ | ⟨h1, -⟩ | ⟨h1, -⟩ <;> subst h1 <;> rfl
  inside := by
    intro p e pb rp k _ hc hpb h1 h2
    have key : ∀ (p e : Entity) (x : Vec3 Int),
        (ParseOrbitTree.propagate frozenMath (some p) e quietScene).map
          (fun r => (r.kinematics e).map (fun k => k.position)) = some (some x) →
        k.position = x ∨ ParseOrbitTree.propagate frozenMath (some p) e quietScene ≠ some rp ∨
          rp.kinematics e ≠ some k := by
      intro p e x hx
      by_cases h3 : ParseOrbitTree.propagate frozenMath (some p) e quietScene = some rp
      · by_cases h4 : rp.kinematics e = some k
        · rw [h3, Option.map_some', h4, Option.map_some'] at hx
          exact Or.inl (Option.some.inj (Option.some.inj hx))
        · exact Or.inr (Or.inr h4)
      · exact Or.inr (Or.inl h3)
    rcases quietScene_child p e hc with ⟨h3, h4⟩ | ⟨h3, h4⟩ | ⟨h3, h4⟩ <;> subst h3 <;>
      subst h4 <;> cases hpb
    · rcases key 0 1 ⟨1000, 0, 0⟩ (by decide) with h | h | h
      · rw [h]
        decide
      · exact absurd h1 h
      · exact absurd h2 h
    · rcases key 1 2 ⟨50, 0, 0⟩ (by decide) with h | h | h
      · rw [h]
        decide
      · exact absurd h1 h
      · exact absurd h2 h
    · rcases key 1 3 ⟨70, 0, 0⟩ (by decide) with h | h | h
      · rw [h]
        decide
      · exact absurd h1 h
      · exact absurd h2 h

/-- Witness of C20: one tick over the star, the planet and its two moons, all with Body and
within the SOI of their parents, with a math library that leaves the orbits where they are.
The visits are star, planet, moon 2, moon 3, and the centers, all at the origin before the
tick, are the origin for the planet and (1000, 0, 0) for the moons. -/
theorem DoSystem_quiet_tree_witness :
    (∃ r1 log, DoSystem frozenMath 4 0 0 quietScene = some r1 ∧
      ParseOrbitTree.trace frozenMath 4 none 0 (quietScene, []) = some (r1, log) ∧
      log.Nodup ∧ (∀ e, e ∈ log ↔ quietScene.Reaches 0 e) ∧
      (∀ p e, quietScene.Reaches 0 p → quietScene.Child p e → [p, e].Sublist log) ∧
      r1.orbitalSystem = quietScene.orbitalSystem ∧
      (∀ e, (r1.orbit e).map (fun o => o.reference_body) =
        (quietScene.orbit e).map (fun o => o.reference_body)) ∧
      (∀ p e, quietScene.Reaches 0 p → quietScene.Child p e →
        ∃ ke kp, r1.kinematics e = some ke ∧ r1.kinematics p = some kp ∧
          ke.center = kp.center + kp.position)) ∧
    (ParseOrbitTree.trace frozenMath 4 none 0 (quietScene, [])).map Prod.snd =
      some [0, 1, 2, 3] ∧
    (DoSystem frozenMath 4 0 0 quietScene).map
        (fun r => [1, 2, 3].map (fun e => (r.kinematics e).map (fun k => k.center))) =
      some [some 0, some ⟨1000, 0, 0⟩, some ⟨1000, 0, 0⟩] :=
  ⟨DoSystem_quiet_tree frozenMath quietScene 0 0 4 (fun e => 2 - e)
      ⟨fun _ _ => rfl, fun _ _ _ => rfl⟩ quietScene_quietTree (by decide),
    by decide, by decide⟩

end Proofs

end orbit
